import Mathlib

/-!
# MEDUSA data acquisition: verification development

Shallow embedding of the acquisition code of the repository
(`Ctr_Haptic_Control/flir.cpp`, the Spinnaker programs
`AcquisitionUserBuffer.cpp` and `CounterAndTimer.cpp`, and `SpinnakerMFCView.cpp`)
and theorems about it.
-/

set_option linter.dupNamespace false

namespace Medusa

/-! ## 64-bit unsigned arithmetic (`uint64_t`) -/

/-- Number of values of a `uint64_t`. -/
def u64Size : Nat := 2 ^ 64

/-- Addition of two `uint64_t` values: the sum wraps modulo `2^64`. -/
def u64add (a b : Nat) : Nat := (a + b) % u64Size

/-- Subtraction of two `uint64_t` values: the difference wraps modulo `2^64`. -/
def u64sub (a b : Nat) : Nat := (a + u64Size - b % u64Size) % u64Size

/-- Multiplication of two `uint64_t` values: the product wraps modulo `2^64`. -/
def u64mul (a b : Nat) : Nat := (a * b) % u64Size

/-- Division of two `uint64_t` values (the divisor is never zero where it is used). -/
def u64div (a b : Nat) : Nat := a / b

/-- Conversion of an `int64_t` to `uint64_t`, as in
`uint64_t bufferSize = ptrPayloadSize->GetValue();`. -/
def u64ofInt64 (v : Int) : Nat := (v % (u64Size : Int)).toNat

/-! ## Buffer size of `AcquireImages` (AcquisitionUserBuffer.cpp, lines 184-192) -/

/-- Constant `usbPacketSize` of `AcquireImages`. -/
def usbPacketSize : Nat := 1024

/-- The statement
`bufferSize = ((bufferSize + usbPacketSize - 1) / usbPacketSize) * usbPacketSize;`
on `uint64_t` operands. -/
def alignToUsbPacket (bufferSize : Nat) : Nat :=
  u64mul (u64div (u64sub (u64add bufferSize usbPacketSize) 1) usbPacketSize) usbPacketSize

/-- Values of the `DeviceType` node of the transport layer that the source
distinguishes (`DeviceType_GigEVision`, `DeviceType_USB3Vision`); every other
transport is `other`. -/
inductive DeviceType
  | GigEVision
  | USB3Vision
  | other
  deriving DecidableEq, Repr

/-- Lines 187-192 of `AcquireImages`: the buffer size is aligned to 1024 bytes
when the `DeviceType` node exists (`ptrDeviceType != nullptr`) and reads
`DeviceType_USB3Vision`, and is left unchanged otherwise. -/
def alignedBufferSize (deviceType : Option DeviceType) (bufferSize : Nat) : Nat :=
  if deviceType = some DeviceType.USB3Vision then alignToUsbPacket bufferSize else bufferSize

/-- Lines 184-192 of `AcquireImages`: `uint64_t bufferSize = ptrPayloadSize->GetValue();`
followed by the alignment. -/
def computeBufferSize (deviceType : Option DeviceType) (payloadSize : Int) : Nat :=
  alignedBufferSize deviceType (u64ofInt64 payloadSize)

/-! ## Single-precision arithmetic (`float`)

`SetupCounterAndTimer` computes the duty cycle and the pulse rate in `float`
(IEEE 754 binary32, round to nearest, ties to even).  Every finite binary32
value is an integer multiple of `2^-149`, so a `float` is represented exactly
by the integer `v` with value `v * 2^-149`.  The largest magnitude that the
computation reaches on `int64_t` operands is `100 * 2^63`, far below the
overflow threshold of binary32, so the model has no infinities; a division by
zero (which yields an infinity or a NaN, whose conversion to `int64_t` is
undefined) is `none`. -/

/-- Number of units of `2^-149` in `1.0f`. -/
def f32One : Nat := 2 ^ 149

/-- The integer nearest to `n / d`, ties going to the even one. -/
def roundHalfEven (n d : Nat) : Nat :=
  if 2 * (n % d) < d then n / d
  else if d < 2 * (n % d) then n / d + 1
  else if (n / d) % 2 = 0 then n / d
  else n / d + 1

/-- Number of binary digits of `n`, computed with `fuel` halvings at most. -/
def bitLengthAux : Nat → Nat → Nat
  | 0, _ => 0
  | fuel + 1, n => if n = 0 then 0 else bitLengthAux fuel (n / 2) + 1

/-- Number of binary digits of `n`: `0` for `0`, and `e + 1` for
`2^e ≤ n < 2^(e+1)`. -/
def bitLength (n : Nat) : Nat := bitLengthAux n n

/-- Spacing (in units of `2^-149`) of the binary32 values around a magnitude of
`t` units: one unit for the subnormal numbers and the first binade (below
`2^24` units), and `2^(e-23)` for `2^e ≤ t < 2^(e+1)`. -/
def f32Spacing (t : Nat) : Nat := 2 ^ (bitLength t - 24)

/-- Rounding of the non-negative real number `n / d` (in units of `2^-149`) to
the nearest binary32 value, ties to even: 24 significant bits are kept. -/
def f32RoundNat (n d : Nat) : Nat :=
  roundHalfEven n (d * f32Spacing (n / d)) * f32Spacing (n / d)

/-- Rounding of the real number `n / d` (in units of `2^-149`) to binary32. -/
def f32Round (n : Int) (d : Nat) : Int := n.sign * (f32RoundNat n.natAbs d : Int)

/-- The conversion `(float)v` of an integer. -/
def f32OfInt (v : Int) : Int := f32Round (v * (f32One : Int)) 1

/-- The sum `a + b` of two `float` values. -/
def f32Add (a b : Int) : Int := f32Round (a + b) 1

/-- The product `a * b` of two `float` values. -/
def f32Mul (a b : Int) : Int := f32Round (a * b) f32One

/-- The quotient `a / b` of two `float` values, `none` when `b` is zero. -/
def f32Div (a b : Int) : Option Int :=
  if b = 0 then none else some (f32Round (a * (f32One : Int) * b.sign) b.natAbs)

/-- The conversion `(int64_t)a` of a `float`: truncation toward zero, `none`
when the result does not fit `int64_t`. -/
def f32ToInt64 (a : Int) : Option Int :=
  if -(2 ^ 63 : Int) ≤ Int.tdiv a (f32One : Int) ∧ Int.tdiv a (f32One : Int) < (2 ^ 63 : Int) then
    some (Int.tdiv a (f32One : Int))
  else none

/-- Lines 162-164 of `SetupCounterAndTimer`:
`(int64_t)((float)duration / ((float)duration + (float)delay) * 100)`. -/
def dutyCycle (duration delay : Int) : Option Int :=
  match f32Div (f32OfInt duration) (f32Add (f32OfInt duration) (f32OfInt delay)) with
  | none => none
  | some q => f32ToInt64 (f32Mul q (f32OfInt 100))

/-- Lines 169-170 of `SetupCounterAndTimer`:
`(int64_t)(1000000 / ((float)duration + (float)delay))`. -/
def pulseRate (duration delay : Int) : Option Int :=
  match f32Div (f32OfInt 1000000) (f32Add (f32OfInt duration) (f32OfInt delay)) with
  | none => none
  | some q => f32ToInt64 q

/-- The derived attribute `dutyCyclePercent` of the specification,
`duration / (duration + delay) * 100`, in exact arithmetic and truncated to an
integer. -/
def specDutyCyclePercent (duration delay : Int) : Int :=
  Int.tdiv (duration * 100) (duration + delay)

/-- The derived attribute `pulseRateHz` of the specification,
`1_000_000 / (duration + delay)`, in exact arithmetic and truncated to an
integer. -/
def specPulseRateHz (duration delay : Int) : Int :=
  Int.tdiv 1000000 (duration + delay)

/-! ## The camera interface used by the programs

The Spinnaker library itself is not part of the repository: the programs only
call it.  A `Device` fixes how one camera answers these calls, a `Cam` is the
state of the camera handle that the calls change, and every call made is
recorded, in order, in `Cam.log`. -/

/-- Nodes that the source retrieves by name with `GetNode("...")`. -/
inductive Node
  | AcquisitionMode
  | StreamBufferCountMode
  | StreamBufferCountResult
  | PayloadSize
  | DeviceType
  | DeviceSerialNumber
  | DeviceInformation
  | DeviceModelName
  | CounterSelector
  | CounterEventSource
  | CounterDuration
  | CounterDelay
  | CounterTriggerSource
  | CounterTriggerActivation
  | LineSelector
  | LineMode
  | LineSource
  | V3_3Enable
  | ExposureAuto
  | ExposureTime
  | TriggerMode
  | TriggerSource
  | TriggerOverlap
  deriving DecidableEq, Repr

/-- Enumeration entries that the source retrieves with `GetEntryByName("...")`. -/
inductive Entry
  | Continuous
  | Manual
  | Counter0
  | MHzTick
  | FrameTriggerWait
  | LevelHigh
  | Line1
  | Line2
  | Output
  | Counter0Active
  | Off
  | On
  | Counter0Start
  | ReadOut
  deriving DecidableEq, Repr

/-- Values of `GetBufferOwnership()`: `BUFFER_OWNERSHIP_SYSTEM` and
`BUFFER_OWNERSHIP_USER`. -/
inductive BufferOwnership
  | SYSTEM
  | USER
  deriving DecidableEq, Repr

/-- One frame as delivered by `GetNextImage`: the flag read by `IsIncomplete()`,
whether `Convert` and `Save` raise a Spinnaker exception on it, and the bytes
that `GetData()` yields on the image converted to Mono8. -/
structure Frame where
  incomplete : Bool
  convertFails : Bool
  saveFails : Bool
  mono8 : List Nat
  deriving DecidableEq, Repr

/-- Camera calls, other than node accesses and frame operations, that may raise
a Spinnaker exception. -/
inductive Api
  | Init
  | DeInit
  | BeginAcquisition
  | EndAcquisition
  | SetUserBuffers
  | GetFeatures
  | write (n : Node)
  deriving DecidableEq, Repr

/-- How one camera answers the calls of the programs.
`entryValue n e` is `some v` when the entry `e` of the enumeration node `n` is
available and readable and has the integer value `v`; `value n` is what
`GetValue()` reads from the node `n` while the program has not written it;
`frames k` is the answer to the `k`-th call of `GetNextImage` (counted from 0),
`none` when the wait times out and the call raises; `heapLimit` is the number
of bytes that `new` can still reserve before it raises `bad_alloc`; `throws`
tells which other calls raise a Spinnaker exception. -/
structure Device where
  available : Node → Bool
  readable : Node → Bool
  writable : Node → Bool
  entryValue : Node → Entry → Option Int
  value : Node → Int
  deviceType : Option DeviceType
  modelName : String
  heapLimit : Nat
  frames : Nat → Option Frame
  throws : Api → Bool

/-- Calls recorded in the log of a camera, in the order in which they are made.
Frame operations carry the number of the `GetNextImage` call that delivered the
frame. -/
inductive Event
  | setNode (n : Node) (v : Int)
  | init
  | deInit
  | setBufferOwnership (o : BufferOwnership)
  | allocate (bytes : Nat)
  | setUserBuffersContiguous (totalSize : Nat)
  | setUserBuffers (bufferCount : Nat) (bufferSize : Nat)
  | beginAcquisition
  | endAcquisition
  | getNextImage (k : Nat)
  | convert (k : Nat)
  | save (k : Nat)
  | release (k : Nat)
  | reportDutyCycle (v : Option Int)
  | reportPulseRate (v : Option Int)
  deriving DecidableEq, Repr

/-- State of a camera handle: the buffer ownership, whether it is initialised
and streaming, the number of `GetNextImage` calls made so far, and the log. -/
structure Cam where
  ownership : BufferOwnership
  initialized : Bool
  streaming : Bool
  nextFrame : Nat
  log : List Event
  deriving DecidableEq, Repr

/-- A freshly enumerated camera: buffers owned by the system, nothing called. -/
def Cam.fresh : Cam :=
  { ownership := BufferOwnership.SYSTEM, initialized := false, streaming := false,
    nextFrame := 0, log := [] }

/-- The state after the call `e` has been recorded at the end of the log. -/
def Cam.record (e : Event) : Cam → Cam
  | ⟨o, i, st, k, l⟩ => ⟨o, i, st, k, l ++ [e]⟩

/-- The state with the buffer ownership set to `o`. -/
def Cam.withOwnership (o : BufferOwnership) : Cam → Cam
  | ⟨_, i, st, k, l⟩ => ⟨o, i, st, k, l⟩

/-- The state with the initialised flag set to `b`. -/
def Cam.withInitialized (b : Bool) : Cam → Cam
  | ⟨o, _, st, k, l⟩ => ⟨o, b, st, k, l⟩

/-- The state with the streaming flag set to `b`. -/
def Cam.withStreaming (b : Bool) : Cam → Cam
  | ⟨o, i, _, k, l⟩ => ⟨o, i, b, k, l⟩

/-- The state after one more call of `GetNextImage`. -/
def Cam.advanceFrame : Cam → Cam
  | ⟨o, i, st, k, l⟩ => ⟨o, i, st, k + 1, l⟩

/-- How a block of statements ends: it runs to its end with a value (`ok`), it
executes `return code;` (`ret`), or a `Spinnaker::Exception` leaves it (`exc`). -/
inductive Outcome (α : Type)
  | ok (a : α) (s : Cam)
  | ret (code : Int) (s : Cam)
  | exc (s : Cam)
  deriving DecidableEq, Repr

/-- The camera state in which a block ends. -/
def Outcome.state {α : Type} : Outcome α → Cam
  | Outcome.ok _ s => s
  | Outcome.ret _ s => s
  | Outcome.exc s => s

/-- A block of statements, run from a camera state. -/
def Prog (α : Type) : Type := Cam → Outcome α

/-- Sequencing of statements: what follows runs only when the first part runs
to its end. -/
def Prog.bind {α β : Type} (m : Prog α) (f : α → Prog β) : Prog β := fun s =>
  match m s with
  | Outcome.ok a s1 => f a s1
  | Outcome.ret c s1 => Outcome.ret c s1
  | Outcome.exc s1 => Outcome.exc s1

instance : Monad Prog where
  pure := fun a s => Outcome.ok a s
  bind := Prog.bind

/-- The statement `return code;`. -/
def ret {α : Type} (code : Int) : Prog α := fun s => Outcome.ret code s

/-- A call that raises a `Spinnaker::Exception`. -/
def raise {α : Type} : Prog α := fun s => Outcome.exc s

/-- The statement `if (cond) { ...; return code; }`, whose body only prints
before it returns. -/
def returnIf (cond : Bool) (code : Int) : Prog Unit := fun s =>
  if cond then Outcome.ret code s else Outcome.ok () s

/-- Record a call in the log. -/
def emit (e : Event) : Prog Unit := fun s => Outcome.ok () (s.record e)

/-- The construct `try { body } catch (Spinnaker::Exception&) { handler }`. -/
def tryCatch {α : Type} (body : Prog α) (handler : Prog α) : Prog α := fun s =>
  match body s with
  | Outcome.exc s1 => handler s1
  | o => o

/-- Call of a function whose body is `body`: a `return code;` inside the body
ends the body and hands `code` to the caller. -/
def call (body : Prog Int) : Prog Int := fun s =>
  match body s with
  | Outcome.ret c s1 => Outcome.ok c s1
  | o => o

/-- The guard `!IsAvailable(ptr) || !IsWritable(ptr)` of the source. -/
def notWritable (dev : Device) (n : Node) : Bool :=
  !dev.available n || !dev.writable n

/-- The guard `!IsAvailable(ptr) || !IsReadable(ptr)` of the source. -/
def notReadable (dev : Device) (n : Node) : Bool :=
  !dev.available n || !dev.readable n

/-- The statements
`ptrEntry = ptr->GetEntryByName("e"); if (!IsAvailable(ptrEntry) || !IsReadable(ptrEntry)) return -1;`
followed by `ptrEntry->GetValue()`: the integer value of the entry `e` of the
enumeration node `n`. -/
def entryOrReturn (dev : Device) (n : Node) (e : Entry) : Prog Int := fun s =>
  match dev.entryValue n e with
  | none => Outcome.ret (-1) s
  | some v => Outcome.ok v s

/-- The statement
`if (pCam->GetBufferOwnership() != o) { pCam->SetBufferOwnership(o); }`. -/
def ensureBufferOwnership (o : BufferOwnership) : Prog Unit := fun s =>
  if s.ownership ≠ o then Outcome.ok () ((s.record (Event.setBufferOwnership o)).withOwnership o)
  else Outcome.ok () s

/-- The calls `ptr->SetIntValue(v)` and `ptr->SetValue(v)` on the node `n`: the
write raises when the node is not available or not writable or the device
refuses it, and is recorded otherwise. -/
def setValue (dev : Device) (n : Node) (v : Int) : Prog Unit := fun s =>
  if notWritable dev n || dev.throws (Api.write n) then Outcome.exc s
  else Outcome.ok () (s.record (Event.setNode n v))

/-- Value last written to the node `n` according to the log, `dflt` when the
node was never written. -/
def lastWritten (n : Node) (dflt : Int) : List Event → Int
  | [] => dflt
  | Event.setNode m v :: rest => lastWritten n (if m = n then v else dflt) rest
  | _ :: rest => lastWritten n dflt rest

/-- The call `ptr->GetValue()` on the integer node `n`: it raises when the node
is not available or not readable, and reads the value last written by the
program, or the device's own value when the program has not written the node. -/
def getValue (dev : Device) (n : Node) : Prog Int := fun s =>
  if notReadable dev n then Outcome.exc s
  else Outcome.ok (lastWritten n (dev.value n) s.log) s

/-- Lines 187-188 of `AcquireImages`:
`ptrDeviceType = pCam->GetTLDeviceNodeMap().GetNode("DeviceType")` and the left
operand of the test
`ptrDeviceType != nullptr && ptrDeviceType->GetIntValue() == DeviceType_USB3Vision`.
`dev.deviceType` is `none` when the node is absent (`nullptr`), and then
`GetIntValue()` is not called; on a node that is present, `GetIntValue()` raises
when the node is not available or not readable, and yields the device type
otherwise. -/
def readDeviceType (dev : Device) : Prog (Option DeviceType) := fun s =>
  match dev.deviceType with
  | none => Outcome.ok none s
  | some t =>
      if notReadable dev Node.DeviceType then Outcome.exc s else Outcome.ok (some t) s

/-- The call `pCam->Init()`. -/
def camInit (dev : Device) : Prog Unit := fun s =>
  if dev.throws Api.Init then Outcome.exc (s.record Event.init)
  else Outcome.ok () ((s.record Event.init).withInitialized true)

/-- The call `pCam->DeInit()`. -/
def camDeInit (dev : Device) : Prog Unit := fun s =>
  if dev.throws Api.DeInit then Outcome.exc (s.record Event.deInit)
  else Outcome.ok () ((s.record Event.deInit).withInitialized false)

/-- The call `pCam->BeginAcquisition()`. -/
def beginAcquisition (dev : Device) : Prog Unit := fun s =>
  if dev.throws Api.BeginAcquisition then Outcome.exc (s.record Event.beginAcquisition)
  else Outcome.ok () ((s.record Event.beginAcquisition).withStreaming true)

/-- The call `pCam->EndAcquisition()`. -/
def endAcquisition (dev : Device) : Prog Unit := fun s =>
  if dev.throws Api.EndAcquisition then Outcome.exc (s.record Event.endAcquisition)
  else Outcome.ok () ((s.record Event.endAcquisition).withStreaming false)

/-- The call `pCam->GetNextImage(1000)`: the `k`-th call is answered by
`dev.frames k`; it raises when the wait of 1000 ms times out. The frame is
returned together with its number `k`. -/
def getNextImage (dev : Device) : Prog (Nat × Frame) := fun s =>
  match dev.frames s.nextFrame with
  | none => Outcome.exc ((s.record (Event.getNextImage s.nextFrame)).advanceFrame)
  | some f =>
      Outcome.ok (s.nextFrame, f) ((s.record (Event.getNextImage s.nextFrame)).advanceFrame)

/-- The call `pResultImage->Convert(PixelFormat_Mono8, ...)` on frame `k`. -/
def convert (k : Nat) (f : Frame) : Prog Unit := fun s =>
  if f.convertFails then Outcome.exc (s.record (Event.convert k))
  else Outcome.ok () (s.record (Event.convert k))

/-- The call `convertedImage->Save(...)` on the conversion of frame `k`. -/
def save (k : Nat) (f : Frame) : Prog Unit := fun s =>
  if f.saveFails then Outcome.exc (s.record (Event.save k))
  else Outcome.ok () (s.record (Event.save k))

/-- The call `pResultImage->Release()` on frame `k`. -/
def release (k : Nat) : Prog Unit := emit (Event.release k)

/-! ## The acquisition loop (AcquisitionUserBuffer.cpp, lines 298-352;
CounterAndTimer.cpp, lines 515-562)

Both programs run the same loop; they differ only in the text they print and
in the name of the file they save. -/

/-- Body of the inner `try` block of the loop: retrieve the next image; when
it is complete convert it to Mono8 and save it; release it. -/
def retrieveConvertSave (dev : Device) : Prog Unit := do
  let next ← getNextImage dev
  if next.2.incomplete then
    pure ()
  else do
    convert next.1 next.2
    save next.1 next.2
  release next.1

/-- The loop `for (imageCnt = 0; imageCnt < k_numImages; imageCnt++)`, with the
number of iterations still to run and the current value of `result`: an
exception inside an iteration is caught, sets `result = -1`, and the loop goes
on with the next iteration. -/
def imageLoop (dev : Device) : Nat → Int → Prog Int
  | 0, result => pure result
  | n + 1, result => do
      let result1 ← tryCatch (do retrieveConvertSave dev; pure result) (pure (-1))
      imageLoop dev n result1

/-- Constant `k_numImages` of both `AcquireImages` functions. -/
def k_numImages : Nat := 10

namespace AcquisitionUserBuffer

/-- Global constant `isContiguous` of AcquisitionUserBuffer.cpp. -/
def isContiguous : Bool := true

/-- Constant `numBuffers` of `AcquireImages`. -/
def numBuffers : Nat := 10

/-- The loop that reserves the non-contiguous buffers (lines 233-246):
`remaining` buffers of `bufferSize` bytes are still to be reserved and
`reserved` bytes are held; `bad_alloc` is caught and answered by `return -1;`. -/
def allocateBuffers (dev : Device) (bufferSize : Nat) : Nat → Nat → Prog Unit
  | 0, _ => pure ()
  | remaining + 1, reserved =>
      if dev.heapLimit < reserved + bufferSize then ret (-1)
      else do
        emit (Event.allocate bufferSize)
        allocateBuffers dev bufferSize remaining (reserved + bufferSize)

/-- The call `pCam->SetUserBuffers(...)`, recorded as `e`. -/
def setUserBuffers (dev : Device) (e : Event) : Prog Unit := fun s =>
  if dev.throws Api.SetUserBuffers then Outcome.exc (s.record e)
  else Outcome.ok () (s.record e)

/-- Lines 211-263 of `AcquireImages`: with the contiguous policy one region of
`numBuffers * bufferSize` bytes is reserved and handed to the camera; with the
non-contiguous policy `numBuffers` regions of `bufferSize` bytes each. When
`new` raises `bad_alloc` the handler executes `return -1;`. -/
def reserveUserBuffers (dev : Device) (contiguous : Bool) (bufferSize : Nat) : Prog Unit :=
  if contiguous then do
    returnIf (decide (dev.heapLimit < u64mul numBuffers bufferSize)) (-1)
    emit (Event.allocate (u64mul numBuffers bufferSize))
    setUserBuffers dev (Event.setUserBuffersContiguous (u64mul numBuffers bufferSize))
  else do
    allocateBuffers dev bufferSize numBuffers 0
    setUserBuffers dev (Event.setUserBuffers numBuffers bufferSize)

/-- Lines 101-208 of `AcquireImages`: the acquisition mode is set to continuous
and the stream buffer count mode to manual, the buffer size is computed from
the payload size and the device type, and the buffer ownership is set to the
user. The block yields the value of the variable `bufferSize`. The block under
`_DEBUG` (lines 149-159) is not part of a release build and is left out. -/
def AcquireImages.prepare (dev : Device) : Prog Nat := do
  -- lines 104-123: set acquisition mode to continuous
  returnIf (notWritable dev Node.AcquisitionMode) (-1)
  let acquisitionModeContinuous ← entryOrReturn dev Node.AcquisitionMode Entry.Continuous
  setValue dev Node.AcquisitionMode acquisitionModeContinuous
  -- lines 129-143: set the stream buffer count mode to manual
  returnIf (notWritable dev Node.StreamBufferCountMode) (-1)
  let streamBufferCountModeManual ← entryOrReturn dev Node.StreamBufferCountMode Entry.Manual
  setValue dev Node.StreamBufferCountMode streamBufferCountModeManual
  -- lines 178-192: buffer size
  returnIf (notReadable dev Node.PayloadSize) (-1)
  let payloadSize ← getValue dev Node.PayloadSize
  let deviceType ← readDeviceType dev
  let bufferSize := computeBufferSize deviceType payloadSize
  -- lines 205-208: buffer ownership to user
  ensureBufferOwnership BufferOwnership.USER
  pure bufferSize

/-- Lines 266-355 of `AcquireImages`: the acquisition is begun, the resulting
stream buffer count is read, the images are retrieved, and the acquisition is
ended. Retrieving the serial number (lines 285-292) only affects the file
names. -/
def AcquireImages.stream (dev : Device) : Prog Int := do
  -- line 266
  beginAcquisition dev
  -- lines 273-279: resulting stream buffer count
  returnIf (notReadable dev Node.StreamBufferCountResult) (-1)
  let _streamBufferCountResult ← getValue dev Node.StreamBufferCountResult
  -- lines 298-352
  let result ← imageLoop dev k_numImages 0
  -- line 355
  endAcquisition dev
  pure result

/-- Body of the outer `try` block of `AcquireImages` (lines 101-355), for the
value `contiguous` of the constant `isContiguous`: lines 101-208, then the
reservation of the user buffers (lines 211-263), then lines 266-355. -/
def AcquireImages.tryBlock (dev : Device) (contiguous : Bool) : Prog Int := do
  let bufferSize ← AcquireImages.prepare dev
  reserveUserBuffers dev contiguous bufferSize
  AcquireImages.stream dev

/-- The function `AcquireImages` of AcquisitionUserBuffer.cpp (lines 93-371): the
outer `try` block, its handler `result = -1`, and after them the reset of the
buffer ownership to the system (lines 365-368) and `return result;`. -/
def AcquireImages (dev : Device) (contiguous : Bool) : Prog Int :=
  call (do
    let result ← tryCatch (AcquireImages.tryBlock dev contiguous) (pure (-1))
    ensureBufferOwnership BufferOwnership.SYSTEM
    pure result)

/-- Total number of bytes that the calls of a log reserve. -/
def reservedBytes : List Event → Nat
  | [] => 0
  | Event.allocate bytes :: rest => bytes + reservedBytes rest
  | _ :: rest => reservedBytes rest

end AcquisitionUserBuffer

namespace CounterAndTimer

/-- The function `PrintDeviceInfo` (lines 46-82): it only prints; an exception
raised while the features are read is caught and gives the result `-1`. -/
def PrintDeviceInfo (dev : Device) : Prog Int :=
  call (tryCatch (do
      if dev.available Node.DeviceInformation && dev.readable Node.DeviceInformation then
        if dev.throws Api.GetFeatures then raise
      pure 0)
    (pure (-1)))

/-- The function `SetupCounterAndTimer` (lines 87-219). The two reads of
`CounterDuration` in one expression yield the same value, so each expression
reads each register once. -/
def SetupCounterAndTimer (dev : Device) : Prog Int :=
  call (tryCatch (do
      -- lines 96-120: counter selector
      returnIf (!dev.available Node.CounterSelector) (-1)
      returnIf (notWritable dev Node.CounterSelector) (-1)
      let counter0 ← entryOrReturn dev Node.CounterSelector Entry.Counter0
      setValue dev Node.CounterSelector counter0
      -- lines 123-139: counter event source
      returnIf (notWritable dev Node.CounterEventSource) (-1)
      let counterEventSourceMHzTick ← entryOrReturn dev Node.CounterEventSource Entry.MHzTick
      setValue dev Node.CounterEventSource counterEventSourceMHzTick
      -- lines 142-149: counter duration
      returnIf (notWritable dev Node.CounterDuration) (-1)
      setValue dev Node.CounterDuration 14000
      -- lines 152-159: counter delay
      returnIf (notWritable dev Node.CounterDelay) (-1)
      setValue dev Node.CounterDelay 6000
      -- lines 162-166: duty cycle
      let duration ← getValue dev Node.CounterDuration
      let delay ← getValue dev Node.CounterDelay
      emit (Event.reportDutyCycle (dutyCycle duration delay))
      -- lines 169-172: pulse rate
      let duration1 ← getValue dev Node.CounterDuration
      let delay1 ← getValue dev Node.CounterDelay
      emit (Event.reportPulseRate (pulseRate duration1 delay1))
      -- lines 175-191: counter trigger source
      returnIf (notWritable dev Node.CounterTriggerSource) (-1)
      let counterTriggerSourceFTW ← entryOrReturn dev Node.CounterTriggerSource Entry.FrameTriggerWait
      setValue dev Node.CounterTriggerSource counterTriggerSourceFTW
      -- lines 194-210: counter trigger activation
      returnIf (notWritable dev Node.CounterTriggerActivation) (-1)
      let counterTriggerActivationLH ← entryOrReturn dev Node.CounterTriggerActivation Entry.LevelHigh
      setValue dev Node.CounterTriggerActivation counterTriggerActivationLH
      pure 0)
    (pure (-1)))

/-- Constant `cameraFamilyBFS` of `ConfigureDigitalIO`. -/
def cameraFamilyBFS : String := "BFS"

/-- Constant `cameraFamilyOryx` of `ConfigureDigitalIO`. -/
def cameraFamilyOryx : String := "ORX"

/-- Whether the characters `text` begin with the characters `pattern`. -/
def startsWith : List Char → List Char → Bool
  | _, [] => true
  | [], _ :: _ => false
  | c :: cs, p :: ps => decide (c = p) && startsWith cs ps

/-- Whether `pattern` occurs somewhere in `text`. -/
def occursIn (pattern : List Char) : List Char → Bool
  | [] => startsWith [] pattern
  | c :: cs => startsWith (c :: cs) pattern || occursIn pattern cs

/-- The test `cameraModel.find(family) != std::string::npos`. -/
def modelContains (cameraModel family : String) : Bool :=
  occursIn family.data cameraModel.data

/-- Lines 250-294 of `ConfigureDigitalIO`: the line selected, and for the Oryx
family its mode, depend on the camera family read from the model name. -/
def ConfigureDigitalIO.selectLine (dev : Device) (cameraModel : String) : Prog Unit :=
  if modelContains cameraModel cameraFamilyBFS then do
    let lineSelectorLine1 ← entryOrReturn dev Node.LineSelector Entry.Line1
    setValue dev Node.LineSelector lineSelectorLine1
  else if modelContains cameraModel cameraFamilyOryx then do
    let lineSelectorLine2 ← entryOrReturn dev Node.LineSelector Entry.Line2
    setValue dev Node.LineSelector lineSelectorLine2
    -- lines 277-293: line mode
    returnIf (notWritable dev Node.LineMode) (-1)
    let lineModeOutput ← entryOrReturn dev Node.LineMode Entry.Output
    setValue dev Node.LineMode lineModeOutput
  else pure ()

/-- Lines 315-337 of `ConfigureDigitalIO`: for the BFS family, select line 2 and
enable the 3.3 V rail. -/
def ConfigureDigitalIO.enableVoltage (dev : Device) (cameraModel : String) : Prog Unit :=
  if modelContains cameraModel cameraFamilyBFS then do
    let lineSelectorLine2 ← entryOrReturn dev Node.LineSelector Entry.Line2
    setValue dev Node.LineSelector lineSelectorLine2
    returnIf (notWritable dev Node.V3_3Enable) (-1)
    setValue dev Node.V3_3Enable 1
  else pure ()

/-- The function `ConfigureDigitalIO` (lines 222-346). -/
def ConfigureDigitalIO (dev : Device) : Prog Int :=
  call (tryCatch (do
      -- lines 233-240: camera family
      returnIf (notReadable dev Node.DeviceModelName) (-1)
      let cameraModel := dev.modelName
      -- lines 243-248: line selector
      returnIf (notWritable dev Node.LineSelector) (-1)
      -- lines 250-294
      ConfigureDigitalIO.selectLine dev cameraModel
      -- lines 297-313: line source
      returnIf (notWritable dev Node.LineSource) (-1)
      let lineSourceCounter0Active ← entryOrReturn dev Node.LineSource Entry.Counter0Active
      setValue dev Node.LineSource lineSourceCounter0Active
      -- lines 315-337: voltage rail of the BFS family
      ConfigureDigitalIO.enableVoltage dev cameraModel
      pure 0)
    (pure (-1)))

/-- The function `ConfigureExposureandTrigger` (lines 350-461). -/
def ConfigureExposureandTrigger (dev : Device) : Prog Int :=
  call (tryCatch (do
      -- lines 359-375: auto exposure off
      returnIf (notWritable dev Node.ExposureAuto) (-1)
      let exposureAutoOff ← entryOrReturn dev Node.ExposureAuto Entry.Off
      setValue dev Node.ExposureAuto exposureAutoOff
      -- lines 378-385: exposure time
      returnIf (notWritable dev Node.ExposureTime) (-1)
      setValue dev Node.ExposureTime 5000
      -- lines 392-406: trigger mode off
      returnIf (notReadable dev Node.TriggerMode) (-1)
      let triggerModeOff ← entryOrReturn dev Node.TriggerMode Entry.Off
      setValue dev Node.TriggerMode triggerModeOff
      -- lines 409-423: trigger source
      returnIf (notWritable dev Node.TriggerSource) (-1)
      let triggerSourceCounter0Start ← entryOrReturn dev Node.TriggerSource Entry.Counter0Start
      setValue dev Node.TriggerSource triggerSourceCounter0Start
      -- lines 426-442: trigger overlap
      returnIf (notWritable dev Node.TriggerOverlap) (-1)
      let triggerOverlapRO ← entryOrReturn dev Node.TriggerOverlap Entry.ReadOut
      setValue dev Node.TriggerOverlap triggerOverlapRO
      -- lines 445-452: trigger mode on
      let triggerModeOn ← entryOrReturn dev Node.TriggerMode Entry.On
      setValue dev Node.TriggerMode triggerModeOn
      pure 0)
    (pure (-1)))

/-- The function `AcquireImages` of CounterAndTimer.cpp (lines 465-574). -/
def AcquireImages (dev : Device) : Prog Int :=
  call (tryCatch (do
      -- lines 474-491: acquisition mode continuous
      returnIf (notWritable dev Node.AcquisitionMode) (-1)
      let acquisitionModeContinuous ← entryOrReturn dev Node.AcquisitionMode Entry.Continuous
      setValue dev Node.AcquisitionMode acquisitionModeContinuous
      -- line 496
      beginAcquisition dev
      -- lines 515-562
      let result ← imageLoop dev k_numImages 0
      -- line 565
      endAcquisition dev
      pure result)
    (pure (-1)))

/-- The function `ResetTrigger` (lines 583-613). -/
def ResetTrigger (dev : Device) : Prog Int :=
  call (tryCatch (do
      returnIf (notReadable dev Node.TriggerMode) (-1)
      let triggerModeOff ← entryOrReturn dev Node.TriggerMode Entry.Off
      setValue dev Node.TriggerMode triggerModeOff
      pure 0)
    (pure (-1)))

/-- The 32 bits of an `int`, as a natural number (two's complement). -/
def intBits (a : Int) : Nat := (a % (2 ^ 32 : Int)).toNat

/-- The `int` whose 32 bits are `n`. -/
def intOfBits (n : Nat) : Int := if n < 2 ^ 31 then (n : Int) else (n : Int) - 2 ^ 32

/-- The operator `|` on two `int` values. -/
def bitOr (a b : Int) : Int := intOfBits (intBits a ||| intBits b)

/-- The function `RunSingleCamera` of CounterAndTimer.cpp (lines 617-671). -/
def RunSingleCamera (dev : Device) : Prog Int :=
  call (tryCatch (do
      let result ← PrintDeviceInfo dev
      camInit dev
      let err ← SetupCounterAndTimer dev
      returnIf (decide (err < 0)) err
      let err1 ← ConfigureDigitalIO dev
      returnIf (decide (err1 < 0)) err1
      let err2 ← ConfigureExposureandTrigger dev
      returnIf (decide (err2 < 0)) err2
      let acquired ← AcquireImages dev
      let reset ← ResetTrigger dev
      camDeInit dev
      pure (bitOr (bitOr result acquired) reset))
    (pure (-1)))

end CounterAndTimer

namespace AcquisitionUserBuffer

/-- The function `PrintDeviceInfo` of AcquisitionUserBuffer.cpp (lines 376-410),
which has the same body as the one of CounterAndTimer.cpp. -/
def PrintDeviceInfo (dev : Device) : Prog Int :=
  call (tryCatch (do
      if dev.available Node.DeviceInformation && dev.readable Node.DeviceInformation then
        if dev.throws Api.GetFeatures then raise
      pure 0)
    (pure (-1)))

/-- The function `RunSingleCamera` of AcquisitionUserBuffer.cpp (lines 414-444),
compiled with the constant `isContiguous` as it stands in the file. -/
def RunSingleCamera (dev : Device) : Prog Int :=
  call (tryCatch (do
      let result ← PrintDeviceInfo dev
      camInit dev
      let acquired ← AcquireImages dev isContiguous
      camDeInit dev
      pure (CounterAndTimer.bitOr result acquired))
    (pure (-1)))

end AcquisitionUserBuffer

/-! ## The function `main` of the two example programs
(AcquisitionUserBuffer.cpp, lines 448-534; CounterAndTimer.cpp, lines 675-773)

Both functions have the same statements apart from the text they print. -/

/-- Steps of `main` of an example program: the call of `RunSingleCamera` on
camera `i`, with the state in which the call leaves that camera; the call
`camList.Clear()`; the call `system->ReleaseInstance()`. -/
inductive ExampleEvent
  | runSingleCamera (i : Nat) (after : Cam)
  | clearCameraList
  | releaseInstance
  deriving DecidableEq, Repr

/-- The loop `for (unsigned int i = 0; i < numCameras; i++)` of `main` from
camera index `i` on, with the current value of `result`: the steps taken and the
value of `result` after the loop, `none` when an exception leaves the loop. Each
camera is in its state after enumeration when its run starts. -/
def runCameras (RunSingleCamera : Device → Prog Int) :
    List Device → Nat → Int → List ExampleEvent × Option Int
  | [], _, result => ([], some result)
  | dev :: rest, i, result =>
      match RunSingleCamera dev Cam.fresh with
      | Outcome.ok r s =>
          (ExampleEvent.runSingleCamera i s ::
              (runCameras RunSingleCamera rest (i + 1) (CounterAndTimer.bitOr result r)).1,
            (runCameras RunSingleCamera rest (i + 1) (CounterAndTimer.bitOr result r)).2)
      | Outcome.ret _ s => ([ExampleEvent.runSingleCamera i s], none)
      | Outcome.exc s => ([ExampleEvent.runSingleCamera i s], none)

/-- The function `main` of an example program on the cameras that the system
enumerates: `folderWritable` tells whether `fopen("test.txt", "w+")` succeeds.
It yields the steps taken and the value returned, `none` when an exception leaves
`main`. -/
def exampleMain (RunSingleCamera : Device → Prog Int) (folderWritable : Bool)
    (cameras : List Device) : List ExampleEvent × Option Int :=
  if !folderWritable then ([], some (-1))
  else if cameras.length = 0 then
    ([ExampleEvent.clearCameraList, ExampleEvent.releaseInstance], some (-1))
  else
    match (runCameras RunSingleCamera cameras 0 0).2 with
    | some result =>
        ((runCameras RunSingleCamera cameras 0 0).1 ++
            [ExampleEvent.clearCameraList, ExampleEvent.releaseInstance], some result)
    | none => ((runCameras RunSingleCamera cameras 0 0).1, none)

/-- The function `main` of AcquisitionUserBuffer.cpp (lines 448-534). -/
def AcquisitionUserBuffer.main (folderWritable : Bool) (cameras : List Device) :
    List ExampleEvent × Option Int :=
  exampleMain AcquisitionUserBuffer.RunSingleCamera folderWritable cameras

/-- The function `main` of CounterAndTimer.cpp (lines 675-773). -/
def CounterAndTimer.main (folderWritable : Bool) (cameras : List Device) :
    List ExampleEvent × Option Int :=
  exampleMain CounterAndTimer.RunSingleCamera folderWritable cameras

/-! ## The class `Flir` (flir.cpp)

The function `main` of `main.cpp`, which constructs one `Flir` object per camera
and launches `acquireImage` on each, is not embedded: its line 35 passes
`flirCameras.back().acquireImage` to `async`, an expression that names a
non-static member function without calling it. The translation unit is
ill-formed and has no behaviour. -/

namespace Flir

/-- The C function `strlen` on the bytes of a buffer: the number of bytes before
the first zero byte; `none` when the buffer holds no zero byte, where the scan
runs past the end of the buffer (undefined behaviour). -/
def strlen : List Nat → Option Nat
  | [] => none
  | b :: rest => if b = 0 then some 0 else (strlen rest).map (fun n => n + 1)

/-- The constructor `Flir::Flir` (flir.cpp, lines 7-19): the device information
is printed (which changes nothing), the camera is initialised, and the
acquisition mode is set to continuous without any check; dereferencing a
missing entry raises. -/
def Flir (dev : Device) : Prog Unit := do
  camInit dev
  let some acquisitionModeContinuous := dev.entryValue Node.AcquisitionMode Entry.Continuous
    | raise
  setValue dev Node.AcquisitionMode acquisitionModeContinuous

/-- The method `Flir::acquireImage` (flir.cpp, lines 25-38). The result is the
returned `vector<char>`, `none` when `strlen` runs past the image buffer. -/
def acquireImage (dev : Device) : Prog (Option (List Nat)) := do
  beginAcquisition dev
  let next ← getNextImage dev
  if next.2.incomplete then
    pure (some [])
  else do
    convert next.1 next.2
    let data := next.2.mono8
    pure ((strlen data).map (fun n => data.take n))

end Flir

/-! ## The function `GetMinimumPowerOfTwo` (SpinnakerMFCView.cpp, lines 29-38) -/

/-- The loop `while (i < in) { i *= 2; }` of `GetMinimumPowerOfTwo` on the `int`
values `input` and `i`, followed by `return i;`. The result is `none` when
`i *= 2` leaves the range of `int`, which is undefined behaviour, and when the
bound `fuel` on the number of tests of the loop condition is reached. -/
def GetMinimumPowerOfTwo.loop (input : Int) : Nat → Int → Option Int
  | 0, _ => none
  | fuel + 1, i =>
      if i < input then
        if 2 ^ 31 ≤ i * 2 then none else GetMinimumPowerOfTwo.loop input fuel (i * 2)
      else some i

/-- The function `GetMinimumPowerOfTwo` (lines 29-38), with `int i = 1;` before
the loop. Starting from 1, the 31st doubling leaves the range of `int`, so the
loop condition is tested at most 32 times and the bound is never what ends the
loop. -/
def GetMinimumPowerOfTwo (input : Int) : Option Int :=
  GetMinimumPowerOfTwo.loop input 32 1

/-! ## Kinds of calls -/

/-- Whether a call writes the node `n`. -/
def Event.writes (n : Node) : Event → Bool
  | Event.setNode m _ => decide (m = n)
  | _ => false

/-- Whether a call reserves memory for the user buffers (`new`) or hands the
buffers to the camera (`SetUserBuffers`). -/
def Event.isBufferCall : Event → Bool
  | Event.allocate _ => true
  | Event.setUserBuffersContiguous _ => true
  | Event.setUserBuffers _ _ => true
  | _ => false

/-- A call that neither begins the acquisition nor writes `CounterDuration` or
`CounterDelay`. -/
def Event.quiet (e : Event) : Prop :=
  e ≠ Event.beginAcquisition ∧ e.writes Node.CounterDuration = false ∧
    e.writes Node.CounterDelay = false

/-! ## Example devices -/

/-- A camera on which every node is available, readable and writable, every
entry exists (with value 0 for `Off` and 1 otherwise), the payload is 2,000,000 bytes on USB3 Vision,
memory is plentiful, no call raises, and every frame is complete with the
Mono8 bytes 16, 0, 32. -/
def healthyDevice : Device :=
  { available := fun _ => true
    readable := fun _ => true
    writable := fun _ => true
    entryValue := fun _ e => some (if e = Entry.Off then 0 else 1)
    value := fun n => if n = Node.PayloadSize then 2000000 else 0
    deviceType := some DeviceType.USB3Vision
    modelName := "BFS-U3-16S2M"
    heapLimit := 2 ^ 32
    frames := fun _ =>
      some { incomplete := false, convertFails := false, saveFails := false,
             mono8 := [16, 0, 32] }
    throws := fun _ => false }

/-- The healthy camera, except that the `StreamBufferCountResult` node cannot
be read. -/
def noBufferCountDevice : Device :=
  { healthyDevice with
    readable := fun n => decide (n ≠ Node.StreamBufferCountResult) }

/-- The healthy camera, except that only 1,000,000 bytes can be reserved. -/
def lowMemoryDevice : Device :=
  { healthyDevice with heapLimit := 1000000 }

/-- The healthy camera, except that it has no counter: the `CounterSelector`
node is not available. -/
def noCounterDevice : Device :=
  { healthyDevice with
    available := fun n => decide (n ≠ Node.CounterSelector) }

/-- The healthy camera, except that no frame arrives: every wait times out. -/
def timeoutDevice : Device :=
  { healthyDevice with frames := fun _ => none }

/-- The healthy camera, except that every frame is flagged incomplete. -/
def incompleteDevice : Device :=
  { healthyDevice with
    frames := fun _ =>
      some { incomplete := true, convertFails := false, saveFails := false, mono8 := [] } }

/-- The healthy camera, except that the `AcquisitionMode` node cannot be
written. -/
def lockedModeDevice : Device :=
  { healthyDevice with
    writable := fun n => decide (n ≠ Node.AcquisitionMode) }

/-- The healthy camera, except that the `TriggerMode` node can be read but not
written. -/
def readOnlyTriggerDevice : Device :=
  { healthyDevice with
    writable := fun n => decide (n ≠ Node.TriggerMode) }

/-- The healthy camera with another payload size, on the given transport. -/
def payloadDevice (deviceType : DeviceType) (payloadSize : Int) : Device :=
  { healthyDevice with
    value := fun n => if n = Node.PayloadSize then payloadSize else 0
    deviceType := some deviceType }

/-- The healthy camera, of the Oryx family. -/
def oryxDevice : Device :=
  { healthyDevice with modelName := "ORX-10G-51S5M" }

/-- The healthy camera, of a family other than BFS and Oryx. -/
def otherFamilyDevice : Device :=
  { healthyDevice with modelName := "CM3-U3-13Y3M" }

/-- A camera of another family whose `LineSource` node has no entry
`Counter0Active`. -/
def noCounterOutputDevice : Device :=
  { otherFamilyDevice with
    entryValue := fun n e =>
      if n = Node.LineSource ∧ e = Entry.Counter0Active then none
      else some (if e = Entry.Off then 0 else 1) }

/-- A camera of another family whose `DeviceModelName` node cannot be read. -/
def unnamedDevice : Device :=
  { otherFamilyDevice with
    readable := fun n => decide (n ≠ Node.DeviceModelName) }

/-- A camera of another family that refuses the write of `LineSource`. -/
def refusingDevice : Device :=
  { otherFamilyDevice with
    throws := fun a => decide (a = Api.write Node.LineSource) }

/-- The healthy camera, except that the Mono8 bytes of every frame are 0, 7, 9:
complete frames whose data begins with a zero byte. -/
def zeroFirstDevice : Device :=
  { healthyDevice with
    frames := fun _ =>
      some { incomplete := false, convertFails := false, saveFails := false,
             mono8 := [0, 7, 9] } }

/-- The healthy camera, except that the conversion of frame 3 raises and the
saving of frame 5 raises. -/
def flakyDevice : Device :=
  { healthyDevice with
    frames := fun k =>
      some { incomplete := false, convertFails := decide (k = 3), saveFails := decide (k = 5),
             mono8 := [16, 0, 32] } }

/-- The healthy camera, except that its transport layer has no `DeviceType`
node. -/
def noDeviceTypeDevice : Device :=
  { healthyDevice with deviceType := none }

/-- The healthy camera, except that its `DeviceType` node cannot be read. -/
def unreadableDeviceTypeDevice : Device :=
  { healthyDevice with
    readable := fun n => decide (n ≠ Node.DeviceType) }

/-! ## Theorems -/

/-! ### Running blocks of statements

How a sequence of statements runs, and for each call of the camera interface
the condition under which it runs to its end, returns, or raises. -/

theorem bind_apply {α β : Type} (m : Prog α) (f : α → Prog β) (s : Cam) :
    (m >>= f) s = match m s with
      | Outcome.ok a s1 => f a s1
      | Outcome.ret c s1 => Outcome.ret c s1
      | Outcome.exc s1 => Outcome.exc s1 := rfl

theorem pure_apply {α : Type} (a : α) (s : Cam) : (pure a : Prog α) s = Outcome.ok a s := rfl

theorem record_log (e : Event) (s : Cam) : (s.record e).log = s.log ++ [e] := rfl

theorem bind_eq_ok {α β : Type} (m : Prog α) (f : α → Prog β) (s s2 : Cam) (b : β) :
    (m >>= f) s = Outcome.ok b s2 ↔ ∃ a s1, m s = Outcome.ok a s1 ∧ f a s1 = Outcome.ok b s2 := by
  rw [bind_apply]
  cases m s with
  | ok a s1 =>
      simp only [Outcome.ok.injEq, reduceCtorEq, false_or]
      constructor
      · intro h
        exact ⟨a, s1, ⟨rfl, rfl⟩, h⟩
      · rintro ⟨_, _, ⟨rfl, rfl⟩, h⟩
        exact h
  | ret c1 s1 => simp
  | exc s1 => simp

theorem bind_eq_ret {α β : Type} (m : Prog α) (f : α → Prog β) (s s2 : Cam) (c : Int) :
    (m >>= f) s = Outcome.ret c s2 ↔
      m s = Outcome.ret c s2 ∨ ∃ a s1, m s = Outcome.ok a s1 ∧ f a s1 = Outcome.ret c s2 := by
  rw [bind_apply]
  cases m s with
  | ok a s1 =>
      simp only [Outcome.ok.injEq, reduceCtorEq, false_or]
      constructor
      · intro h
        exact ⟨a, s1, ⟨rfl, rfl⟩, h⟩
      · rintro ⟨_, _, ⟨rfl, rfl⟩, h⟩
        exact h
  | ret c1 s1 => simp
  | exc s1 => simp

theorem bind_eq_exc {α β : Type} (m : Prog α) (f : α → Prog β) (s s2 : Cam) :
    (m >>= f) s = Outcome.exc s2 ↔
      m s = Outcome.exc s2 ∨ ∃ a s1, m s = Outcome.ok a s1 ∧ f a s1 = Outcome.exc s2 := by
  rw [bind_apply]
  cases m s with
  | ok a s1 =>
      simp only [Outcome.ok.injEq, reduceCtorEq, false_or]
      constructor
      · intro h
        exact ⟨a, s1, ⟨rfl, rfl⟩, h⟩
      · rintro ⟨_, _, ⟨rfl, rfl⟩, h⟩
        exact h
  | ret c1 s1 => simp
  | exc s1 => simp

theorem pure_eq_ok {α : Type} (a b : α) (s s1 : Cam) :
    (pure a : Prog α) s = Outcome.ok b s1 ↔ a = b ∧ s = s1 := by
  simp [pure_apply]

theorem pure_ne_ret {α : Type} (a : α) (c : Int) (s s1 : Cam) :
    (pure a : Prog α) s = Outcome.ret c s1 ↔ False := by
  simp [pure_apply]

theorem pure_ne_exc {α : Type} (a : α) (s s1 : Cam) :
    (pure a : Prog α) s = Outcome.exc s1 ↔ False := by
  simp [pure_apply]

theorem returnIf_eq_ok (cond : Bool) (code : Int) (s s1 : Cam) (u : Unit) :
    returnIf cond code s = Outcome.ok u s1 ↔ cond = false ∧ s = s1 := by
  unfold returnIf
  cases cond <;> simp

theorem returnIf_eq_ret (cond : Bool) (code c : Int) (s s1 : Cam) :
    returnIf cond code s = Outcome.ret c s1 ↔ cond = true ∧ code = c ∧ s = s1 := by
  unfold returnIf
  cases cond <;> simp

theorem returnIf_ne_exc (cond : Bool) (code : Int) (s s1 : Cam) :
    returnIf cond code s = Outcome.exc s1 ↔ False := by
  unfold returnIf
  cases cond <;> simp

theorem entryOrReturn_eq_ok (dev : Device) (n : Node) (e : Entry) (v : Int) (s s1 : Cam) :
    entryOrReturn dev n e s = Outcome.ok v s1 ↔ dev.entryValue n e = some v ∧ s = s1 := by
  unfold entryOrReturn
  cases dev.entryValue n e <;> simp

theorem entryOrReturn_eq_ret (dev : Device) (n : Node) (e : Entry) (c : Int) (s s1 : Cam) :
    entryOrReturn dev n e s = Outcome.ret c s1 ↔
      dev.entryValue n e = none ∧ c = -1 ∧ s = s1 := by
  unfold entryOrReturn
  cases dev.entryValue n e <;> simp [eq_comm]

theorem entryOrReturn_ne_exc (dev : Device) (n : Node) (e : Entry) (s s1 : Cam) :
    entryOrReturn dev n e s = Outcome.exc s1 ↔ False := by
  unfold entryOrReturn
  cases dev.entryValue n e <;> simp

theorem setValue_eq_ok (dev : Device) (n : Node) (v : Int) (s s1 : Cam) (u : Unit) :
    setValue dev n v s = Outcome.ok u s1 ↔
      (notWritable dev n || dev.throws (Api.write n)) = false ∧
        s.record (Event.setNode n v) = s1 := by
  unfold setValue
  cases (notWritable dev n || dev.throws (Api.write n)) <;> simp

theorem setValue_ne_ret (dev : Device) (n : Node) (v : Int) (s s1 : Cam) (c : Int) :
    setValue dev n v s = Outcome.ret c s1 ↔ False := by
  unfold setValue
  cases (notWritable dev n || dev.throws (Api.write n)) <;> simp

theorem setValue_eq_exc (dev : Device) (n : Node) (v : Int) (s s1 : Cam) :
    setValue dev n v s = Outcome.exc s1 ↔
      (notWritable dev n || dev.throws (Api.write n)) = true ∧ s = s1 := by
  unfold setValue
  cases (notWritable dev n || dev.throws (Api.write n)) <;> simp

theorem getValue_eq_ok (dev : Device) (n : Node) (v : Int) (s s1 : Cam) :
    getValue dev n s = Outcome.ok v s1 ↔
      notReadable dev n = false ∧ lastWritten n (dev.value n) s.log = v ∧ s = s1 := by
  unfold getValue
  cases notReadable dev n <;> simp

theorem getValue_ne_ret (dev : Device) (n : Node) (s s1 : Cam) (c : Int) :
    getValue dev n s = Outcome.ret c s1 ↔ False := by
  unfold getValue
  cases notReadable dev n <;> simp

theorem getValue_eq_exc (dev : Device) (n : Node) (s s1 : Cam) :
    getValue dev n s = Outcome.exc s1 ↔ notReadable dev n = true ∧ s = s1 := by
  unfold getValue
  cases notReadable dev n <;> simp

theorem emit_eq_ok (e : Event) (s s1 : Cam) (u : Unit) :
    emit e s = Outcome.ok u s1 ↔ s.record e = s1 := by
  simp [emit]

theorem emit_ne_ret (e : Event) (s s1 : Cam) (c : Int) :
    emit e s = Outcome.ret c s1 ↔ False := by
  simp [emit]

theorem emit_ne_exc (e : Event) (s s1 : Cam) :
    emit e s = Outcome.exc s1 ↔ False := by
  simp [emit]

/-- A function whose body is `try { block } catch (...) { result = -1; }` around
a block that ends with its result returns `r` exactly when the block ends with
`r`, executes `return r;`, or raises (with `r = -1`). -/
theorem call_tryCatch_eq_ok (block : Prog Int) (s s1 : Cam) (r : Int) :
    call (tryCatch block (pure (-1))) s = Outcome.ok r s1 ↔
      block s = Outcome.ok r s1 ∨ block s = Outcome.ret r s1 ∨
        (r = -1 ∧ block s = Outcome.exc s1) := by
  unfold call tryCatch
  cases block s <;> simp [pure_apply, eq_comm]

theorem lastWritten_append (n : Node) (dflt : Int) (l1 l2 : List Event) :
    lastWritten n dflt (l1 ++ l2) = lastWritten n (lastWritten n dflt l1) l2 := by
  induction l1 generalizing dflt with
  | nil => rfl
  | cons e rest ih => cases e <;> simp [lastWritten, ih]

/-! ### Buffer size -/

/-- On a payload for which `payload + 1023` does not wrap, the aligned size is
`1024 * ceil(payload / 1024)`. -/
theorem alignToUsbPacket_eq (p : Nat) (h : p + 1023 < 2 ^ 64) :
    alignToUsbPacket p = (p + 1023) / 1024 * 1024 := by
  unfold alignToUsbPacket u64mul u64div u64sub u64add usbPacketSize u64Size
  omega

/-! ### Single-precision rounding -/

theorem bitLengthAux_spec : ∀ (fuel n : Nat), n ≤ fuel →
    n < 2 ^ bitLengthAux fuel n ∧ (n ≠ 0 → 2 ^ (bitLengthAux fuel n - 1) ≤ n) := by
  intro fuel
  induction fuel with
  | zero =>
      intro n hn
      have : n = 0 := by omega
      subst this
      simp [bitLengthAux]
  | succ fuel ih =>
      intro n hn
      unfold bitLengthAux
      by_cases h0 : n = 0
      · simp [h0]
      · rw [if_neg h0]
        obtain ⟨h1, h2⟩ := ih (n / 2) (by omega)
        constructor
        · rw [pow_succ]
          omega
        · intro _
          simp only [Nat.add_sub_cancel]
          by_cases hh : n / 2 = 0
          · have hb : bitLengthAux fuel (n / 2) = 0 := by
              cases fuel <;> simp [bitLengthAux, hh]
            rw [hb]
            simp
            omega
          · have h3 := h2 hh
            have hpos : 0 < bitLengthAux fuel (n / 2) := by
              by_contra hc
              have hz : bitLengthAux fuel (n / 2) = 0 := by omega
              rw [hz] at h1
              simp at h1
              exact hh h1
            have : bitLengthAux fuel (n / 2) = (bitLengthAux fuel (n / 2) - 1) + 1 := by omega
            rw [this, pow_succ]
            omega

theorem lt_two_pow_bitLength (t : Nat) : t < 2 ^ bitLength t :=
  (bitLengthAux_spec t t (Nat.le_refl t)).1

theorem two_pow_bitLength_le (t : Nat) (h : t ≠ 0) : 2 ^ (bitLength t - 1) ≤ t :=
  (bitLengthAux_spec t t (Nat.le_refl t)).2 h

theorem bitLength_zero : bitLength 0 = 0 := rfl

theorem bitLength_mono {a b : Nat} (h : a ≤ b) : bitLength a ≤ bitLength b := by
  by_contra hc
  have hlt : bitLength b < bitLength a := by omega
  have ha0 : a ≠ 0 := by
    rintro rfl
    simp [bitLength_zero] at hlt
  have h1 := two_pow_bitLength_le a ha0
  have h2 := lt_two_pow_bitLength b
  have h3 : 2 ^ bitLength b ≤ 2 ^ (bitLength a - 1) :=
    Nat.pow_le_pow_right (by norm_num) (by omega)
  omega

theorem bitLength_eq {t e : Nat} (h1 : 2 ^ e ≤ t) (h2 : t < 2 ^ (e + 1)) :
    bitLength t = e + 1 := by
  have ht0 : t ≠ 0 := by
    have : 0 < 2 ^ e := by positivity
    omega
  have h3 := lt_two_pow_bitLength t
  have h4 := two_pow_bitLength_le t ht0
  have h5 : e < bitLength t := by
    by_contra hc
    have : 2 ^ bitLength t ≤ 2 ^ e := Nat.pow_le_pow_right (by norm_num) (by omega)
    omega
  have h6 : bitLength t - 1 < e + 1 := by
    by_contra hc
    have : 2 ^ (e + 1) ≤ 2 ^ (bitLength t - 1) := Nat.pow_le_pow_right (by norm_num) (by omega)
    omega
  omega

theorem roundHalfEven_ge (n d : Nat) : n / d ≤ roundHalfEven n d := by
  unfold roundHalfEven
  split_ifs <;> omega

theorem roundHalfEven_le (n d : Nat) : roundHalfEven n d ≤ n / d + 1 := by
  unfold roundHalfEven
  split_ifs <;> omega

theorem roundHalfEven_exact (m d : Nat) (hd : 0 < d) : roundHalfEven (m * d) d = m := by
  unfold roundHalfEven
  have h1 : m * d % d = 0 := Nat.mul_mod_left m d
  have h2 : m * d / d = m := Nat.mul_div_cancel m hd
  rw [h1, h2]
  simp [hd]

theorem div_le_div_of_cross {n1 d1 n2 d2 : Nat} (hd1 : 0 < d1) (hd2 : 0 < d2)
    (h : n1 * d2 ≤ n2 * d1) : n1 / d1 ≤ n2 / d2 := by
  rw [Nat.le_div_iff_mul_le hd2]
  have h1 : n1 / d1 * d1 ≤ n1 := Nat.div_mul_le_self n1 d1
  have h2 : n1 / d1 * d2 * d1 ≤ n2 * d1 := by
    calc n1 / d1 * d2 * d1 = n1 / d1 * d1 * d2 := by ring
      _ ≤ n1 * d2 := Nat.mul_le_mul_right d2 h1
      _ ≤ n2 * d1 := h
  exact Nat.le_of_mul_le_mul_right h2 hd1

theorem roundHalfEven_mono {n1 d1 n2 d2 : Nat} (hd1 : 0 < d1) (hd2 : 0 < d2)
    (h : n1 * d2 ≤ n2 * d1) : roundHalfEven n1 d1 ≤ roundHalfEven n2 d2 := by
  have hq := div_le_div_of_cross hd1 hd2 h
  rcases Nat.lt_or_ge (n1 / d1) (n2 / d2) with hlt | hge
  · calc roundHalfEven n1 d1 ≤ n1 / d1 + 1 := roundHalfEven_le n1 d1
      _ ≤ n2 / d2 := hlt
      _ ≤ roundHalfEven n2 d2 := roundHalfEven_ge n2 d2
  · have heq : n1 / d1 = n2 / d2 := Nat.le_antisymm hq hge
    have e1 : d1 * (n1 / d1) + n1 % d1 = n1 := Nat.div_add_mod n1 d1
    have e2 : d2 * (n2 / d2) + n2 % d2 = n2 := Nat.div_add_mod n2 d2
    have hr : n1 % d1 * d2 ≤ n2 % d2 * d1 := by
      have h' : (d1 * (n1 / d1) + n1 % d1) * d2 ≤ (d2 * (n2 / d2) + n2 % d2) * d1 := by
        rw [e1, e2]; exact h
      rw [heq] at h'
      have : d1 * (n2 / d2) * d2 = d2 * (n2 / d2) * d1 := by ring
      nlinarith
    unfold roundHalfEven
    rw [heq]
    split_ifs <;> try omega
    all_goals
      exfalso
      nlinarith

theorem f32Spacing_pos (t : Nat) : 0 < f32Spacing t := by
  unfold f32Spacing
  positivity

/-- The mantissa kept by the rounding has at most 24 bits (`2^24` standing for
the carry into the next binade). -/
theorem mantissa_le (n d : Nat) :
    roundHalfEven n (d * f32Spacing (n / d)) ≤ 2 ^ 24 := by
  have hu := f32Spacing_pos (n / d)
  have h1 : n / d < 2 ^ bitLength (n / d) := lt_two_pow_bitLength (n / d)
  have h2 : 2 ^ bitLength (n / d) ≤ 2 ^ (bitLength (n / d) - 24 + 24) :=
    Nat.pow_le_pow_right (by norm_num) (by omega)
  have h3 : n / d < f32Spacing (n / d) * 2 ^ 24 := by
    unfold f32Spacing
    rw [← pow_add]
    omega
  have h4 : n / (d * f32Spacing (n / d)) < 2 ^ 24 := by
    rw [← Nat.div_div_eq_div_mul]
    exact Nat.div_lt_of_lt_mul h3
  have := roundHalfEven_le n (d * f32Spacing (n / d))
  omega

/-- Above the first binade the mantissa kept by the rounding has its leading
bit set. -/
theorem mantissa_ge (n d : Nat) (hk : 24 < bitLength (n / d)) :
    2 ^ 23 ≤ roundHalfEven n (d * f32Spacing (n / d)) := by
  have ht0 : n / d ≠ 0 := by
    intro h0
    rw [h0, bitLength_zero] at hk
    omega
  have h1 := two_pow_bitLength_le (n / d) ht0
  have h2 : bitLength (n / d) - 1 = (bitLength (n / d) - 24) + 23 := by omega
  have h3 : f32Spacing (n / d) * 2 ^ 23 ≤ n / d := by
    unfold f32Spacing
    rw [← pow_add, ← h2]
    exact h1
  have h4 : 2 ^ 23 ≤ n / (d * f32Spacing (n / d)) := by
    rw [← Nat.div_div_eq_div_mul, Nat.le_div_iff_mul_le (f32Spacing_pos _)]
    rw [Nat.mul_comm]
    exact h3
  have := roundHalfEven_ge n (d * f32Spacing (n / d))
  omega

/-- Rounding to binary32 is monotone. -/
theorem f32RoundNat_mono {n1 d1 n2 d2 : Nat} (hd1 : 0 < d1) (hd2 : 0 < d2)
    (h : n1 * d2 ≤ n2 * d1) : f32RoundNat n1 d1 ≤ f32RoundNat n2 d2 := by
  have hq := div_le_div_of_cross hd1 hd2 h
  have hb := bitLength_mono hq
  unfold f32RoundNat
  rcases Nat.eq_or_lt_of_le (Nat.sub_le_sub_right hb 24) with heq | hlt
  · have hu : f32Spacing (n1 / d1) = f32Spacing (n2 / d2) := by
      unfold f32Spacing
      rw [heq]
    rw [hu]
    apply Nat.mul_le_mul_right
    apply roundHalfEven_mono (Nat.mul_pos hd1 (f32Spacing_pos _)) (Nat.mul_pos hd2 (f32Spacing_pos _))
    calc n1 * (d2 * f32Spacing (n2 / d2)) = n1 * d2 * f32Spacing (n2 / d2) := by ring
      _ ≤ n2 * d1 * f32Spacing (n2 / d2) := Nat.mul_le_mul_right _ h
      _ = n2 * (d1 * f32Spacing (n2 / d2)) := by ring
  · have hk2 : 24 < bitLength (n2 / d2) := by omega
    have hm1 := mantissa_le n1 d1
    have hm2 := mantissa_ge n2 d2 hk2
    have hs : 2 ^ 24 * f32Spacing (n1 / d1) ≤ 2 ^ 23 * f32Spacing (n2 / d2) := by
      unfold f32Spacing
      rw [← pow_add, ← pow_add]
      exact Nat.pow_le_pow_right (by norm_num) (by omega)
    calc roundHalfEven n1 (d1 * f32Spacing (n1 / d1)) * f32Spacing (n1 / d1)
        ≤ 2 ^ 24 * f32Spacing (n1 / d1) := Nat.mul_le_mul_right _ hm1
      _ ≤ 2 ^ 23 * f32Spacing (n2 / d2) := hs
      _ ≤ roundHalfEven n2 (d2 * f32Spacing (n2 / d2)) * f32Spacing (n2 / d2) :=
          Nat.mul_le_mul_right _ hm2

/-- A value with at most 24 significant bits is a binary32 value: rounding
leaves it unchanged. -/
theorem f32RoundNat_representable (m k : Nat) (hm : m ≤ 2 ^ 24)
    (hk : 0 < k → 2 ^ 23 ≤ m) : f32RoundNat (m * 2 ^ k) 1 = m * 2 ^ k := by
  unfold f32RoundNat
  simp only [Nat.div_one, Nat.one_mul]
  rcases Nat.lt_or_ge m (2 ^ 24) with hlt | hge
  · rcases Nat.eq_zero_or_pos k with hk0 | hkpos
    · subst hk0
      simp only [pow_zero, Nat.mul_one]
      have hb : bitLength m ≤ 24 := by
        by_contra hc
        have hm0 : m ≠ 0 := by
          intro h0
          rw [h0, bitLength_zero] at hc
          omega
        have h1 := two_pow_bitLength_le m hm0
        have h2 : 2 ^ 24 ≤ 2 ^ (bitLength m - 1) :=
          Nat.pow_le_pow_right (by norm_num) (by omega)
        omega
      have hu : f32Spacing m = 1 := by
        unfold f32Spacing
        have : bitLength m - 24 = 0 := by omega
        rw [this]
        rfl
      rw [hu]
      have := roundHalfEven_exact m 1 (by norm_num)
      simp only [Nat.mul_one] at this ⊢
      exact this
    · have h23 := hk hkpos
      have hb : bitLength (m * 2 ^ k) = (23 + k) + 1 := by
        apply bitLength_eq
        · rw [pow_add]
          exact Nat.mul_le_mul_right _ h23
        · have : 2 ^ (23 + k + 1) = 2 ^ 24 * 2 ^ k := by
            rw [← pow_add]
            congr 1
            omega
          rw [this]
          exact Nat.mul_lt_mul_of_pos_right hlt (by positivity)
      have hu : f32Spacing (m * 2 ^ k) = 2 ^ k := by
        unfold f32Spacing
        rw [hb]
        congr 1
        omega
      rw [hu, roundHalfEven_exact m (2 ^ k) (by positivity)]
  · have hm24 : m = 2 ^ 24 := Nat.le_antisymm hm hge
    subst hm24
    have hb : bitLength (2 ^ 24 * 2 ^ k) = (24 + k) + 1 := by
      apply bitLength_eq
      · rw [pow_add]
      · rw [← pow_add]
        exact Nat.pow_lt_pow_right (by norm_num) (by omega)
    have hu : f32Spacing (2 ^ 24 * 2 ^ k) = 2 ^ (k + 1) := by
      unfold f32Spacing
      rw [hb]
      congr 1
      omega
    rw [hu]
    have h1 : 2 ^ 24 * 2 ^ k = 2 ^ 23 * 2 ^ (k + 1) := by
      rw [← pow_add, ← pow_add]
      congr 1
      omega
    rw [h1, roundHalfEven_exact (2 ^ 23) (2 ^ (k + 1)) (by positivity)]

/-- Rounding a value that is already rounded leaves it unchanged. -/
theorem f32RoundNat_idem (n d : Nat) :
    f32RoundNat (f32RoundNat n d) 1 = f32RoundNat n d := by
  have hm := mantissa_le n d
  have hrep := f32RoundNat_representable (roundHalfEven n (d * f32Spacing (n / d)))
    (bitLength (n / d) - 24) hm (fun hk => mantissa_ge n d (by omega))
  unfold f32RoundNat f32Spacing at *
  exact hrep

theorem f32RoundNat_zero (d : Nat) : f32RoundNat 0 d = 0 := by
  unfold f32RoundNat roundHalfEven
  simp

theorem f32Round_natCast (n d : Nat) : f32Round (n : Int) d = ((f32RoundNat n d : Nat) : Int) := by
  unfold f32Round
  rcases Nat.eq_zero_or_pos n with h0 | hpos
  · subst h0
    simp [f32RoundNat_zero]
  · have hs : Int.sign (n : Int) = 1 := Int.sign_eq_one_of_pos (by exact_mod_cast hpos)
    rw [hs, Int.natAbs_ofNat]
    simp

theorem f32RoundNat_one : f32RoundNat f32One 1 = f32One := by
  have h := f32RoundNat_representable (2 ^ 23) 126 (by norm_num) (fun _ => le_refl _)
  have e : (2 : Nat) ^ 23 * 2 ^ 126 = f32One := by
    unfold f32One
    rw [← pow_add]
  rw [e] at h
  exact h

theorem f32RoundNat_hundred : f32RoundNat (100 * f32One) 1 = 100 * f32One := by
  have h := f32RoundNat_representable 13107200 132 (by norm_num) (fun _ => by norm_num)
  have e : 13107200 * 2 ^ 132 = 100 * f32One := by
    unfold f32One
    norm_num
  rw [e] at h
  exact h

/-- The duty cycle computed from positive register values exists and is at
most 100. -/
theorem dutyCycle_natCast (D L : Nat) (hD : 0 < D) :
    ∃ v : Nat, dutyCycle (D : Int) (L : Int) = some (v : Int) ∧ v ≤ 100 := by
  -- the operands as binary32 values
  have hFD : f32OfInt (D : Int) = ((f32RoundNat (D * f32One) 1 : Nat) : Int) := by
    unfold f32OfInt
    rw [← Int.natCast_mul, f32Round_natCast]
  have hFL : f32OfInt (L : Int) = ((f32RoundNat (L * f32One) 1 : Nat) : Int) := by
    unfold f32OfInt
    rw [← Int.natCast_mul, f32Round_natCast]
  have h100 : f32OfInt 100 = ((100 * f32One : Nat) : Int) := by
    have : f32OfInt 100 = f32OfInt ((100 : Nat) : Int) := rfl
    rw [this]
    unfold f32OfInt
    rw [← Int.natCast_mul, f32Round_natCast, f32RoundNat_hundred]
  have hone : 0 < f32One := by unfold f32One; positivity
  -- the rounded duration is at least 1.0
  have hFDpos : f32One ≤ f32RoundNat (D * f32One) 1 := by
    have := @f32RoundNat_mono f32One 1 (D * f32One) 1
      (by norm_num) (by norm_num) (by nlinarith)
    rw [f32RoundNat_one] at this
    exact this
  -- the sum is at least the rounded duration
  have hS : f32RoundNat (D * f32One) 1
      ≤ f32RoundNat (f32RoundNat (D * f32One) 1 + f32RoundNat (L * f32One) 1) 1 := by
    have := @f32RoundNat_mono (f32RoundNat (D * f32One) 1) 1
      (f32RoundNat (D * f32One) 1 + f32RoundNat (L * f32One) 1) 1
      (by norm_num) (by norm_num) (by omega)
    rw [f32RoundNat_idem] at this
    exact this
  generalize hFDdef : f32RoundNat (D * f32One) 1 = FD at *
  generalize hFLdef : f32RoundNat (L * f32One) 1 = FL at *
  generalize hSdef : f32RoundNat (FD + FL) 1 = S at *
  have hSpos : 0 < S := by omega
  have hAdd : f32Add (FD : Int) (FL : Int) = (S : Int) := by
    unfold f32Add
    rw [← Int.natCast_add, f32Round_natCast, hSdef]
  have hDiv : f32Div (FD : Int) (S : Int) = some ((f32RoundNat (FD * f32One) S : Nat) : Int) := by
    unfold f32Div
    have hne : (S : Int) ≠ 0 := by exact_mod_cast (Nat.pos_iff_ne_zero.mp hSpos)
    have hs : Int.sign (S : Int) = 1 := Int.sign_eq_one_of_pos (by exact_mod_cast hSpos)
    rw [if_neg hne, hs, Int.natAbs_ofNat, Int.mul_one, ← Int.natCast_mul, f32Round_natCast]
  -- the quotient is at most 1.0
  have hQ : f32RoundNat (FD * f32One) S ≤ f32One := by
    have := @f32RoundNat_mono (FD * f32One) S f32One 1
      hSpos (by norm_num) (by nlinarith)
    rw [f32RoundNat_one] at this
    exact this
  generalize hQdef : f32RoundNat (FD * f32One) S = Q at *
  -- the product is at most 100.0
  have hP : f32RoundNat (Q * (100 * f32One)) f32One ≤ 100 * f32One := by
    have := @f32RoundNat_mono (Q * (100 * f32One)) f32One (100 * f32One) 1
      hone (by norm_num) (by nlinarith)
    rw [f32RoundNat_hundred] at this
    exact this
  have hMul : f32Mul (Q : Int) ((100 * f32One : Nat) : Int)
      = ((f32RoundNat (Q * (100 * f32One)) f32One : Nat) : Int) := by
    unfold f32Mul
    rw [← Int.natCast_mul, f32Round_natCast]
  generalize hPdef : f32RoundNat (Q * (100 * f32One)) f32One = P at *
  refine ⟨P / f32One, ?_, ?_⟩
  · unfold dutyCycle
    rw [hFD, hFL, hAdd, hDiv]
    simp only
    rw [h100, hMul]
    unfold f32ToInt64
    have htd : Int.tdiv (P : Int) (f32One : Int) = ((P / f32One : Nat) : Int) :=
      (Int.ofNat_tdiv P f32One).symm
    rw [htd]
    have hle : P / f32One ≤ 100 := by
      apply Nat.div_le_of_le_mul
      rw [Nat.mul_comm]
      exact hP
    rw [if_pos]
    constructor
    · have : (0 : Int) ≤ ((P / f32One : Nat) : Int) := Int.natCast_nonneg _
      omega
    · have : ((P / f32One : Nat) : Int) ≤ 100 := by exact_mod_cast hle
      omega
  · apply Nat.div_le_of_le_mul
    rw [Nat.mul_comm]
    exact hP

/-! ### The two expressions of `SetupCounterAndTimer` as functions of the registers -/

/-- Every integer below `2^24` times a power of two is a binary32 value. -/
theorem f32RoundNat_shifted (m k : Nat) (hm : m < 2 ^ 24) :
    f32RoundNat (m * 2 ^ k) 1 = m * 2 ^ k := by
  rcases Nat.eq_zero_or_pos m with h0 | hpos
  · subst h0
    simp [f32RoundNat_zero]
  · have hm0 : m ≠ 0 := by omega
    have h1 := two_pow_bitLength_le m hm0
    have h2 := lt_two_pow_bitLength m
    have he : bitLength m ≤ 24 := by
      by_contra hc
      have : 2 ^ 24 ≤ 2 ^ (bitLength m - 1) := Nat.pow_le_pow_right (by norm_num) (by omega)
      omega
    have he0 : 0 < bitLength m := by
      by_contra hc
      have hz : bitLength m = 0 := by omega
      rw [hz] at h2
      simp at h2
      omega
    rcases Nat.lt_or_ge k (24 - bitLength m) with hk | hk
    · -- the value stays below 2^24: spacing 1
      have hlt : m * 2 ^ k < 2 ^ 24 := by
        calc m * 2 ^ k < 2 ^ bitLength m * 2 ^ k :=
              Nat.mul_lt_mul_of_pos_right h2 (by positivity)
          _ = 2 ^ (bitLength m + k) := by rw [pow_add]
          _ ≤ 2 ^ 24 := Nat.pow_le_pow_right (by norm_num) (by omega)
      have := f32RoundNat_representable (m * 2 ^ k) 0 (le_of_lt hlt) (fun h => absurd h (by decide))
      simpa using this
    · -- normalise the mantissa to 24 bits
      have hsplit : m * 2 ^ k = (m * 2 ^ (24 - bitLength m)) * 2 ^ (k - (24 - bitLength m)) := by
        rw [Nat.mul_assoc, ← pow_add]
        congr 2
        omega
      have hlo : 2 ^ 23 ≤ m * 2 ^ (24 - bitLength m) := by
        calc 2 ^ 23 = 2 ^ (bitLength m - 1) * 2 ^ (24 - bitLength m) := by
              rw [← pow_add]
              congr 1
              omega
          _ ≤ m * 2 ^ (24 - bitLength m) := Nat.mul_le_mul_right _ h1
      have hhi : m * 2 ^ (24 - bitLength m) ≤ 2 ^ 24 := by
        calc m * 2 ^ (24 - bitLength m) ≤ 2 ^ bitLength m * 2 ^ (24 - bitLength m) :=
              Nat.mul_le_mul_right _ (le_of_lt h2)
          _ = 2 ^ 24 := by
              rw [← pow_add]
              congr 1
              omega
      rw [hsplit]
      exact f32RoundNat_representable _ _ hhi (fun _ => hlo)

/-- The conversion `(float)n` of an integer below `2^24` is exact. -/
theorem f32OfInt_natCast (n : Nat) (hn : n < 2 ^ 24) :
    f32OfInt (n : Int) = ((n * f32One : Nat) : Int) := by
  unfold f32OfInt
  rw [← Int.natCast_mul, f32Round_natCast]
  have := f32RoundNat_shifted n 149 hn
  unfold f32One
  rw [this]

theorem f32One_pos : 0 < f32One := by
  unfold f32One
  positivity

/-- The sum of two register values, when it is below `2^24`, is computed
exactly in `float`. -/
theorem f32Add_natCast (D L : Nat) (hlt : D + L < 2 ^ 24) :
    f32Add (f32OfInt (D : Int)) (f32OfInt (L : Int)) = (((D + L) * f32One : Nat) : Int) := by
  rw [f32OfInt_natCast D (by omega), f32OfInt_natCast L (by omega)]
  unfold f32Add
  rw [← Int.natCast_add, f32Round_natCast]
  have h := f32RoundNat_shifted (D + L) 149 hlt
  have e : D * f32One + L * f32One = (D + L) * 2 ^ 149 := by
    unfold f32One
    ring
  rw [e, h]
  rfl

/-- The quotient `(float)a / (float)b` of two integers below `2^24`, the second
one positive: the exact quotient, rounded once. -/
theorem f32Div_natCast (a b : Nat) (hb : 0 < b) :
    f32Div ((a * f32One : Nat) : Int) ((b * f32One : Nat) : Int)
      = some ((f32RoundNat (a * f32One * f32One) (b * f32One) : Nat) : Int) := by
  have hpos : 0 < b * f32One := Nat.mul_pos hb f32One_pos
  unfold f32Div
  have hne : ((b * f32One : Nat) : Int) ≠ 0 := by exact_mod_cast (Nat.pos_iff_ne_zero.mp hpos)
  have hs : Int.sign ((b * f32One : Nat) : Int) = 1 :=
    Int.sign_eq_one_of_pos (by exact_mod_cast hpos)
  rw [if_neg hne, hs, Int.natAbs_ofNat, Int.mul_one]
  have e : ((a * f32One : Nat) : Int) * (f32One : Int) = ((a * f32One * f32One : Nat) : Int) := by
    push_cast
    ring
  rw [e, f32Round_natCast]

/-- The conversion `(int64_t)q` of a `float` value between 0 and 2^24. -/
theorem f32ToInt64_natCast (q : Nat) (hq : q / f32One < 2 ^ 24) :
    f32ToInt64 (q : Int) = some ((q / f32One : Nat) : Int) := by
  unfold f32ToInt64
  have htd : Int.tdiv (q : Int) (f32One : Int) = ((q / f32One : Nat) : Int) :=
    (Int.ofNat_tdiv q f32One).symm
  rw [htd, if_pos]
  constructor
  · have : (0 : Int) ≤ ((q / f32One : Nat) : Int) := Int.natCast_nonneg _
    omega
  · have : ((q / f32One : Nat) : Int) < 2 ^ 24 := by exact_mod_cast hq
    omega

/-- The pulse rate computed from register values whose sum is positive and
below `2^24` is the quotient `1000000 / (duration + delay)` truncated to an
integer: the rounding of the quotient to `float` does not reach the next
integer. -/
theorem pulseRate_exact (D L : Nat) (hpos : 0 < D + L) (hlt : D + L < 2 ^ 24) :
    pulseRate (D : Int) (L : Int) = some ((1000000 / (D + L) : Nat) : Int) := by
  have hone := f32One_pos
  have hm : f32OfInt 1000000 = ((1000000 * f32One : Nat) : Int) :=
    f32OfInt_natCast 1000000 (by norm_num)
  have hdm := Nat.div_add_mod 1000000 (D + L)
  have hmod := Nat.mod_lt 1000000 hpos
  have hnle : 1000000 / (D + L) ≤ 1000000 := Nat.div_le_self _ _
  -- the quotient is not below the integer part, which is a `float`
  have hlo : 1000000 / (D + L) * f32One
      ≤ f32RoundNat (1000000 * f32One * f32One) ((D + L) * f32One) := by
    have := @f32RoundNat_mono (1000000 / (D + L) * f32One) 1 (1000000 * f32One * f32One)
      ((D + L) * f32One) (by norm_num) (Nat.mul_pos hpos hone) (by
        have h1 : 1000000 / (D + L) * (D + L) ≤ 1000000 := by
          rw [Nat.mul_comm]
          omega
        calc 1000000 / (D + L) * f32One * ((D + L) * f32One)
            = 1000000 / (D + L) * (D + L) * (f32One * f32One) := by ring
          _ ≤ 1000000 * (f32One * f32One) := Nat.mul_le_mul_right _ h1
          _ = 1000000 * f32One * f32One * 1 := by ring)
    have hrep := f32RoundNat_shifted (1000000 / (D + L)) 149 (by omega)
    unfold f32One at this hrep ⊢
    rw [hrep] at this
    exact this
  -- and it is below the next integer: a `float` lies between the two
  have hhi : f32RoundNat (1000000 * f32One * f32One) ((D + L) * f32One)
      < (1000000 / (D + L) + 1) * f32One := by
    rcases Nat.lt_or_ge (D + L) 2000000 with hsmall | hbig
    · -- the `float` value `(n + 1) - 2^-j`, where `D + L < 2^j ≤ 2 * (D + L)`
      have hj1 := lt_two_pow_bitLength (D + L)
      have hj2 := two_pow_bitLength_le (D + L) (by omega)
      have hj0 : 0 < bitLength (D + L) := by
        by_contra hc
        have hz : bitLength (D + L) = 0 := by omega
        rw [hz] at hj1
        simp at hj1
        omega
      have hpow : 2 ^ bitLength (D + L) = 2 * 2 ^ (bitLength (D + L) - 1) := by
        rw [← pow_succ']
        congr 1
        omega
      have hj149 : bitLength (D + L) ≤ 149 := by
        by_contra hc
        have : 2 ^ 24 ≤ 2 ^ (bitLength (D + L) - 1) :=
          Nat.pow_le_pow_right (by norm_num) (by omega)
        omega
      generalize hJ : 2 ^ bitLength (D + L) = J at hj1 hpow
      have hJpos : 0 < J := by omega
      have hprod : (1000000 / (D + L) + 1) * J ≤ 2 * (1000000 + (D + L)) := by
        have e1 : (1000000 / (D + L) + 1) * (D + L)
            = (D + L) * (1000000 / (D + L)) + (D + L) := by ring
        have hJle : J ≤ 2 * (D + L) := by omega
        calc (1000000 / (D + L) + 1) * J ≤ (1000000 / (D + L) + 1) * (2 * (D + L)) :=
              Nat.mul_le_mul_left _ hJle
          _ = 2 * ((1000000 / (D + L) + 1) * (D + L)) := by ring
          _ ≤ 2 * (1000000 + (D + L)) := by omega
      have hprod1 : 1 ≤ (1000000 / (D + L) + 1) * J := Nat.mul_pos (Nat.succ_pos _) hJpos
      have hsplit : f32One = J * 2 ^ (149 - bitLength (D + L)) := by
        unfold f32One
        rw [← hJ, ← pow_add]
        congr 1
        omega
      generalize hK : 2 ^ (149 - bitLength (D + L)) = K at hsplit
      have hKpos : 0 < K := by
        rw [← hK]
        positivity
      have hrep := f32RoundNat_shifted ((1000000 / (D + L) + 1) * J - 1)
        (149 - bitLength (D + L))
        (lt_of_le_of_lt (Nat.sub_le _ _) (lt_of_le_of_lt hprod (by omega)))
      rw [hK] at hrep
      have hmono := @f32RoundNat_mono (1000000 * f32One * f32One) ((D + L) * f32One)
        (((1000000 / (D + L) + 1) * J - 1) * K) 1 (Nat.mul_pos hpos hone) (by norm_num) (by
          have hkey : 1000000 * J ≤ ((1000000 / (D + L) + 1) * J - 1) * (D + L) := by
            have e1 : (1000000 / (D + L) + 1) * (D + L)
                = (D + L) * (1000000 / (D + L)) + (D + L) := by ring
            have e2 : ((1000000 / (D + L) + 1) * J - 1) * (D + L)
                = (1000000 / (D + L) + 1) * (D + L) * J - (D + L) := by
              rw [Nat.sub_mul, Nat.one_mul]
              congr 1
              ring
            rw [e2, e1]
            have e3 : (D + L) * (1000000 / (D + L)) + (D + L) = 1000000 + ((D + L) - 1000000 % (D + L)) := by
              omega
            rw [e3, Nat.add_mul]
            have hr : D + L ≤ ((D + L) - 1000000 % (D + L)) * J := by
              have h1 : 1 ≤ (D + L) - 1000000 % (D + L) := by omega
              calc D + L ≤ J := by omega
                _ = 1 * J := by ring
                _ ≤ ((D + L) - 1000000 % (D + L)) * J := Nat.mul_le_mul_right _ h1
            omega
          calc 1000000 * f32One * f32One * 1 = 1000000 * J * (K * f32One) := by
                rw [hsplit]
                ring
            _ ≤ ((1000000 / (D + L) + 1) * J - 1) * (D + L) * (K * f32One) :=
                Nat.mul_le_mul_right _ hkey
            _ = ((1000000 / (D + L) + 1) * J - 1) * K * ((D + L) * f32One) := by ring)
      rw [hrep] at hmono
      calc f32RoundNat (1000000 * f32One * f32One) ((D + L) * f32One)
          ≤ ((1000000 / (D + L) + 1) * J - 1) * K := hmono
        _ < (1000000 / (D + L) + 1) * J * K := Nat.mul_lt_mul_of_pos_right (by omega) hKpos
        _ = (1000000 / (D + L) + 1) * f32One := by
            rw [hsplit]
            ring
    · -- the quotient is at most one half
      have hrep := f32RoundNat_shifted 1 148 (by norm_num)
      have hmono := @f32RoundNat_mono (1000000 * f32One * f32One) ((D + L) * f32One)
        (1 * 2 ^ 148) 1 (Nat.mul_pos hpos hone) (by norm_num) (by
          have e : f32One = 2 * 2 ^ 148 := by
            unfold f32One
            norm_num
          calc 1000000 * f32One * f32One * 1 = 2000000 * (2 ^ 148 * f32One) := by
                rw [e]
                ring
            _ ≤ (D + L) * (2 ^ 148 * f32One) := Nat.mul_le_mul_right _ hbig
            _ = 1 * 2 ^ 148 * ((D + L) * f32One) := by ring)
      rw [hrep] at hmono
      have e : f32One = 2 * 2 ^ 148 := by
        unfold f32One
        norm_num
      have h0 : 1000000 / (D + L) = 0 := Nat.div_eq_of_lt (by omega)
      rw [h0]
      omega
  have hp : f32RoundNat (1000000 * f32One * f32One) ((D + L) * f32One) / f32One
      = 1000000 / (D + L) := by
    apply Nat.le_antisymm
    · have := (Nat.div_lt_iff_lt_mul hone).mpr hhi
      omega
    · rw [Nat.le_div_iff_mul_le hone]
      exact hlo
  unfold pulseRate
  rw [hm, f32Add_natCast D L hlt, f32Div_natCast 1000000 (D + L) hpos]
  simp only
  rw [f32ToInt64_natCast _ (by omega), hp]

/-- The duty cycle computed from the register values `n` and `100 - n`, as a
natural number: `(float)n / 100.0f * 100.0f`, truncated. -/
theorem dutyCycle_percent_steps :
    ∀ n, n < 101 →
      n ≤ f32RoundNat (f32RoundNat (n * f32One * f32One) (100 * f32One) * (100 * f32One))
          f32One / f32One + 1 ∧
      f32RoundNat (f32RoundNat (n * f32One * f32One) (100 * f32One) * (100 * f32One))
          f32One / f32One ≤ n := by
  decide!

/-- The duty cycle computed from register values, the duration positive and
the sum below `2^24`, differs by at most one from the quotient
`100 * duration / (duration + delay)` truncated to an integer. -/
theorem dutyCycle_near (D L : Nat) (hD : 0 < D) (hlt : D + L < 2 ^ 24) :
    ∃ v : Nat, dutyCycle (D : Int) (L : Int) = some (v : Int) ∧
      100 * D / (D + L) ≤ v + 1 ∧ v ≤ 100 * D / (D + L) + 1 := by
  have hone := f32One_pos
  have hpos : 0 < D + L := by omega
  have h100 : f32OfInt 100 = ((100 * f32One : Nat) : Int) := f32OfInt_natCast 100 (by norm_num)
  have hdm := Nat.div_add_mod (100 * D) (D + L)
  have hmod := Nat.mod_lt (100 * D) hpos
  have he100 : 100 * D / (D + L) ≤ 100 := by
    apply Nat.div_le_of_le_mul
    nlinarith
  -- monotonicity of the two rounded operations in the quotient of the operands
  have hstep : ∀ a1 b1 a2 b2 : Nat, 0 < b1 → 0 < b2 → a1 * b2 ≤ a2 * b1 →
      f32RoundNat (f32RoundNat (a1 * f32One * f32One) (b1 * f32One) * (100 * f32One)) f32One
          / f32One
        ≤ f32RoundNat (f32RoundNat (a2 * f32One * f32One) (b2 * f32One) * (100 * f32One)) f32One
          / f32One := by
    intro a1 b1 a2 b2 hb1 hb2 h
    have hq := @f32RoundNat_mono (a1 * f32One * f32One) (b1 * f32One) (a2 * f32One * f32One)
      (b2 * f32One) (Nat.mul_pos hb1 hone) (Nat.mul_pos hb2 hone) (by
        calc a1 * f32One * f32One * (b2 * f32One) = a1 * b2 * (f32One * f32One * f32One) := by ring
          _ ≤ a2 * b1 * (f32One * f32One * f32One) := Nat.mul_le_mul_right _ h
          _ = a2 * f32One * f32One * (b1 * f32One) := by ring)
    have hp := @f32RoundNat_mono
      (f32RoundNat (a1 * f32One * f32One) (b1 * f32One) * (100 * f32One)) f32One
      (f32RoundNat (a2 * f32One * f32One) (b2 * f32One) * (100 * f32One)) f32One hone hone
      (Nat.mul_le_mul_right _ (Nat.mul_le_mul_right _ hq))
    exact Nat.div_le_div_right hp
  refine ⟨f32RoundNat (f32RoundNat (D * f32One * f32One) ((D + L) * f32One) * (100 * f32One))
    f32One / f32One, ?_, ?_, ?_⟩
  · unfold dutyCycle
    rw [f32Add_natCast D L hlt, f32OfInt_natCast D (by omega), f32Div_natCast D (D + L) hpos]
    simp only
    rw [h100]
    unfold f32Mul
    rw [← Int.natCast_mul, f32Round_natCast]
    refine f32ToInt64_natCast _ ?_
    have := hstep D (D + L) 100 100 hpos (by norm_num) (by nlinarith)
    have h2 := (dutyCycle_percent_steps 100 (by norm_num)).2
    omega
  · have := hstep (100 * D / (D + L)) 100 D (D + L) (by norm_num) hpos (by
      rw [Nat.mul_comm D 100]
      have : 100 * D / (D + L) * (D + L) = (D + L) * (100 * D / (D + L)) := by ring
      omega)
    have h2 := (dutyCycle_percent_steps (100 * D / (D + L)) (by omega)).1
    omega
  · rcases Nat.lt_or_ge (100 * D / (D + L)) 100 with hlt100 | hge
    · have := hstep D (D + L) (100 * D / (D + L) + 1) 100 hpos (by norm_num) (by
        have : (100 * D / (D + L) + 1) * (D + L)
            = (D + L) * (100 * D / (D + L)) + (D + L) := by ring
        rw [Nat.mul_comm D 100]
        omega)
      have h2 := (dutyCycle_percent_steps (100 * D / (D + L) + 1) (by omega)).2
      omega
    · have := hstep D (D + L) 100 100 hpos (by norm_num) (by nlinarith)
      have h2 := (dutyCycle_percent_steps 100 (by norm_num)).2
      omega

/-! ### The acquisition loop -/

/-- What one iteration of the acquisition loop does, case by case. -/
theorem iteration_cases (dev : Device) (result : Int) (s : Cam) :
    tryCatch (do retrieveConvertSave dev; pure result) (pure (-1)) s =
      match dev.frames s.nextFrame with
      | none =>
          Outcome.ok (-1) ⟨s.ownership, s.initialized, s.streaming, s.nextFrame + 1,
            s.log ++ [Event.getNextImage s.nextFrame]⟩
      | some f =>
          if f.incomplete then
            Outcome.ok result ⟨s.ownership, s.initialized, s.streaming, s.nextFrame + 1,
              s.log ++ [Event.getNextImage s.nextFrame, Event.release s.nextFrame]⟩
          else if f.convertFails then
            Outcome.ok (-1) ⟨s.ownership, s.initialized, s.streaming, s.nextFrame + 1,
              s.log ++ [Event.getNextImage s.nextFrame, Event.convert s.nextFrame]⟩
          else if f.saveFails then
            Outcome.ok (-1) ⟨s.ownership, s.initialized, s.streaming, s.nextFrame + 1,
              s.log ++ [Event.getNextImage s.nextFrame, Event.convert s.nextFrame,
                Event.save s.nextFrame]⟩
          else
            Outcome.ok result ⟨s.ownership, s.initialized, s.streaming, s.nextFrame + 1,
              s.log ++ [Event.getNextImage s.nextFrame, Event.convert s.nextFrame,
                Event.save s.nextFrame, Event.release s.nextFrame]⟩ := by
  unfold tryCatch retrieveConvertSave
  simp only [bind_apply, pure_apply, getNextImage]
  cases h2 : dev.frames s.nextFrame with
  | none => simp [Cam.record, Cam.advanceFrame]
  | some f =>
      cases h3 : f.incomplete <;> cases h4 : f.convertFails <;> cases h5 : f.saveFails <;>
        simp [h3, h4, h5, pure_apply, bind_apply, Cam.record, Cam.advanceFrame, convert, save,
          release, emit]

/-- One iteration of the acquisition loop ends normally, makes one call of
`GetNextImage`, touches no other frame, and on an incomplete frame makes just
the calls `GetNextImage` and `Release`. -/
theorem iteration_spec (dev : Device) (result : Int) (s : Cam) :
    ∃ r calls, tryCatch (do retrieveConvertSave dev; pure result) (pure (-1)) s
        = Outcome.ok r ⟨s.ownership, s.initialized, s.streaming, s.nextFrame + 1,
            s.log ++ calls⟩ ∧
      Event.getNextImage s.nextFrame ∈ calls ∧
      (∀ k, k ≠ s.nextFrame →
        Event.release k ∉ calls ∧ Event.convert k ∉ calls ∧ Event.save k ∉ calls) ∧
      (∀ f, dev.frames s.nextFrame = some f → f.incomplete = true →
        calls = [Event.getNextImage s.nextFrame, Event.release s.nextFrame]) := by
  rw [iteration_cases]
  cases h2 : dev.frames s.nextFrame with
  | none =>
      exact ⟨_, _, rfl, by simp, by simp, by simp⟩
  | some f =>
      cases h3 : f.incomplete <;> cases h4 : f.convertFails <;> cases h5 : f.saveFails <;>
        simp only [h3, h4, h5, Bool.false_eq_true, ↓reduceIte] <;>
        refine ⟨_, _, rfl, by simp, fun k hk => by simp [hk], fun g hg hinc => ?_⟩ <;>
        cases hg <;> simp_all

/-- The acquisition loop runs all its iterations and ends normally; a frame that
is flagged incomplete is released exactly once and neither converted nor
saved; frames outside the loop are not touched. -/
theorem imageLoop_spec (dev : Device) :
    ∀ (n : Nat) (result : Int) (s : Cam), ∃ r calls,
      imageLoop dev n result s
        = Outcome.ok r ⟨s.ownership, s.initialized, s.streaming, s.nextFrame + n,
            s.log ++ calls⟩ ∧
      ∀ k,
        ((k < s.nextFrame ∨ s.nextFrame + n ≤ k) →
          Event.release k ∉ calls ∧ Event.convert k ∉ calls ∧ Event.save k ∉ calls) ∧
        (s.nextFrame ≤ k → k < s.nextFrame + n →
          Event.getNextImage k ∈ calls ∧
          ∀ f, dev.frames k = some f → f.incomplete = true →
            calls.count (Event.release k) = 1 ∧ Event.convert k ∉ calls ∧
              Event.save k ∉ calls) := by
  intro n
  induction n with
  | zero =>
      intro result s
      refine ⟨result, [], by simp [imageLoop, pure_apply], ?_⟩
      intro k
      exact ⟨fun _ => by simp, fun h1 h2 => by omega⟩
  | succ n ih =>
      intro result s
      obtain ⟨r1, calls1, hrun1, hget1, hother1, hinc1⟩ := iteration_spec dev result s
      obtain ⟨r2, calls2, hrun2, hspec2⟩ := ih r1
        ⟨s.ownership, s.initialized, s.streaming, s.nextFrame + 1, s.log ++ calls1⟩
      refine ⟨r2, calls1 ++ calls2, ?_, ?_⟩
      · rw [imageLoop, bind_apply, hrun1]
        simp only [hrun2]
        simp [Nat.add_assoc, Nat.add_comm 1 n]
      · intro k
        simp only at hspec2
        obtain ⟨hout2, hin2⟩ := hspec2 k
        constructor
        · intro hk
          have hne : k ≠ s.nextFrame := by omega
          obtain ⟨ha, hb, hc⟩ := hother1 k hne
          obtain ⟨ha2, hb2, hc2⟩ := hout2 (by omega)
          simp [ha, hb, hc, ha2, hb2, hc2]
        · intro hk1 hk2
          by_cases hks : k = s.nextFrame
          · subst hks
            obtain ⟨ha2, hb2, hc2⟩ := hout2 (by omega)
            refine ⟨by simp [hget1], ?_⟩
            intro f hf hinc
            have hcalls := hinc1 f hf hinc
            rw [List.count_append, List.count_eq_zero_of_not_mem ha2]
            simp [hcalls, hb2, hc2]
          · obtain ⟨ha, hb, hc⟩ := hother1 k hks
            obtain ⟨hget2, hf2⟩ := hin2 (by omega) (by omega)
            refine ⟨by simp [hget2], ?_⟩
            intro f hf hinc
            obtain ⟨hcount, hconv, hsave⟩ := hf2 f hf hinc
            rw [List.count_append, List.count_eq_zero_of_not_mem ha]
            simp [hcount, hconv, hsave, hb, hc]

/-! ### The configuration functions of CounterAndTimer.cpp -/

/-- `PrintDeviceInfo` changes nothing and always returns to its caller. -/
theorem PrintDeviceInfo_run (dev : Device) (s : Cam) :
    ∃ r, CounterAndTimer.PrintDeviceInfo dev s = Outcome.ok r s := by
  unfold CounterAndTimer.PrintDeviceInfo call tryCatch
  cases dev.available Node.DeviceInformation <;> cases dev.readable Node.DeviceInformation <;>
    cases dev.throws Api.GetFeatures <;> simp [bind_apply, pure_apply, raise]

/-- Without the `CounterSelector` node `SetupCounterAndTimer` returns `-1` and
calls nothing. -/
theorem SetupCounterAndTimer_unavailable (dev : Device) (s : Cam)
    (h : dev.available Node.CounterSelector = false) :
    CounterAndTimer.SetupCounterAndTimer dev s = Outcome.ok (-1) s := by
  unfold CounterAndTimer.SetupCounterAndTimer call tryCatch
  simp [bind_apply, h, returnIf]

/-- A run of `SetupCounterAndTimer` that returns 0 has made exactly these
calls: the six writes and, between them, the two reports. -/
theorem SetupCounterAndTimer_ok (dev : Device) (s s1 : Cam)
    (h : CounterAndTimer.SetupCounterAndTimer dev s = Outcome.ok 0 s1) :
    ∃ c m f l,
      dev.entryValue Node.CounterSelector Entry.Counter0 = some c ∧
      dev.entryValue Node.CounterEventSource Entry.MHzTick = some m ∧
      dev.entryValue Node.CounterTriggerSource Entry.FrameTriggerWait = some f ∧
      dev.entryValue Node.CounterTriggerActivation Entry.LevelHigh = some l ∧
      s1.log = s.log ++ [Event.setNode Node.CounterSelector c,
        Event.setNode Node.CounterEventSource m, Event.setNode Node.CounterDuration 14000,
        Event.setNode Node.CounterDelay 6000, Event.reportDutyCycle (dutyCycle 14000 6000),
        Event.reportPulseRate (pulseRate 14000 6000),
        Event.setNode Node.CounterTriggerSource f,
        Event.setNode Node.CounterTriggerActivation l] := by
  unfold CounterAndTimer.SetupCounterAndTimer at h
  rw [call_tryCatch_eq_ok] at h
  simp only [bind_eq_ok, bind_eq_ret, pure_eq_ok, pure_ne_ret, returnIf_eq_ok, returnIf_eq_ret,
    entryOrReturn_eq_ok, entryOrReturn_eq_ret, setValue_eq_ok, setValue_ne_ret, getValue_eq_ok,
    getValue_ne_ret, emit_eq_ok, emit_ne_ret] at h
  simp [and_assoc, record_log, lastWritten_append, lastWritten] at h
  obtain ⟨-, -, c, hc, -, -, -, m, hm, -, -, -, -, -, -, -, -, -, -, -, f, hf, -, -, -, l, hl,
    -, -, rfl⟩ := h
  exact ⟨c, m, f, l, hc, hm, hf, hl, by simp [record_log]⟩

/-! ### The capture of flir.cpp -/

/-- What `Flir::acquireImage` does, case by case. -/
theorem acquireImage_cases (dev : Device) (s : Cam) :
    Flir.acquireImage dev s =
      if dev.throws Api.BeginAcquisition then Outcome.exc (s.record Event.beginAcquisition)
      else
        match dev.frames s.nextFrame with
        | none =>
            Outcome.exc ⟨s.ownership, s.initialized, true, s.nextFrame + 1,
              s.log ++ [Event.beginAcquisition, Event.getNextImage s.nextFrame]⟩
        | some f =>
            if f.incomplete then
              Outcome.ok (some []) ⟨s.ownership, s.initialized, true, s.nextFrame + 1,
                s.log ++ [Event.beginAcquisition, Event.getNextImage s.nextFrame]⟩
            else if f.convertFails then
              Outcome.exc ⟨s.ownership, s.initialized, true, s.nextFrame + 1,
                s.log ++ [Event.beginAcquisition, Event.getNextImage s.nextFrame,
                  Event.convert s.nextFrame]⟩
            else
              Outcome.ok ((Flir.strlen f.mono8).map (fun n => f.mono8.take n))
                ⟨s.ownership, s.initialized, true, s.nextFrame + 1,
                  s.log ++ [Event.beginAcquisition, Event.getNextImage s.nextFrame,
                    Event.convert s.nextFrame]⟩ := by
  unfold Flir.acquireImage
  simp only [bind_apply, pure_apply, beginAcquisition, getNextImage, convert]
  cases h1 : dev.throws Api.BeginAcquisition <;> cases h2 : dev.frames s.nextFrame <;>
    simp [h1, h2, Cam.record, Cam.withStreaming, Cam.advanceFrame]
  rename_i f
  cases h3 : f.incomplete <;> cases h4 : f.convertFails <;>
    simp [h3, h4, pure_apply, bind_apply, Cam.record, convert]

/-! ### Reserving the user buffers -/

theorem record_streaming (e : Event) (s : Cam) : (s.record e).streaming = s.streaming := rfl

theorem record_ownership (e : Event) (s : Cam) : (s.record e).ownership = s.ownership := rfl

theorem withOwnership_streaming (o : BufferOwnership) (s : Cam) :
    (s.withOwnership o).streaming = s.streaming := rfl

theorem withOwnership_log (o : BufferOwnership) (s : Cam) : (s.withOwnership o).log = s.log := rfl

theorem ensureBufferOwnership_eq_ok (o : BufferOwnership) (s s1 : Cam) (u : Unit) :
    ensureBufferOwnership o s = Outcome.ok u s1 ↔
      (s.ownership ≠ o ∧ (s.record (Event.setBufferOwnership o)).withOwnership o = s1) ∨
        (s.ownership = o ∧ s = s1) := by
  unfold ensureBufferOwnership
  by_cases h : s.ownership = o <;> simp [h]

theorem ensureBufferOwnership_ne_ret (o : BufferOwnership) (s s1 : Cam) (c : Int) :
    ensureBufferOwnership o s = Outcome.ret c s1 ↔ False := by
  unfold ensureBufferOwnership
  by_cases h : s.ownership = o <;> simp [h]

theorem ensureBufferOwnership_ne_exc (o : BufferOwnership) (s s1 : Cam) :
    ensureBufferOwnership o s = Outcome.exc s1 ↔ False := by
  unfold ensureBufferOwnership
  by_cases h : s.ownership = o <;> simp [h]

/-- The loop that reserves the non-contiguous buffers: either the memory
suffices for all `n` buffers and the loop reserves them one by one, or it does
not and the loop executes `return -1;` after fewer than `n` reservations. -/
theorem allocateBuffers_cases (dev : Device) (b : Nat) :
    ∀ (n reserved : Nat), reserved ≤ dev.heapLimit →
      (reserved + n * b ≤ dev.heapLimit ∧ ∀ s : Cam,
        AcquisitionUserBuffer.allocateBuffers dev b n reserved s
          = Outcome.ok () ⟨s.ownership, s.initialized, s.streaming, s.nextFrame,
              s.log ++ List.replicate n (Event.allocate b)⟩) ∨
      (dev.heapLimit < reserved + n * b ∧ ∃ k, k < n ∧ ∀ s : Cam,
        AcquisitionUserBuffer.allocateBuffers dev b n reserved s
          = Outcome.ret (-1) ⟨s.ownership, s.initialized, s.streaming, s.nextFrame,
              s.log ++ List.replicate k (Event.allocate b)⟩) := by
  intro n
  induction n with
  | zero =>
      intro reserved h
      left
      refine ⟨by simpa using h, fun s => ?_⟩
      cases s
      simp [AcquisitionUserBuffer.allocateBuffers, pure_apply]
  | succ n ih =>
      intro reserved h
      by_cases hfit : dev.heapLimit < reserved + b
      · right
        refine ⟨by nlinarith, 0, by omega, fun s => ?_⟩
        cases s
        simp [AcquisitionUserBuffer.allocateBuffers, hfit, ret]
      · have hle : reserved + b ≤ dev.heapLimit := by omega
        have hmul : reserved + (n + 1) * b = reserved + b + n * b := by ring
        rcases ih (reserved + b) hle with ⟨h1, h2⟩ | ⟨h1, k, hk, h2⟩
        · left
          refine ⟨by omega, fun s => ?_⟩
          cases s
          simp only [AcquisitionUserBuffer.allocateBuffers, hfit, if_false, bind_apply, emit]
          rw [h2]
          simp [Cam.record, List.replicate_succ]
        · right
          refine ⟨by omega, k + 1, by omega, fun s => ?_⟩
          cases s
          simp only [AcquisitionUserBuffer.allocateBuffers, hfit, if_false, bind_apply, emit]
          rw [h2]
          simp [Cam.record, List.replicate_succ]

/-- When the memory does not suffice, lines 211-263 execute `return -1;` having
only tried to reserve memory: `SetUserBuffers` is not called. -/
theorem reserveUserBuffers_fails (dev : Device) (contiguous : Bool) (b : Nat)
    (hfail : dev.heapLimit <
      if contiguous then u64mul AcquisitionUserBuffer.numBuffers b
      else AcquisitionUserBuffer.numBuffers * b) :
    ∃ k, ∀ s : Cam, AcquisitionUserBuffer.reserveUserBuffers dev contiguous b s
      = Outcome.ret (-1) ⟨s.ownership, s.initialized, s.streaming, s.nextFrame,
          s.log ++ List.replicate k (Event.allocate b)⟩ := by
  cases contiguous
  · simp only [Bool.false_eq_true, if_false] at hfail
    rcases allocateBuffers_cases dev b AcquisitionUserBuffer.numBuffers 0 (Nat.zero_le _)
      with ⟨h1, -⟩ | ⟨-, k, -, h2⟩
    · omega
    · refine ⟨k, fun s => ?_⟩
      simp [AcquisitionUserBuffer.reserveUserBuffers, bind_apply, h2]
  · simp only [if_true] at hfail
    refine ⟨0, fun s => ?_⟩
    cases s
    simp [AcquisitionUserBuffer.reserveUserBuffers, bind_apply, returnIf, hfail]

/-- When lines 211-263 run to their end, the memory sufficed and the calls made
are the reservations followed by `SetUserBuffers`: one region of
`numBuffers * bufferSize` bytes (in 64-bit arithmetic) with the contiguous
policy, `numBuffers` regions of `bufferSize` bytes otherwise. -/
theorem reserveUserBuffers_ok (dev : Device) (contiguous : Bool) (b : Nat) (s s1 : Cam)
    (u : Unit)
    (h : AcquisitionUserBuffer.reserveUserBuffers dev contiguous b s = Outcome.ok u s1) :
    s1 = ⟨s.ownership, s.initialized, s.streaming, s.nextFrame, s.log ++
      if contiguous then
        [Event.allocate (u64mul AcquisitionUserBuffer.numBuffers b),
          Event.setUserBuffersContiguous (u64mul AcquisitionUserBuffer.numBuffers b)]
      else
        List.replicate AcquisitionUserBuffer.numBuffers (Event.allocate b) ++
          [Event.setUserBuffers AcquisitionUserBuffer.numBuffers b]⟩ ∧
    (if contiguous then u64mul AcquisitionUserBuffer.numBuffers b
      else AcquisitionUserBuffer.numBuffers * b) ≤ dev.heapLimit := by
  cases contiguous
  · rcases allocateBuffers_cases dev b AcquisitionUserBuffer.numBuffers 0 (Nat.zero_le _)
      with ⟨h1, h2⟩ | ⟨-, k, -, h2⟩
    · simp only [AcquisitionUserBuffer.reserveUserBuffers, Bool.false_eq_true, if_false,
        bind_apply, h2, AcquisitionUserBuffer.setUserBuffers] at h
      cases hthrow : dev.throws Api.SetUserBuffers <;> simp [hthrow, Cam.record] at h
      subst h
      simpa using h1
    · simp [AcquisitionUserBuffer.reserveUserBuffers, bind_apply, h2] at h
  · cases s
    simp only [AcquisitionUserBuffer.reserveUserBuffers, if_true, bind_apply, returnIf,
      emit, AcquisitionUserBuffer.setUserBuffers] at h
    by_cases hfit : dev.heapLimit < u64mul AcquisitionUserBuffer.numBuffers b
    · simp [hfit] at h
    · cases hthrow : dev.throws Api.SetUserBuffers <;> simp [hfit, hthrow, Cam.record] at h
      subst h
      simp
      omega

theorem reservedBytes_append (l1 l2 : List Event) :
    AcquisitionUserBuffer.reservedBytes (l1 ++ l2)
      = AcquisitionUserBuffer.reservedBytes l1 + AcquisitionUserBuffer.reservedBytes l2 := by
  induction l1 with
  | nil => simp [AcquisitionUserBuffer.reservedBytes]
  | cons e rest ih => cases e <;> simp [AcquisitionUserBuffer.reservedBytes, ih, Nat.add_assoc]

theorem reservedBytes_replicate (n b : Nat) :
    AcquisitionUserBuffer.reservedBytes (List.replicate n (Event.allocate b)) = n * b := by
  induction n with
  | zero => simp [AcquisitionUserBuffer.reservedBytes]
  | succ n ih =>
      simp [List.replicate_succ, AcquisitionUserBuffer.reservedBytes, ih]
      ring

/-! ### Values returned by the functions of the example programs -/

theorem lor_eq_zero (x y : Nat) : x ||| y = 0 ↔ x = 0 ∧ y = 0 := by
  constructor
  · intro h
    have hb : ∀ i, (x ||| y).testBit i = false := by
      intro i
      rw [h]
      exact Nat.zero_testBit i
    constructor
    · apply Nat.eq_of_testBit_eq
      intro i
      have := hb i
      rw [Nat.testBit_or, Bool.or_eq_false_iff] at this
      rw [this.1, Nat.zero_testBit]
    · apply Nat.eq_of_testBit_eq
      intro i
      have := hb i
      rw [Nat.testBit_or, Bool.or_eq_false_iff] at this
      rw [this.2, Nat.zero_testBit]
  · rintro ⟨rfl, rfl⟩
    rfl

theorem intBits_lt (a : Int) : CounterAndTimer.intBits a < 2 ^ 32 := by
  unfold CounterAndTimer.intBits
  omega

/-- The result of `|` is an `int`. -/
theorem bitOr_range (a b : Int) :
    -2 ^ 31 ≤ CounterAndTimer.bitOr a b ∧ CounterAndTimer.bitOr a b < 2 ^ 31 := by
  have h := Nat.or_lt_two_pow (intBits_lt a) (intBits_lt b)
  unfold CounterAndTimer.bitOr CounterAndTimer.intOfBits
  split_ifs <;> omega

/-- On `int` values, `a | b` is 0 exactly when `a` and `b` are 0. -/
theorem bitOr_eq_zero (a b : Int) (ha : -2 ^ 31 ≤ a ∧ a < 2 ^ 31)
    (hb : -2 ^ 31 ≤ b ∧ b < 2 ^ 31) :
    CounterAndTimer.bitOr a b = 0 ↔ a = 0 ∧ b = 0 := by
  have h := Nat.or_lt_two_pow (intBits_lt a) (intBits_lt b)
  have h1 : CounterAndTimer.bitOr a b = 0 ↔
      CounterAndTimer.intBits a ||| CounterAndTimer.intBits b = 0 := by
    unfold CounterAndTimer.bitOr CounterAndTimer.intOfBits
    split_ifs <;> omega
  rw [h1, lor_eq_zero]
  unfold CounterAndTimer.intBits
  omega

theorem call_ne_ret (body : Prog Int) (s s1 : Cam) (c : Int) :
    call body s = Outcome.ret c s1 ↔ False := by
  unfold call
  cases body s <;> simp

/-- A function whose body is `try { block } catch (...) { result = -1; }`
always returns to its caller. -/
theorem call_tryCatch_total (block : Prog Int) (s : Cam) :
    ∃ r s1, call (tryCatch block (pure (-1))) s = Outcome.ok r s1 := by
  unfold call tryCatch
  cases block s <;> simp [pure_apply]

/-- Such a function returns a value with the property `P` when `-1` has it,
the block ends only with such values, and the block returns only `-1`. -/
theorem call_tryCatch_result (block : Prog Int) (P : Int → Prop) (hm1 : P (-1))
    (hok : ∀ s r s1, block s = Outcome.ok r s1 → P r)
    (hret : ∀ s c s1, block s = Outcome.ret c s1 → c = -1) (s : Cam) :
    ∃ r s1, call (tryCatch block (pure (-1))) s = Outcome.ok r s1 ∧ P r := by
  obtain ⟨r, s1, h⟩ := call_tryCatch_total block s
  refine ⟨r, s1, h, ?_⟩
  rw [call_tryCatch_eq_ok] at h
  rcases h with h | h | ⟨rfl, -⟩
  · exact hok _ _ _ h
  · rw [hret _ _ _ h]
    exact hm1
  · exact hm1

/-- The value with which a run ends has every property shown of it. -/
theorem value_of_result {P : Int → Prop} {m : Prog Int} {s s1 : Cam} {r : Int}
    (h : m s = Outcome.ok r s1) (hex : ∃ r1 s2, m s = Outcome.ok r1 s2 ∧ P r1) : P r := by
  obtain ⟨r1, s2, h1, hp⟩ := hex
  rw [h] at h1
  cases h1
  exact hp

/-- In a sequence of statements, a `return` comes from the first statement or
from what follows it. -/
theorem bind_returns_minus_one {α β : Type} (m : Prog α) (f : α → Prog β)
    (hm : ∀ s c s1, m s = Outcome.ret c s1 → c = -1)
    (hf : ∀ a s c s1, f a s = Outcome.ret c s1 → c = -1) :
    ∀ s c s1, (m >>= f) s = Outcome.ret c s1 → c = -1 := by
  intro s c s1 h
  rw [bind_eq_ret] at h
  rcases h with h | ⟨a, s2, -, h⟩
  · exact hm s c s1 h
  · exact hf a s2 c s1 h

/-- A sequence of statements ends with the value of its last statement. -/
theorem bind_ends_with {α β : Type} (P : β → Prop) (m : Prog α) (f : α → Prog β)
    (hf : ∀ a s r s1, f a s = Outcome.ok r s1 → P r) :
    ∀ s r s1, (m >>= f) s = Outcome.ok r s1 → P r := by
  intro s r s1 h
  rw [bind_eq_ok] at h
  obtain ⟨a, s2, -, h⟩ := h
  exact hf a s2 r s1 h

theorem pure_ends_with {α : Type} (P : α → Prop) (a : α) (ha : P a) :
    ∀ s r s1, (pure a : Prog α) s = Outcome.ok r s1 → P r := by
  intro s r s1 h
  rw [pure_eq_ok] at h
  rw [← h.1]
  exact ha

theorem returnIf_returns_minus_one (cond : Bool) :
    ∀ s c s1, returnIf cond (-1) s = Outcome.ret c s1 → c = -1 := by
  intro s c s1 h
  rw [returnIf_eq_ret] at h
  omega

theorem entryOrReturn_returns_minus_one (dev : Device) (n : Node) (e : Entry) :
    ∀ s c s1, entryOrReturn dev n e s = Outcome.ret c s1 → c = -1 := by
  intro s c s1 h
  rw [entryOrReturn_eq_ret] at h
  exact h.2.1

theorem setValue_returns_minus_one (dev : Device) (n : Node) (v : Int) :
    ∀ s c s1, setValue dev n v s = Outcome.ret c s1 → c = -1 := by
  intro s c s1 h
  exact absurd h (by simp [setValue_ne_ret])

theorem getValue_returns_minus_one (dev : Device) (n : Node) :
    ∀ s c s1, getValue dev n s = Outcome.ret c s1 → c = -1 := by
  intro s c s1 h
  exact absurd h (by simp [getValue_ne_ret])

theorem emit_returns_minus_one (e : Event) :
    ∀ s c s1, emit e s = Outcome.ret c s1 → c = -1 := by
  intro s c s1 h
  exact absurd h (by simp [emit_ne_ret])

theorem pure_returns_minus_one {α : Type} (a : α) :
    ∀ s c s1, (pure a : Prog α) s = Outcome.ret c s1 → c = -1 := by
  intro s c s1 h
  exact absurd h (by simp [pure_ne_ret])

/-- `SetupCounterAndTimer` always returns to its caller, with 0 or -1. -/
theorem SetupCounterAndTimer_result (dev : Device) (s : Cam) :
    ∃ r s1, CounterAndTimer.SetupCounterAndTimer dev s = Outcome.ok r s1 ∧ (r = 0 ∨ r = -1) := by
  unfold CounterAndTimer.SetupCounterAndTimer
  refine call_tryCatch_result _ (fun r => r = 0 ∨ r = -1) (Or.inr rfl) ?_ ?_ s
  · repeat' first
      | refine bind_ends_with _ _ _ (fun _ => ?_)
      | exact pure_ends_with _ _ (Or.inl rfl)
  · repeat' first
      | refine bind_returns_minus_one _ _ ?_ (fun _ => ?_)
      | exact returnIf_returns_minus_one _
      | exact entryOrReturn_returns_minus_one _ _ _
      | exact setValue_returns_minus_one _ _ _
      | exact getValue_returns_minus_one _ _
      | exact emit_returns_minus_one _
      | exact pure_returns_minus_one _
theorem selectLine_returns_minus_one (dev : Device) (cameraModel : String) :
    ∀ s c s1, CounterAndTimer.ConfigureDigitalIO.selectLine dev cameraModel s
      = Outcome.ret c s1 → c = -1 := by
  unfold CounterAndTimer.ConfigureDigitalIO.selectLine
  split_ifs
  all_goals
    repeat' first
      | refine bind_returns_minus_one _ _ ?_ (fun _ => ?_)
      | exact returnIf_returns_minus_one _
      | exact entryOrReturn_returns_minus_one _ _ _
      | exact setValue_returns_minus_one _ _ _
      | exact pure_returns_minus_one _
      | exact fun _ _ _ h => h.elim

theorem enableVoltage_returns_minus_one (dev : Device) (cameraModel : String) :
    ∀ s c s1, CounterAndTimer.ConfigureDigitalIO.enableVoltage dev cameraModel s
      = Outcome.ret c s1 → c = -1 := by
  unfold CounterAndTimer.ConfigureDigitalIO.enableVoltage
  split_ifs
  all_goals
    repeat' first
      | refine bind_returns_minus_one _ _ ?_ (fun _ => ?_)
      | exact returnIf_returns_minus_one _
      | exact entryOrReturn_returns_minus_one _ _ _
      | exact setValue_returns_minus_one _ _ _
      | exact pure_returns_minus_one _
      | exact fun _ _ _ h => h.elim

/-- `ConfigureDigitalIO` always returns to its caller, with 0 or -1. -/
theorem ConfigureDigitalIO_result (dev : Device) (s : Cam) :
    ∃ r s1, CounterAndTimer.ConfigureDigitalIO dev s = Outcome.ok r s1 ∧ (r = 0 ∨ r = -1) := by
  unfold CounterAndTimer.ConfigureDigitalIO
  refine call_tryCatch_result _ (fun r => r = 0 ∨ r = -1) (Or.inr rfl) ?_ ?_ s
  · repeat' first
      | refine bind_ends_with _ _ _ (fun _ => ?_)
      | exact pure_ends_with _ _ (Or.inl rfl)
  · repeat' first
      | refine bind_returns_minus_one _ _ ?_ (fun _ => ?_)
      | exact returnIf_returns_minus_one _
      | exact entryOrReturn_returns_minus_one _ _ _
      | exact setValue_returns_minus_one _ _ _
      | exact selectLine_returns_minus_one _ _
      | exact enableVoltage_returns_minus_one _ _
      | exact pure_returns_minus_one _

/-- `ConfigureExposureandTrigger` always returns to its caller, with 0 or -1. -/
theorem ConfigureExposureandTrigger_result (dev : Device) (s : Cam) :
    ∃ r s1, CounterAndTimer.ConfigureExposureandTrigger dev s = Outcome.ok r s1 ∧
      (r = 0 ∨ r = -1) := by
  unfold CounterAndTimer.ConfigureExposureandTrigger
  refine call_tryCatch_result _ (fun r => r = 0 ∨ r = -1) (Or.inr rfl) ?_ ?_ s
  · repeat' first
      | refine bind_ends_with _ _ _ (fun _ => ?_)
      | exact pure_ends_with _ _ (Or.inl rfl)
  · repeat' first
      | refine bind_returns_minus_one _ _ ?_ (fun _ => ?_)
      | exact returnIf_returns_minus_one _
      | exact entryOrReturn_returns_minus_one _ _ _
      | exact setValue_returns_minus_one _ _ _
      | exact pure_returns_minus_one _

theorem camInit_ne_ret (dev : Device) (s s1 : Cam) (c : Int) :
    camInit dev s = Outcome.ret c s1 ↔ False := by
  unfold camInit
  cases dev.throws Api.Init <;> simp

theorem camDeInit_ne_ret (dev : Device) (s s1 : Cam) (c : Int) :
    camDeInit dev s = Outcome.ret c s1 ↔ False := by
  unfold camDeInit
  cases dev.throws Api.DeInit <;> simp

/-- `RunSingleCamera` of CounterAndTimer.cpp always returns to its caller, with
an `int` value. -/
theorem CounterAndTimer_RunSingleCamera_result (dev : Device) (s : Cam) :
    ∃ r s1, CounterAndTimer.RunSingleCamera dev s = Outcome.ok r s1 ∧
      (-2 ^ 31 ≤ r ∧ r < 2 ^ 31) := by
  unfold CounterAndTimer.RunSingleCamera
  refine call_tryCatch_result _ (fun r => -2 ^ 31 ≤ r ∧ r < 2 ^ 31) (by decide) ?_ ?_ s
  · repeat' first
      | refine bind_ends_with _ _ _ (fun _ => ?_)
      | exact pure_ends_with _ _ (bitOr_range _ _)
  · intro s c s1 h
    have hP : ∀ s s1 c, CounterAndTimer.PrintDeviceInfo dev s = Outcome.ret c s1 ↔ False :=
      fun s s1 c => call_ne_ret _ s s1 c
    have hS : ∀ s s1 c, CounterAndTimer.SetupCounterAndTimer dev s = Outcome.ret c s1 ↔ False :=
      fun s s1 c => call_ne_ret _ s s1 c
    have hD : ∀ s s1 c, CounterAndTimer.ConfigureDigitalIO dev s = Outcome.ret c s1 ↔ False :=
      fun s s1 c => call_ne_ret _ s s1 c
    have hE : ∀ s s1 c,
        CounterAndTimer.ConfigureExposureandTrigger dev s = Outcome.ret c s1 ↔ False :=
      fun s s1 c => call_ne_ret _ s s1 c
    have hA : ∀ s s1 c, CounterAndTimer.AcquireImages dev s = Outcome.ret c s1 ↔ False :=
      fun s s1 c => call_ne_ret _ s s1 c
    have hR : ∀ s s1 c, CounterAndTimer.ResetTrigger dev s = Outcome.ret c s1 ↔ False :=
      fun s s1 c => call_ne_ret _ s s1 c
    simp only [bind_eq_ret, hP, hS, hD, hE, hA, hR, camInit_ne_ret, camDeInit_ne_ret,
      returnIf_eq_ret, pure_ne_ret, false_or, decide_eq_true_eq, and_false, exists_false,
      or_false, exists_const] at h
    obtain ⟨_, _, -, _, _, -, err, s3, hs3, h⟩ := h
    rcases h with ⟨hneg, rfl, -⟩ | ⟨_, _, -, err1, s4, hs4, h⟩
    · have := value_of_result hs3 (SetupCounterAndTimer_result dev _)
      omega
    · rcases h with ⟨hneg, rfl, -⟩ | ⟨_, _, -, err2, s5, hs5, hneg, rfl, -⟩
      · have := value_of_result hs4 (ConfigureDigitalIO_result dev _)
        omega
      · have := value_of_result hs5 (ConfigureExposureandTrigger_result dev _)
        omega

/-- `RunSingleCamera` of AcquisitionUserBuffer.cpp always returns to its caller,
with an `int` value. -/
theorem AcquisitionUserBuffer_RunSingleCamera_result (dev : Device) (s : Cam) :
    ∃ r s1, AcquisitionUserBuffer.RunSingleCamera dev s = Outcome.ok r s1 ∧
      (-2 ^ 31 ≤ r ∧ r < 2 ^ 31) := by
  unfold AcquisitionUserBuffer.RunSingleCamera
  refine call_tryCatch_result _ (fun r => -2 ^ 31 ≤ r ∧ r < 2 ^ 31) (by decide) ?_ ?_ s
  · repeat' first
      | refine bind_ends_with _ _ _ (fun _ => ?_)
      | exact pure_ends_with _ _ (bitOr_range _ _)
  · intro s c s1 h
    have hP : ∀ s s1 c, AcquisitionUserBuffer.PrintDeviceInfo dev s = Outcome.ret c s1 ↔ False :=
      fun s s1 c => call_ne_ret _ s s1 c
    have hA : ∀ s s1 c, AcquisitionUserBuffer.AcquireImages dev AcquisitionUserBuffer.isContiguous s
        = Outcome.ret c s1 ↔ False :=
      fun s s1 c => call_ne_ret _ s s1 c
    simp [bind_eq_ret, hP, hA, camInit_ne_ret, camDeInit_ne_ret, pure_ne_ret] at h
/-- The loop of `main` over the cameras, for a function `run` that always
returns an `int`: `run` is called on every camera, in the order of their
indices, and the final value of `result` is 0 exactly when its initial value is
0 and every call returned 0. -/
theorem runCameras_spec (run : Device → Prog Int)
    (hrun : ∀ dev, ∃ r s1, run dev Cam.fresh = Outcome.ok r s1 ∧ (-2 ^ 31 ≤ r ∧ r < 2 ^ 31)) :
    ∀ (cameras : List Device) (i : Nat) (result : Int), -2 ^ 31 ≤ result ∧ result < 2 ^ 31 →
      (runCameras run cameras i result).1
        = (cameras.enumFrom i).map
            (fun p => ExampleEvent.runSingleCamera p.1 (run p.2 Cam.fresh).state) ∧
      ∃ v, (runCameras run cameras i result).2 = some v ∧
        (v = 0 ↔ result = 0 ∧ ∀ dev ∈ cameras, ∃ s1, run dev Cam.fresh = Outcome.ok 0 s1) := by
  intro cameras
  induction cameras with
  | nil =>
      intro i result _
      simp [runCameras]
  | cons dev rest ih =>
      intro i result hresult
      obtain ⟨r, s1, hr, hrange⟩ := hrun dev
      obtain ⟨htrace, v, hv, hzero⟩ :=
        ih (i + 1) (CounterAndTimer.bitOr result r) (bitOr_range result r)
      have hdev : (∃ s2, run dev Cam.fresh = Outcome.ok 0 s2) ↔ r = 0 := by
        rw [hr]
        constructor
        · rintro ⟨s2, h⟩
          cases h
          rfl
        · rintro rfl
          exact ⟨s1, rfl⟩
      refine ⟨?_, v, ?_, ?_⟩
      · simp [runCameras, hr, htrace, List.enumFrom, Outcome.state]
      · simp [runCameras, hr, hv]
      · rw [hzero, bitOr_eq_zero result r hresult hrange, List.forall_mem_cons, hdev]
        tauto

/-! ### The smallest power of two -/

/-- The loop of `GetMinimumPowerOfTwo` from `i = 2 ^ k`, when `input` is at most
2^30 and every smaller power of two reached so far is below `input`: it ends
with the smallest power of two that is at least `input`. -/
theorem GetMinimumPowerOfTwo_loop_spec (input : Int) (hle : input ≤ 2 ^ 30) :
    ∀ (fuel k : Nat), k ≤ 30 → 31 ≤ fuel + k → (∀ j : Nat, j < k → (2 : Int) ^ j < input) →
      ∃ m : Nat, m ≤ 30 ∧ GetMinimumPowerOfTwo.loop input fuel (2 ^ k) = some (2 ^ m) ∧
        input ≤ 2 ^ m ∧ ∀ j : Nat, j < m → (2 : Int) ^ j < input := by
  intro fuel
  induction fuel with
  | zero =>
      intro k hk hfuel _
      omega
  | succ fuel ih =>
      intro k hk hfuel hbelow
      by_cases hlt : (2 : Int) ^ k < input
      · have hk30 : k < 30 := by
          by_contra hcon
          have : k = 30 := by omega
          subst this
          omega
        have hpow : (2 : Int) ^ k * 2 = 2 ^ (k + 1) := by ring
        have hsmall : ¬ (2 : Int) ^ 31 ≤ 2 ^ (k + 1) := by
          have : (2 : Int) ^ (k + 1) ≤ 2 ^ 30 :=
            pow_le_pow_right₀ (by norm_num) (by omega)
          omega
        obtain ⟨m, hm, hrun, hge, hmin⟩ := ih (k + 1) (by omega) (by omega) (by
          intro j hj
          by_cases hjk : j < k
          · exact hbelow j hjk
          · have : j = k := by omega
            subst this
            exact hlt)
        refine ⟨m, hm, ?_, hge, hmin⟩
        rw [GetMinimumPowerOfTwo.loop, if_pos hlt, hpow, if_neg hsmall]
        exact hrun
      · refine ⟨k, hk, ?_, by omega, hbelow⟩
        rw [GetMinimumPowerOfTwo.loop, if_neg hlt]

/-- Above 2^30 the loop of `GetMinimumPowerOfTwo` doubles 2^30, which leaves the
range of `int`. -/
theorem GetMinimumPowerOfTwo_loop_overflow (input : Int) (hgt : 2 ^ 30 < input) :
    ∀ (fuel k : Nat), k ≤ 30 → GetMinimumPowerOfTwo.loop input fuel (2 ^ k) = none := by
  intro fuel
  induction fuel with
  | zero =>
      intro k _
      rfl
  | succ fuel ih =>
      intro k hk
      have hlt : (2 : Int) ^ k < input := by
        have : (2 : Int) ^ k ≤ 2 ^ 30 := pow_le_pow_right₀ (by norm_num) hk
        omega
      have hpow : (2 : Int) ^ k * 2 = 2 ^ (k + 1) := by ring
      rw [GetMinimumPowerOfTwo.loop, if_pos hlt, hpow]
      by_cases hk30 : k = 30
      · subst hk30
        simp
      · have hsmall : ¬ (2 : Int) ^ 31 ≤ 2 ^ (k + 1) := by
          have : (2 : Int) ^ (k + 1) ≤ 2 ^ 30 :=
            pow_le_pow_right₀ (by norm_num) (by omega)
          omega
        rw [if_neg hsmall]
        exact ih (k + 1) (by omega)

/-- The bound on the number of tests of the loop condition does not decide the
result: a larger bound gives the same result. -/
theorem GetMinimumPowerOfTwo_fuel (input : Int) (fuel : Nat) (hfuel : 32 ≤ fuel) :
    GetMinimumPowerOfTwo.loop input fuel 1 = GetMinimumPowerOfTwo input := by
  unfold GetMinimumPowerOfTwo
  by_cases hle : input ≤ 2 ^ 30
  · obtain ⟨m, -, hrun, hge, hmin⟩ :=
      GetMinimumPowerOfTwo_loop_spec input hle fuel 0 (by omega) (by omega)
        (fun j hj => absurd hj (Nat.not_lt_zero j))
    obtain ⟨m1, -, hrun1, hge1, hmin1⟩ :=
      GetMinimumPowerOfTwo_loop_spec input hle 32 0 (by omega) (by omega)
        (fun j hj => absurd hj (Nat.not_lt_zero j))
    have hm : m = m1 := by
      rcases Nat.lt_trichotomy m m1 with h | h | h
      · have := hmin1 m h
        omega
      · exact h
      · have := hmin m1 h
        omega
    simp only [pow_zero] at hrun hrun1
    rw [hrun, hrun1, hm]
  · have hgt : (2 : Int) ^ 30 < input := by omega
    have h1 := GetMinimumPowerOfTwo_loop_overflow input hgt fuel 0 (by omega)
    have h2 := GetMinimumPowerOfTwo_loop_overflow input hgt 32 0 (by omega)
    simp only [pow_zero] at h1 h2
    rw [h1, h2]

/-! ### The length computed by `strlen` -/

/-- When `strlen` finds a zero byte, the bytes before it are the longest prefix
without zero byte, and the zero byte follows them. -/
theorem strlen_eq_some (data : List Nat) :
    ∀ n, Flir.strlen data = some n →
      data.take n = data.takeWhile (fun b => decide (b ≠ 0)) ∧ 0 ∉ data.take n ∧
        ∃ rest, data = data.take n ++ 0 :: rest := by
  induction data with
  | nil => intro n h; simp [Flir.strlen] at h
  | cons b rest ih =>
      intro n h
      unfold Flir.strlen at h
      by_cases hb : b = 0
      · simp only [hb, if_true, Option.some.injEq] at h
        subst h
        subst hb
        exact ⟨by simp, by simp, rest, by simp⟩
      · simp only [hb, if_false, Option.map_eq_some'] at h
        obtain ⟨m, hm, rfl⟩ := h
        obtain ⟨h1, h2, tail, h3⟩ := ih m hm
        refine ⟨by simp [List.takeWhile, hb, h1], ?_, tail, ?_⟩
        · simp only [List.take_succ_cons, List.mem_cons, not_or]
          exact ⟨fun e => hb e.symm, h2⟩
        · simp only [List.take_succ_cons, List.cons_append, List.cons.injEq, true_and]
          exact h3

/-- The function `strlen` finds the first zero byte of a buffer that holds one. -/
theorem strlen_of_mem (data : List Nat) (h : 0 ∈ data) : ∃ n, Flir.strlen data = some n := by
  induction data with
  | nil => simp at h
  | cons b rest ih =>
      unfold Flir.strlen
      by_cases hb : b = 0
      · exact ⟨0, by simp [hb]⟩
      · have hrest : 0 ∈ rest := by
          rcases List.mem_cons.mp h with h0 | h0
          · exact absurd h0.symm hb
          · exact h0
        obtain ⟨m, hm⟩ := ih hrest
        exact ⟨m + 1, by simp [hb, hm]⟩

/-! ### Frames whose conversion or saving raises -/

/-- One iteration of the acquisition loop on a complete frame: when the
conversion or the saving raises, the iteration ends with `result = -1` and the
frame is not released; otherwise the frame is released. No other frame is
released. -/
theorem iteration_failures (dev : Device) (result : Int) (s : Cam) :
    ∃ r calls, tryCatch (do retrieveConvertSave dev; pure result) (pure (-1)) s
        = Outcome.ok r ⟨s.ownership, s.initialized, s.streaming, s.nextFrame + 1,
            s.log ++ calls⟩ ∧
      (r = result ∨ r = -1) ∧
      (∀ k, k ≠ s.nextFrame → Event.release k ∉ calls) ∧
      ∀ f, dev.frames s.nextFrame = some f → f.incomplete = false →
        ((f.convertFails = true ∨ f.saveFails = true) →
          r = -1 ∧ Event.release s.nextFrame ∉ calls) ∧
        (f.convertFails = false → f.saveFails = false →
          r = result ∧ Event.release s.nextFrame ∈ calls) := by
  rw [iteration_cases]
  cases h2 : dev.frames s.nextFrame with
  | none =>
      exact ⟨_, _, rfl, Or.inr rfl, by simp, by simp⟩
  | some f =>
      cases h3 : f.incomplete <;> cases h4 : f.convertFails <;> cases h5 : f.saveFails <;>
        simp only [h3, h4, h5, Bool.false_eq_true, ↓reduceIte] <;>
        refine ⟨_, _, rfl, by simp, fun k hk => by simp [hk], fun g hg hinc => ?_⟩ <;>
        cases hg <;> simp_all

/-- The acquisition loop: a complete frame whose conversion or saving raises is
not released and leaves the loop with `result = -1`; a complete frame converted
and saved without exception is released; frames outside the loop are not
released. -/
theorem imageLoop_failures (dev : Device) :
    ∀ (n : Nat) (result : Int) (s : Cam), ∃ r calls,
      imageLoop dev n result s
        = Outcome.ok r ⟨s.ownership, s.initialized, s.streaming, s.nextFrame + n,
            s.log ++ calls⟩ ∧
      (result = -1 → r = -1) ∧
      (∀ k, (k < s.nextFrame ∨ s.nextFrame + n ≤ k) → Event.release k ∉ calls) ∧
      ∀ k, s.nextFrame ≤ k → k < s.nextFrame + n →
        ∀ f, dev.frames k = some f → f.incomplete = false →
          ((f.convertFails = true ∨ f.saveFails = true) →
            r = -1 ∧ Event.release k ∉ calls) ∧
          (f.convertFails = false → f.saveFails = false → Event.release k ∈ calls) := by
  intro n
  induction n with
  | zero =>
      intro result s
      refine ⟨result, [], by simp [imageLoop, pure_apply], fun h => h, by simp, ?_⟩
      intro k h1 h2
      omega
  | succ n ih =>
      intro result s
      obtain ⟨r1, calls1, hrun1, hr1, hother1, hframe1⟩ := iteration_failures dev result s
      obtain ⟨r2, calls2, hrun2, hkeep2, hout2, hin2⟩ := ih r1
        ⟨s.ownership, s.initialized, s.streaming, s.nextFrame + 1, s.log ++ calls1⟩
      simp only at hout2 hin2
      refine ⟨r2, calls1 ++ calls2, ?_, ?_, ?_, ?_⟩
      · rw [imageLoop, bind_apply, hrun1]
        simp only [hrun2]
        simp [Nat.add_assoc, Nat.add_comm 1 n]
      · intro hres
        apply hkeep2
        rcases hr1 with h | h
        · rw [h, hres]
        · exact h
      · intro k hk
        have h1 := hother1 k (by omega)
        have h2 := hout2 k (by omega)
        simp [h1, h2]
      · intro k hk1 hk2 f hf hinc
        by_cases hks : k = s.nextFrame
        · subst hks
          obtain ⟨hfail, hgood⟩ := hframe1 f hf hinc
          have h2 := hout2 s.nextFrame (by omega)
          constructor
          · intro hbad
            obtain ⟨hr, hrel⟩ := hfail hbad
            exact ⟨hkeep2 hr, by simp [hrel, h2]⟩
          · intro hc hs
            simp [(hgood hc hs).2]
        · obtain ⟨hfail, hgood⟩ := hin2 k (by omega) (by omega) f hf hinc
          have h1 := hother1 k hks
          constructor
          · intro hbad
            obtain ⟨hr, hrel⟩ := hfail hbad
            exact ⟨hr, by simp [h1, hrel]⟩
          · intro hc hs
            simp [hgood hc hs]

/-! ### The calls that a block adds to the log

Every block only adds calls at the end of the log. The lemmas below bound the
calls that a block adds by a property `P` that holds of each of them. -/

theorem bind_adds {α β : Type} (P : Event → Prop) (m : Prog α) (f : α → Prog β)
    (hm : ∀ s, ∃ calls, (m s).state.log = s.log ++ calls ∧ ∀ e ∈ calls, P e)
    (hf : ∀ a s, ∃ calls, (f a s).state.log = s.log ++ calls ∧ ∀ e ∈ calls, P e) :
    ∀ s, ∃ calls, ((m >>= f) s).state.log = s.log ++ calls ∧ ∀ e ∈ calls, P e := by
  intro s
  obtain ⟨c1, h1, p1⟩ := hm s
  rw [bind_apply]
  cases hms : m s with
  | ok a s1 =>
      rw [hms] at h1
      simp only [Outcome.state] at h1
      obtain ⟨c2, h2, p2⟩ := hf a s1
      refine ⟨c1 ++ c2, by simp [h2, h1], ?_⟩
      intro e he
      rcases List.mem_append.mp he with h | h
      · exact p1 e h
      · exact p2 e h
  | ret c s1 =>
      rw [hms] at h1
      exact ⟨c1, h1, p1⟩
  | exc s1 =>
      rw [hms] at h1
      exact ⟨c1, h1, p1⟩

theorem tryCatch_adds {α : Type} (P : Event → Prop) (body handler : Prog α)
    (hb : ∀ s, ∃ calls, (body s).state.log = s.log ++ calls ∧ ∀ e ∈ calls, P e)
    (hh : ∀ s, ∃ calls, (handler s).state.log = s.log ++ calls ∧ ∀ e ∈ calls, P e) :
    ∀ s, ∃ calls, (tryCatch body handler s).state.log = s.log ++ calls ∧ ∀ e ∈ calls, P e := by
  intro s
  obtain ⟨c1, h1, p1⟩ := hb s
  unfold tryCatch
  cases hbs : body s with
  | ok a s1 =>
      rw [hbs] at h1
      exact ⟨c1, h1, p1⟩
  | ret c s1 =>
      rw [hbs] at h1
      exact ⟨c1, h1, p1⟩
  | exc s1 =>
      rw [hbs] at h1
      simp only [Outcome.state] at h1
      obtain ⟨c2, h2, p2⟩ := hh s1
      refine ⟨c1 ++ c2, by simp [h2, h1], ?_⟩
      intro e he
      rcases List.mem_append.mp he with h | h
      · exact p1 e h
      · exact p2 e h

theorem call_adds (P : Event → Prop) (body : Prog Int)
    (hb : ∀ s, ∃ calls, (body s).state.log = s.log ++ calls ∧ ∀ e ∈ calls, P e) :
    ∀ s, ∃ calls, (call body s).state.log = s.log ++ calls ∧ ∀ e ∈ calls, P e := by
  intro s
  obtain ⟨c1, h1, p1⟩ := hb s
  unfold call
  cases hbs : body s <;> rw [hbs] at h1 <;> exact ⟨c1, h1, p1⟩

/-- A statement that leaves the log as it is adds no call. -/
theorem adds_nothing {α : Type} (P : Event → Prop) (m : Prog α)
    (h : ∀ s, (m s).state.log = s.log) :
    ∀ s, ∃ calls, (m s).state.log = s.log ++ calls ∧ ∀ e ∈ calls, P e :=
  fun s => ⟨[], by simp [h s], by simp⟩

/-- A statement that records the call `e` and nothing else adds only `e`. -/
theorem adds_one {α : Type} (P : Event → Prop) (m : Prog α) (e : Event) (he : P e)
    (h : ∀ s, (m s).state.log = s.log ++ [e]) :
    ∀ s, ∃ calls, (m s).state.log = s.log ++ calls ∧ ∀ e ∈ calls, P e :=
  fun s => ⟨[e], h s, by simpa using he⟩

theorem pure_adds {α : Type} (P : Event → Prop) (a : α) :
    ∀ s, ∃ calls, ((pure a : Prog α) s).state.log = s.log ++ calls ∧ ∀ e ∈ calls, P e :=
  adds_nothing P _ (fun _ => rfl)

theorem raise_adds {α : Type} (P : Event → Prop) :
    ∀ s, ∃ calls, ((raise : Prog α) s).state.log = s.log ++ calls ∧ ∀ e ∈ calls, P e :=
  adds_nothing P _ (fun _ => rfl)

theorem returnIf_adds (P : Event → Prop) (cond : Bool) (code : Int) :
    ∀ s, ∃ calls, (returnIf cond code s).state.log = s.log ++ calls ∧ ∀ e ∈ calls, P e :=
  adds_nothing P _ (fun s => by unfold returnIf; cases cond <;> rfl)

theorem entryOrReturn_adds (P : Event → Prop) (dev : Device) (n : Node) (e : Entry) :
    ∀ s, ∃ calls, (entryOrReturn dev n e s).state.log = s.log ++ calls ∧ ∀ e ∈ calls, P e :=
  adds_nothing P _ (fun s => by unfold entryOrReturn; cases dev.entryValue n e <;> rfl)

theorem getValue_adds (P : Event → Prop) (dev : Device) (n : Node) :
    ∀ s, ∃ calls, (getValue dev n s).state.log = s.log ++ calls ∧ ∀ e ∈ calls, P e :=
  adds_nothing P _ (fun s => by unfold getValue; cases notReadable dev n <;> rfl)

theorem setValue_adds (P : Event → Prop) (dev : Device) (n : Node) (v : Int)
    (h : P (Event.setNode n v)) :
    ∀ s, ∃ calls, (setValue dev n v s).state.log = s.log ++ calls ∧ ∀ e ∈ calls, P e := by
  intro s
  unfold setValue
  cases (notWritable dev n || dev.throws (Api.write n))
  · exact ⟨[Event.setNode n v], rfl, by simpa using h⟩
  · exact ⟨[], by simp [Outcome.state], by simp⟩

theorem emit_adds (P : Event → Prop) (e : Event) (h : P e) :
    ∀ s, ∃ calls, (emit e s).state.log = s.log ++ calls ∧ ∀ e ∈ calls, P e :=
  adds_one P _ e h (fun _ => rfl)

theorem camInit_adds (P : Event → Prop) (dev : Device) (h : P Event.init) :
    ∀ s, ∃ calls, (camInit dev s).state.log = s.log ++ calls ∧ ∀ e ∈ calls, P e :=
  adds_one P _ Event.init h (fun s => by unfold camInit; cases dev.throws Api.Init <;> rfl)

theorem camDeInit_adds (P : Event → Prop) (dev : Device) (h : P Event.deInit) :
    ∀ s, ∃ calls, (camDeInit dev s).state.log = s.log ++ calls ∧ ∀ e ∈ calls, P e :=
  adds_one P _ Event.deInit h (fun s => by unfold camDeInit; cases dev.throws Api.DeInit <;> rfl)

theorem endAcquisition_adds (P : Event → Prop) (dev : Device) (h : P Event.endAcquisition) :
    ∀ s, ∃ calls, (endAcquisition dev s).state.log = s.log ++ calls ∧ ∀ e ∈ calls, P e :=
  adds_one P _ Event.endAcquisition h
    (fun s => by unfold endAcquisition; cases dev.throws Api.EndAcquisition <;> rfl)

/-- The acquisition loop only adds calls of `GetNextImage`, `Convert`, `Save`
and `Release`. -/
theorem imageLoop_adds (P : Event → Prop) (dev : Device)
    (h : ∀ k, P (Event.getNextImage k) ∧ P (Event.convert k) ∧ P (Event.save k) ∧
      P (Event.release k)) :
    ∀ (n : Nat) (result : Int) (s : Cam),
      ∃ calls, (imageLoop dev n result s).state.log = s.log ++ calls ∧ ∀ e ∈ calls, P e := by
  intro n
  induction n with
  | zero =>
      intro result s
      exact ⟨[], by simp [imageLoop, pure_apply, Outcome.state], by simp⟩
  | succ n ih =>
      intro result s
      unfold imageLoop
      refine bind_adds P _ _ ?_ (fun r => ih r) s
      intro s0
      rw [iteration_cases]
      cases dev.frames s0.nextFrame with
      | none => exact ⟨_, rfl, by simp [(h _).1]⟩
      | some f =>
          simp only
          split_ifs <;>
            exact ⟨_, rfl, by simp [(h _).1, (h _).2.1, (h _).2.2.1, (h _).2.2.2]⟩
/-! ### Calls of the functions of CounterAndTimer.cpp -/

theorem quiet_filter (n : Node) (calls : List Event) (h : ∀ e ∈ calls, e.quiet)
    (hn : n = Node.CounterDuration ∨ n = Node.CounterDelay) :
    calls.filter (Event.writes n) = [] := by
  rw [List.filter_eq_nil_iff]
  intro e he
  obtain ⟨-, h1, h2⟩ := h e he
  rcases hn with rfl | rfl
  · simp [h1]
  · simp [h2]

theorem quiet_not_begin (calls : List Event) (h : ∀ e ∈ calls, e.quiet) :
    Event.beginAcquisition ∉ calls :=
  fun hmem => (h _ hmem).1 rfl

/-- The state in which a function with the body
`try { block } catch (...) { result = -1; }` returns is the state in which the
block ends. -/
theorem call_tryCatch_state (block : Prog Int) (s : Cam) :
    (call (tryCatch block (pure (-1))) s).state = (block s).state := by
  unfold call tryCatch
  cases block s <;> rfl

/-- `SetupCounterAndTimer` does not begin the acquisition. -/
theorem SetupCounterAndTimer_adds (dev : Device) :
    ∀ s, ∃ calls, (CounterAndTimer.SetupCounterAndTimer dev s).state.log = s.log ++ calls ∧
      ∀ e ∈ calls, e ≠ Event.beginAcquisition := by
  unfold CounterAndTimer.SetupCounterAndTimer
  refine call_adds _ _ (tryCatch_adds _ _ _ ?_ (pure_adds _ _))
  repeat' first
    | refine bind_adds _ _ _ ?_ (fun _ => ?_)
    | exact returnIf_adds _ _ _
    | exact entryOrReturn_adds _ _ _ _
    | exact setValue_adds _ _ _ _ (by simp)
    | exact getValue_adds _ _ _
    | exact emit_adds _ _ (by simp)
    | exact pure_adds _ _

theorem selectLine_adds (dev : Device) (cameraModel : String) :
    ∀ s, ∃ calls,
      (CounterAndTimer.ConfigureDigitalIO.selectLine dev cameraModel s).state.log
        = s.log ++ calls ∧ ∀ e ∈ calls, e.quiet := by
  unfold CounterAndTimer.ConfigureDigitalIO.selectLine
  split_ifs
  all_goals
    repeat' first
      | refine bind_adds _ _ _ ?_ (fun _ => ?_)
      | exact returnIf_adds _ _ _
      | exact entryOrReturn_adds _ _ _ _
      | exact setValue_adds _ _ _ _ (by simp [Event.quiet, Event.writes])
      | exact pure_adds _ _

theorem enableVoltage_adds (dev : Device) (cameraModel : String) :
    ∀ s, ∃ calls,
      (CounterAndTimer.ConfigureDigitalIO.enableVoltage dev cameraModel s).state.log
        = s.log ++ calls ∧ ∀ e ∈ calls, e.quiet := by
  unfold CounterAndTimer.ConfigureDigitalIO.enableVoltage
  split_ifs
  all_goals
    repeat' first
      | refine bind_adds _ _ _ ?_ (fun _ => ?_)
      | exact returnIf_adds _ _ _
      | exact entryOrReturn_adds _ _ _ _
      | exact setValue_adds _ _ _ _ (by simp [Event.quiet, Event.writes])
      | exact pure_adds _ _

/-- `ConfigureDigitalIO` neither begins the acquisition nor writes the counter
registers. -/
theorem ConfigureDigitalIO_adds (dev : Device) :
    ∀ s, ∃ calls, (CounterAndTimer.ConfigureDigitalIO dev s).state.log = s.log ++ calls ∧
      ∀ e ∈ calls, e.quiet := by
  unfold CounterAndTimer.ConfigureDigitalIO
  refine call_adds _ _ (tryCatch_adds _ _ _ ?_ (pure_adds _ _))
  repeat' first
    | refine bind_adds _ _ _ ?_ (fun _ => ?_)
    | exact returnIf_adds _ _ _
    | exact entryOrReturn_adds _ _ _ _
    | exact setValue_adds _ _ _ _ (by simp [Event.quiet, Event.writes])
    | exact selectLine_adds _ _
    | exact enableVoltage_adds _ _
    | exact pure_adds _ _

/-- `ConfigureExposureandTrigger` neither begins the acquisition nor writes the
counter registers. -/
theorem ConfigureExposureandTrigger_adds (dev : Device) :
    ∀ s, ∃ calls,
      (CounterAndTimer.ConfigureExposureandTrigger dev s).state.log = s.log ++ calls ∧
      ∀ e ∈ calls, e.quiet := by
  unfold CounterAndTimer.ConfigureExposureandTrigger
  refine call_adds _ _ (tryCatch_adds _ _ _ ?_ (pure_adds _ _))
  repeat' first
    | refine bind_adds _ _ _ ?_ (fun _ => ?_)
    | exact returnIf_adds _ _ _
    | exact entryOrReturn_adds _ _ _ _
    | exact setValue_adds _ _ _ _ (by simp [Event.quiet, Event.writes])
    | exact pure_adds _ _

/-- `ResetTrigger` neither begins the acquisition nor writes the counter
registers. -/
theorem ResetTrigger_adds (dev : Device) :
    ∀ s, ∃ calls, (CounterAndTimer.ResetTrigger dev s).state.log = s.log ++ calls ∧
      ∀ e ∈ calls, e.quiet := by
  unfold CounterAndTimer.ResetTrigger
  refine call_adds _ _ (tryCatch_adds _ _ _ ?_ (pure_adds _ _))
  repeat' first
    | refine bind_adds _ _ _ ?_ (fun _ => ?_)
    | exact returnIf_adds _ _ _
    | exact entryOrReturn_adds _ _ _ _
    | exact setValue_adds _ _ _ _ (by simp [Event.quiet, Event.writes])
    | exact pure_adds _ _
/-- A block that adds quiet calls, followed by a block that begins the
acquisition at most once among quiet calls, is such a block. -/
theorem bind_marks {α β : Type} (m : Prog α) (f : α → Prog β)
    (hm : ∀ s, ∃ calls, (m s).state.log = s.log ++ calls ∧ ∀ e ∈ calls, e.quiet)
    (hf : ∀ a s, ∃ calls, (f a s).state.log = s.log ++ calls ∧
      ((∀ e ∈ calls, e.quiet) ∨ ∃ pre post, calls = pre ++ Event.beginAcquisition :: post ∧
        (∀ e ∈ pre, e.quiet) ∧ ∀ e ∈ post, e.quiet)) :
    ∀ s, ∃ calls, ((m >>= f) s).state.log = s.log ++ calls ∧
      ((∀ e ∈ calls, e.quiet) ∨ ∃ pre post, calls = pre ++ Event.beginAcquisition :: post ∧
        (∀ e ∈ pre, e.quiet) ∧ ∀ e ∈ post, e.quiet) := by
  intro s
  obtain ⟨c1, h1, p1⟩ := hm s
  rw [bind_apply]
  cases hms : m s with
  | ok a s1 =>
      rw [hms] at h1
      simp only [Outcome.state] at h1
      obtain ⟨c2, h2, p2⟩ := hf a s1
      refine ⟨c1 ++ c2, by simp [h2, h1], ?_⟩
      rcases p2 with p2 | ⟨pre, post, rfl, hpre, hpost⟩
      · left
        intro e he
        rcases List.mem_append.mp he with h | h
        · exact p1 e h
        · exact p2 e h
      · right
        refine ⟨c1 ++ pre, post, by simp, ?_, hpost⟩
        intro e he
        rcases List.mem_append.mp he with h | h
        · exact p1 e h
        · exact hpre e h
  | ret c s1 =>
      rw [hms] at h1
      exact ⟨c1, h1, Or.inl p1⟩
  | exc s1 =>
      rw [hms] at h1
      exact ⟨c1, h1, Or.inl p1⟩

/-- The call `BeginAcquisition` followed by a block that adds quiet calls. -/
theorem beginAcquisition_marks {β : Type} (dev : Device) (f : Unit → Prog β)
    (hf : ∀ a s, ∃ calls, (f a s).state.log = s.log ++ calls ∧ ∀ e ∈ calls, e.quiet) :
    ∀ s, ∃ calls, ((beginAcquisition dev >>= f) s).state.log = s.log ++ calls ∧
      ((∀ e ∈ calls, e.quiet) ∨ ∃ pre post, calls = pre ++ Event.beginAcquisition :: post ∧
        (∀ e ∈ pre, e.quiet) ∧ ∀ e ∈ post, e.quiet) := by
  intro s
  rw [bind_apply]
  unfold beginAcquisition
  cases dev.throws Api.BeginAcquisition
  · obtain ⟨c2, h2, p2⟩ := hf () ((s.record Event.beginAcquisition).withStreaming true)
    refine ⟨Event.beginAcquisition :: c2, ?_, Or.inr ⟨[], c2, rfl, by simp, p2⟩⟩
    simp only [Bool.false_eq_true, if_false]
    rw [h2]
    cases s
    simp [Cam.record, Cam.withStreaming]
  · exact ⟨[Event.beginAcquisition], rfl, Or.inr ⟨[], [], rfl, by simp, by simp⟩⟩

/-- `AcquireImages` of CounterAndTimer.cpp begins the acquisition at most once,
and writes no counter register. -/
theorem CounterAndTimer_AcquireImages_marks (dev : Device) :
    ∀ s, ∃ calls, (CounterAndTimer.AcquireImages dev s).state.log = s.log ++ calls ∧
      ((∀ e ∈ calls, e.quiet) ∨ ∃ pre post, calls = pre ++ Event.beginAcquisition :: post ∧
        (∀ e ∈ pre, e.quiet) ∧ ∀ e ∈ post, e.quiet) := by
  intro s
  unfold CounterAndTimer.AcquireImages
  rw [call_tryCatch_state]
  revert s
  refine bind_marks _ _ (returnIf_adds _ _ _) (fun _ => ?_)
  refine bind_marks _ _ (entryOrReturn_adds _ _ _ _) (fun _ => ?_)
  refine bind_marks _ _ (setValue_adds _ _ _ _ (by simp [Event.quiet, Event.writes]))
    (fun _ => ?_)
  refine beginAcquisition_marks dev _ (fun _ => ?_)
  refine bind_adds _ _ _ (imageLoop_adds _ dev (fun k => by simp [Event.quiet, Event.writes])
    _ _) (fun _ => ?_)
  refine bind_adds _ _ _ (endAcquisition_adds _ dev (by simp [Event.quiet, Event.writes]))
    (fun _ => ?_)
  exact pure_adds _ _
/-- A block that begins the acquisition at most once among quiet calls, followed
by a block that adds quiet calls, is such a block. -/
theorem marks_bind {α β : Type} (m : Prog α) (f : α → Prog β)
    (hm : ∀ s, ∃ calls, (m s).state.log = s.log ++ calls ∧
      ((∀ e ∈ calls, e.quiet) ∨ ∃ pre post, calls = pre ++ Event.beginAcquisition :: post ∧
        (∀ e ∈ pre, e.quiet) ∧ ∀ e ∈ post, e.quiet))
    (hf : ∀ a s, ∃ calls, (f a s).state.log = s.log ++ calls ∧ ∀ e ∈ calls, e.quiet) :
    ∀ s, ∃ calls, ((m >>= f) s).state.log = s.log ++ calls ∧
      ((∀ e ∈ calls, e.quiet) ∨ ∃ pre post, calls = pre ++ Event.beginAcquisition :: post ∧
        (∀ e ∈ pre, e.quiet) ∧ ∀ e ∈ post, e.quiet) := by
  intro s
  obtain ⟨c1, h1, p1⟩ := hm s
  rw [bind_apply]
  cases hms : m s with
  | ok a s1 =>
      rw [hms] at h1
      simp only [Outcome.state] at h1
      obtain ⟨c2, h2, p2⟩ := hf a s1
      refine ⟨c1 ++ c2, by simp [h2, h1], ?_⟩
      rcases p1 with p1 | ⟨pre, post, rfl, hpre, hpost⟩
      · left
        intro e he
        rcases List.mem_append.mp he with h | h
        · exact p1 e h
        · exact p2 e h
      · right
        refine ⟨pre, post ++ c2, by simp, hpre, ?_⟩
        intro e he
        rcases List.mem_append.mp he with h | h
        · exact hpost e h
        · exact p2 e h
  | ret c s1 =>
      rw [hms] at h1
      exact ⟨c1, h1, p1⟩
  | exc s1 =>
      rw [hms] at h1
      exact ⟨c1, h1, p1⟩

/-- What follows the call of `SetupCounterAndTimer` in `RunSingleCamera` (lines
635-657) begins the acquisition at most once and writes no counter register. -/
theorem RunSingleCamera_after_setup (dev : Device) (result err : Int) :
    ∀ s, ∃ calls,
      ((do
          returnIf (decide (err < 0)) err
          let err1 ← CounterAndTimer.ConfigureDigitalIO dev
          returnIf (decide (err1 < 0)) err1
          let err2 ← CounterAndTimer.ConfigureExposureandTrigger dev
          returnIf (decide (err2 < 0)) err2
          let acquired ← CounterAndTimer.AcquireImages dev
          let reset ← CounterAndTimer.ResetTrigger dev
          camDeInit dev
          pure (CounterAndTimer.bitOr (CounterAndTimer.bitOr result acquired) reset) :
            Prog Int) s).state.log = s.log ++ calls ∧
      ((∀ e ∈ calls, e.quiet) ∨ ∃ pre post, calls = pre ++ Event.beginAcquisition :: post ∧
        (∀ e ∈ pre, e.quiet) ∧ ∀ e ∈ post, e.quiet) := by
  refine bind_marks _ _ (returnIf_adds _ _ _) (fun _ => ?_)
  refine bind_marks _ _ (ConfigureDigitalIO_adds dev) (fun _ => ?_)
  refine bind_marks _ _ (returnIf_adds _ _ _) (fun _ => ?_)
  refine bind_marks _ _ (ConfigureExposureandTrigger_adds dev) (fun _ => ?_)
  refine bind_marks _ _ (returnIf_adds _ _ _) (fun _ => ?_)
  refine marks_bind _ _ (CounterAndTimer_AcquireImages_marks dev) (fun _ => ?_)
  refine bind_adds _ _ _ (ResetTrigger_adds dev) (fun _ => ?_)
  refine bind_adds _ _ _ (camDeInit_adds _ dev (by simp [Event.quiet, Event.writes]))
    (fun _ => ?_)
  exact pure_adds _ _

/-! ### The reports of `SetupCounterAndTimer` -/

/-- Every run of `SetupCounterAndTimer` returns, and the duty cycle and the
pulse rate that it reports are computed from the values 14000 and 6000 that it
has written to the registers `CounterDuration` and `CounterDelay` before; a run
that returns 0 has reported both. -/
theorem SetupCounterAndTimer_reports_calls (dev : Device) (s : Cam) :
    ∃ r s1 calls, CounterAndTimer.SetupCounterAndTimer dev s = Outcome.ok r s1 ∧
      s1.log = s.log ++ calls ∧
      (∀ v, Event.reportDutyCycle v ∈ calls →
        Event.setNode Node.CounterDuration 14000 ∈ calls ∧
          Event.setNode Node.CounterDelay 6000 ∈ calls ∧ v = dutyCycle 14000 6000) ∧
      (∀ v, Event.reportPulseRate v ∈ calls →
        Event.setNode Node.CounterDuration 14000 ∈ calls ∧
          Event.setNode Node.CounterDelay 6000 ∈ calls ∧ v = pulseRate 14000 6000) ∧
      (r = 0 → Event.reportDutyCycle (dutyCycle 14000 6000) ∈ calls ∧
        Event.reportPulseRate (pulseRate 14000 6000) ∈ calls) := by
  obtain ⟨r, s1, hrun, hr⟩ := SetupCounterAndTimer_result dev s
  refine ⟨r, s1, ?_⟩
  have h := hrun
  unfold CounterAndTimer.SetupCounterAndTimer at h
  rw [call_tryCatch_eq_ok] at h
  simp only [bind_eq_ok, bind_eq_ret, bind_eq_exc, pure_eq_ok, pure_ne_ret, pure_ne_exc,
    returnIf_eq_ok, returnIf_eq_ret, returnIf_ne_exc,
    entryOrReturn_eq_ok, entryOrReturn_eq_ret, entryOrReturn_ne_exc, setValue_eq_ok,
    setValue_ne_ret, setValue_eq_exc, getValue_eq_ok, getValue_eq_exc,
    getValue_ne_ret, emit_eq_ok, emit_ne_ret, emit_ne_exc] at h
  simp [and_assoc, record_log, lastWritten_append, lastWritten] at h
  casesm* _ ∨ _, _ ∧ _, ∃ _, _
  all_goals subst_vars
  all_goals try simp only [record_log, List.append_assoc, List.singleton_append, List.cons_append,
    List.nil_append]
  all_goals
    first
      | refine ⟨[], hrun, (List.append_nil _).symm, ?_, ?_, ?_⟩
      | refine ⟨_, hrun, rfl, ?_, ?_, ?_⟩
  all_goals first | (simp; done) | omega

/-! ### `AcquireImages` of AcquisitionUserBuffer.cpp -/

theorem readDeviceType_eq_ok (dev : Device) (t : Option DeviceType) (s s1 : Cam) :
    readDeviceType dev s = Outcome.ok t s1 ↔
      dev.deviceType = t ∧ (dev.deviceType = none ∨ notReadable dev Node.DeviceType = false) ∧
        s = s1 := by
  unfold readDeviceType
  cases dev.deviceType with
  | none => simp
  | some d => cases notReadable dev Node.DeviceType <;> simp

theorem readDeviceType_ne_ret (dev : Device) (s s1 : Cam) (c : Int) :
    readDeviceType dev s = Outcome.ret c s1 ↔ False := by
  unfold readDeviceType
  cases dev.deviceType with
  | none => simp
  | some d => cases notReadable dev Node.DeviceType <;> simp

theorem readDeviceType_eq_exc (dev : Device) (s s1 : Cam) :
    readDeviceType dev s = Outcome.exc s1 ↔
      dev.deviceType ≠ none ∧ notReadable dev Node.DeviceType = true ∧ s = s1 := by
  unfold readDeviceType
  cases dev.deviceType with
  | none => simp
  | some d => cases notReadable dev Node.DeviceType <;> simp

/-- Reading the device type changes nothing in the state of the camera. -/
theorem readDeviceType_state (dev : Device) (s : Cam) : (readDeviceType dev s).state = s := by
  unfold readDeviceType
  cases dev.deviceType with
  | none => rfl
  | some d => cases notReadable dev Node.DeviceType <;> rfl

/-- When lines 101-208 of `AcquireImages` run to their end, the buffer size they
yield is computed from the payload size that the camera reports and from its
device type, and the buffers are owned by the user. -/
theorem prepare_ok (dev : Device) (s s1 : Cam) (b : Nat)
    (h : AcquisitionUserBuffer.AcquireImages.prepare dev s = Outcome.ok b s1) :
    b = computeBufferSize dev.deviceType
        (lastWritten Node.PayloadSize (dev.value Node.PayloadSize) s.log) ∧
      s1.ownership = BufferOwnership.USER ∧
      (dev.deviceType = none ∨ notReadable dev Node.DeviceType = false) := by
  unfold AcquisitionUserBuffer.AcquireImages.prepare at h
  simp only [bind_eq_ok, returnIf_eq_ok, entryOrReturn_eq_ok, setValue_eq_ok, getValue_eq_ok,
    ensureBufferOwnership_eq_ok, readDeviceType_eq_ok, pure_eq_ok] at h
  simp [and_assoc, record_log, lastWritten_append, lastWritten] at h
  obtain ⟨-, a, -, -, -, -, a1, -, -, -, -, hdt, hown, rfl⟩ := h
  refine ⟨rfl, ?_, hdt⟩
  rcases hown with ⟨-, rfl⟩ | ⟨h, rfl⟩
  · rfl
  · exact h

/-! #### Statements that leave the streaming flag as it is -/

theorem bind_keeps_streaming {α β : Type} (m : Prog α) (f : α → Prog β)
    (hm : ∀ s, (m s).state.streaming = s.streaming)
    (hf : ∀ a s, (f a s).state.streaming = s.streaming) :
    ∀ s, ((m >>= f) s).state.streaming = s.streaming := by
  intro s
  have h1 := hm s
  rw [bind_apply]
  cases hms : m s with
  | ok a s1 =>
      rw [hms] at h1
      simp only [Outcome.state] at h1
      rw [← h1]
      exact hf a s1
  | ret c s1 =>
      rw [hms] at h1
      exact h1
  | exc s1 =>
      rw [hms] at h1
      exact h1

theorem returnIf_keeps_streaming (cond : Bool) (code : Int) :
    ∀ s, (returnIf cond code s).state.streaming = s.streaming :=
  fun s => by unfold returnIf; cases cond <;> rfl

theorem entryOrReturn_keeps_streaming (dev : Device) (n : Node) (e : Entry) :
    ∀ s, (entryOrReturn dev n e s).state.streaming = s.streaming :=
  fun s => by unfold entryOrReturn; cases dev.entryValue n e <;> rfl

theorem setValue_keeps_streaming (dev : Device) (n : Node) (v : Int) :
    ∀ s, (setValue dev n v s).state.streaming = s.streaming :=
  fun s => by
    unfold setValue
    cases (notWritable dev n || dev.throws (Api.write n)) <;> rfl

theorem getValue_keeps_streaming (dev : Device) (n : Node) :
    ∀ s, (getValue dev n s).state.streaming = s.streaming :=
  fun s => by unfold getValue; cases notReadable dev n <;> rfl

theorem readDeviceType_keeps_streaming (dev : Device) :
    ∀ s, (readDeviceType dev s).state.streaming = s.streaming :=
  fun s => by rw [readDeviceType_state]

theorem ensureBufferOwnership_keeps_streaming (o : BufferOwnership) :
    ∀ s, (ensureBufferOwnership o s).state.streaming = s.streaming :=
  fun s => by
    unfold ensureBufferOwnership
    by_cases h : s.ownership = o <;> simp [h, Outcome.state, withOwnership_streaming,
      record_streaming]

theorem pure_keeps_streaming {α : Type} (a : α) :
    ∀ s, ((pure a : Prog α) s).state.streaming = s.streaming :=
  fun _ => rfl

/-- Lines 101-208 of `AcquireImages` neither begin nor end the acquisition. -/
theorem prepare_keeps_streaming (dev : Device) :
    ∀ s, (AcquisitionUserBuffer.AcquireImages.prepare dev s).state.streaming = s.streaming := by
  unfold AcquisitionUserBuffer.AcquireImages.prepare
  repeat' first
    | refine bind_keeps_streaming _ _ ?_ (fun _ => ?_)
    | exact returnIf_keeps_streaming _ _
    | exact entryOrReturn_keeps_streaming _ _ _
    | exact setValue_keeps_streaming _ _ _
    | exact getValue_keeps_streaming _ _
    | exact readDeviceType_keeps_streaming _
    | exact ensureBufferOwnership_keeps_streaming _
    | exact pure_keeps_streaming _

theorem readDeviceType_returns_minus_one (dev : Device) :
    ∀ s c s1, readDeviceType dev s = Outcome.ret c s1 → c = -1 := by
  intro s c s1 h
  exact absurd h (by simp [readDeviceType_ne_ret])

theorem ensureBufferOwnership_returns_minus_one (o : BufferOwnership) :
    ∀ s c s1, ensureBufferOwnership o s = Outcome.ret c s1 → c = -1 := by
  intro s c s1 h
  exact absurd h (by simp [ensureBufferOwnership_ne_ret])

/-- Lines 101-208 of `AcquireImages` return only `-1`. -/
theorem prepare_returns_minus_one (dev : Device) :
    ∀ s c s1, AcquisitionUserBuffer.AcquireImages.prepare dev s = Outcome.ret c s1 → c = -1 := by
  unfold AcquisitionUserBuffer.AcquireImages.prepare
  repeat' first
    | refine bind_returns_minus_one _ _ ?_ (fun _ => ?_)
    | exact returnIf_returns_minus_one _
    | exact entryOrReturn_returns_minus_one _ _ _
    | exact setValue_returns_minus_one _ _ _
    | exact getValue_returns_minus_one _ _
    | exact readDeviceType_returns_minus_one _
    | exact ensureBufferOwnership_returns_minus_one _
    | exact pure_returns_minus_one _

/-! #### The calls of `AcquireImages` of AcquisitionUserBuffer.cpp -/

theorem readDeviceType_adds (P : Event → Prop) (dev : Device) :
    ∀ s, ∃ calls, (readDeviceType dev s).state.log = s.log ++ calls ∧ ∀ e ∈ calls, P e :=
  adds_nothing P _ (fun s => by rw [readDeviceType_state])

theorem ensureBufferOwnership_adds (P : Event → Prop) (o : BufferOwnership)
    (h : P (Event.setBufferOwnership o)) :
    ∀ s, ∃ calls, (ensureBufferOwnership o s).state.log = s.log ++ calls ∧ ∀ e ∈ calls, P e := by
  intro s
  unfold ensureBufferOwnership
  by_cases ho : s.ownership = o
  · exact ⟨[], by simp [ho, Outcome.state], by simp⟩
  · exact ⟨[Event.setBufferOwnership o], by simp [ho, Outcome.state, withOwnership_log, record_log],
      by simpa using h⟩

theorem beginAcquisition_adds (P : Event → Prop) (dev : Device) (h : P Event.beginAcquisition) :
    ∀ s, ∃ calls, (beginAcquisition dev s).state.log = s.log ++ calls ∧ ∀ e ∈ calls, P e :=
  adds_one P _ Event.beginAcquisition h
    (fun s => by unfold beginAcquisition; cases dev.throws Api.BeginAcquisition <;> rfl)

/-- Lines 101-208 of `AcquireImages` only write nodes and change the buffer
ownership. -/
theorem prepare_adds (P : Event → Prop) (dev : Device)
    (h : ∀ n v o, P (Event.setNode n v) ∧ P (Event.setBufferOwnership o)) :
    ∀ s, ∃ calls, (AcquisitionUserBuffer.AcquireImages.prepare dev s).state.log = s.log ++ calls ∧
      ∀ e ∈ calls, P e := by
  unfold AcquisitionUserBuffer.AcquireImages.prepare
  repeat' first
    | refine bind_adds P _ _ ?_ (fun _ => ?_)
    | exact returnIf_adds P _ _
    | exact entryOrReturn_adds P _ _ _
    | exact setValue_adds P _ _ _ (h _ _ BufferOwnership.USER).1
    | exact getValue_adds P _ _
    | exact readDeviceType_adds P _
    | exact ensureBufferOwnership_adds P _ (h Node.PayloadSize 0 _).2
    | exact pure_adds P _

/-- Lines 266-355 of `AcquireImages` only begin and end the acquisition and
retrieve, convert, save and release images. -/
theorem stream_adds (P : Event → Prop) (dev : Device)
    (h : P Event.beginAcquisition ∧ P Event.endAcquisition ∧
      ∀ k, P (Event.getNextImage k) ∧ P (Event.convert k) ∧ P (Event.save k) ∧
        P (Event.release k)) :
    ∀ s, ∃ calls, (AcquisitionUserBuffer.AcquireImages.stream dev s).state.log = s.log ++ calls ∧
      ∀ e ∈ calls, P e := by
  unfold AcquisitionUserBuffer.AcquireImages.stream
  repeat' first
    | exact beginAcquisition_adds P _ h.1
    | exact returnIf_adds P _ _
    | exact getValue_adds P _ _
    | exact imageLoop_adds P dev h.2.2 _ _
    | exact endAcquisition_adds P _ h.2.1
    | exact pure_adds P _
    | refine bind_adds P _ _ ?_ (fun _ => ?_)

/-- When the memory does not suffice for the user buffers, the `try` block of
`AcquireImages` does not run to its end; it returns only `-1`; and whatever way
it ends, streaming has not changed and the only calls made are writes of nodes,
a change of buffer ownership and reservations of memory. -/
theorem tryBlock_memory_short (dev : Device) (contiguous : Bool) (s : Cam)
    (hfail : dev.heapLimit <
      if contiguous then
        u64mul AcquisitionUserBuffer.numBuffers
          (computeBufferSize dev.deviceType
            (lastWritten Node.PayloadSize (dev.value Node.PayloadSize) s.log))
      else
        AcquisitionUserBuffer.numBuffers *
          computeBufferSize dev.deviceType
            (lastWritten Node.PayloadSize (dev.value Node.PayloadSize) s.log)) :
    (∀ r s1, AcquisitionUserBuffer.AcquireImages.tryBlock dev contiguous s ≠ Outcome.ok r s1) ∧
    (∀ r s1, AcquisitionUserBuffer.AcquireImages.tryBlock dev contiguous s = Outcome.ret r s1 →
      r = -1) ∧
    (AcquisitionUserBuffer.AcquireImages.tryBlock dev contiguous s).state.streaming
      = s.streaming ∧
    ∀ e ∈ (AcquisitionUserBuffer.AcquireImages.tryBlock dev contiguous s).state.log,
      e ∈ s.log ∨ (∃ n v, e = Event.setNode n v) ∨ (∃ o, e = Event.setBufferOwnership o) ∨
        ∃ b, e = Event.allocate b := by
  obtain ⟨k, hk⟩ := reserveUserBuffers_fails dev contiguous _ hfail
  obtain ⟨calls, hlog, hcalls⟩ := prepare_adds
    (fun e => (∃ n v, e = Event.setNode n v) ∨ (∃ o, e = Event.setBufferOwnership o) ∨
      ∃ b, e = Event.allocate b) dev
    (fun n v o => ⟨Or.inl ⟨n, v, rfl⟩, Or.inr (Or.inl ⟨o, rfl⟩)⟩) s
  have hstream := prepare_keeps_streaming dev s
  have hret := prepare_returns_minus_one dev s
  have hmem : ∀ e ∈ s.log ++ calls, e ∈ s.log ∨ (∃ n v, e = Event.setNode n v) ∨
      (∃ o, e = Event.setBufferOwnership o) ∨ ∃ b, e = Event.allocate b := by
    intro e he
    rcases List.mem_append.mp he with he | he
    · exact Or.inl he
    · exact Or.inr (hcalls e he)
  unfold AcquisitionUserBuffer.AcquireImages.tryBlock
  cases hp : AcquisitionUserBuffer.AcquireImages.prepare dev s with
  | ok b s1 =>
      obtain ⟨rfl, -, -⟩ := prepare_ok dev s s1 b hp
      rw [hp] at hlog hstream
      simp only [Outcome.state] at hlog hstream
      simp only [bind_apply, hp, hk s1]
      refine ⟨by simp, (fun r s2 h => by cases h; rfl), hstream, ?_⟩
      intro e he
      simp only [Outcome.state, hlog, List.mem_append, List.mem_replicate] at he
      rcases he with he | ⟨-, rfl⟩
      · exact hmem e (List.mem_append.mpr he)
      · exact Or.inr (Or.inr (Or.inr ⟨_, rfl⟩))
  | ret c s1 =>
      rw [hp] at hlog hstream
      simp only [Outcome.state] at hlog hstream
      simp only [bind_apply, hp]
      refine ⟨by simp, (fun r s2 h => by cases h; exact hret c s1 hp), hstream, ?_⟩
      intro e he
      simp only [Outcome.state, hlog] at he
      exact hmem e he
  | exc s1 =>
      rw [hp] at hlog hstream
      simp only [Outcome.state] at hlog hstream
      simp only [bind_apply, hp]
      refine ⟨by simp, (fun r s2 h => by cases h), hstream, ?_⟩
      intro e he
      simp only [Outcome.state, hlog] at he
      exact hmem e he

/-- The calls with which lines 211-263 of `AcquireImages` reserve the user
buffers of `b` bytes each and hand them over: one region of
`numBuffers * b` bytes (in 64-bit arithmetic) with the contiguous policy,
`numBuffers` regions of `b` bytes otherwise. -/
theorem handOver_isBufferCall (contiguous : Bool) (b : Nat) :
    (if contiguous then
        [Event.allocate (u64mul AcquisitionUserBuffer.numBuffers b),
          Event.setUserBuffersContiguous (u64mul AcquisitionUserBuffer.numBuffers b)]
      else
        List.replicate AcquisitionUserBuffer.numBuffers (Event.allocate b) ++
          [Event.setUserBuffers AcquisitionUserBuffer.numBuffers b]).filter Event.isBufferCall
      = if contiguous then
          [Event.allocate (u64mul AcquisitionUserBuffer.numBuffers b),
            Event.setUserBuffersContiguous (u64mul AcquisitionUserBuffer.numBuffers b)]
        else
          List.replicate AcquisitionUserBuffer.numBuffers (Event.allocate b) ++
            [Event.setUserBuffers AcquisitionUserBuffer.numBuffers b] := by
  cases contiguous <;> simp [Event.isBufferCall, List.filter_replicate]

/-- Lines 211-263 of `AcquireImages`, case by case: either the memory suffices,
the buffers are reserved and `SetUserBuffers` is called; or it does not, and
the block executes `return -1;` after fewer than `numBuffers` reservations. -/
theorem reserveUserBuffers_cases (dev : Device) (contiguous : Bool) (b : Nat) (s : Cam) :
    ((if contiguous then u64mul AcquisitionUserBuffer.numBuffers b
        else AcquisitionUserBuffer.numBuffers * b) ≤ dev.heapLimit ∧
      (∀ c s1, AcquisitionUserBuffer.reserveUserBuffers dev contiguous b s ≠ Outcome.ret c s1) ∧
      (AcquisitionUserBuffer.reserveUserBuffers dev contiguous b s).state.log = s.log ++
        if contiguous then
          [Event.allocate (u64mul AcquisitionUserBuffer.numBuffers b),
            Event.setUserBuffersContiguous (u64mul AcquisitionUserBuffer.numBuffers b)]
        else
          List.replicate AcquisitionUserBuffer.numBuffers (Event.allocate b) ++
            [Event.setUserBuffers AcquisitionUserBuffer.numBuffers b]) ∨
    (dev.heapLimit < (if contiguous then u64mul AcquisitionUserBuffer.numBuffers b
        else AcquisitionUserBuffer.numBuffers * b) ∧
      ∃ k, k < AcquisitionUserBuffer.numBuffers ∧ (contiguous = true → k = 0) ∧
        AcquisitionUserBuffer.reserveUserBuffers dev contiguous b s
          = Outcome.ret (-1) ⟨s.ownership, s.initialized, s.streaming, s.nextFrame,
              s.log ++ List.replicate k (Event.allocate b)⟩) := by
  cases contiguous
  · rcases allocateBuffers_cases dev b AcquisitionUserBuffer.numBuffers 0 (Nat.zero_le _)
      with ⟨h1, h2⟩ | ⟨h1, k, hk, h2⟩
    · left
      refine ⟨by simpa using h1, ?_, ?_⟩
      · intro c s1
        cases hthrow : dev.throws Api.SetUserBuffers <;>
          simp [AcquisitionUserBuffer.reserveUserBuffers, bind_apply, h2,
            AcquisitionUserBuffer.setUserBuffers, hthrow]
      · cases hthrow : dev.throws Api.SetUserBuffers <;>
          simp [AcquisitionUserBuffer.reserveUserBuffers, bind_apply, h2,
            AcquisitionUserBuffer.setUserBuffers, hthrow, Outcome.state, Cam.record]
    · right
      refine ⟨by simpa using h1, k, hk, by simp, ?_⟩
      simp [AcquisitionUserBuffer.reserveUserBuffers, bind_apply, h2]
  · by_cases hfit : dev.heapLimit < u64mul AcquisitionUserBuffer.numBuffers b
    · right
      refine ⟨by simpa using hfit, 0, by decide, fun _ => rfl, ?_⟩
      cases s
      simp [AcquisitionUserBuffer.reserveUserBuffers, bind_apply, returnIf, hfit]
    · left
      refine ⟨by simpa using hfit, ?_, ?_⟩
      · intro c s1
        cases hthrow : dev.throws Api.SetUserBuffers <;>
          simp [AcquisitionUserBuffer.reserveUserBuffers, bind_apply, returnIf, hfit, emit,
            AcquisitionUserBuffer.setUserBuffers, hthrow]
      · cases s
        cases hthrow : dev.throws Api.SetUserBuffers <;>
          simp [AcquisitionUserBuffer.reserveUserBuffers, bind_apply, returnIf, hfit, emit,
            AcquisitionUserBuffer.setUserBuffers, hthrow, Outcome.state, Cam.record]

/-- After its `try` block, `AcquireImages` only resets the buffer ownership. -/
theorem AcquireImages_after_tryBlock (dev : Device) (contiguous : Bool) (s : Cam) :
    ∃ tail, (AcquisitionUserBuffer.AcquireImages dev contiguous s).state.log
        = (AcquisitionUserBuffer.AcquireImages.tryBlock dev contiguous s).state.log ++ tail ∧
      ∀ e ∈ tail, e = Event.setBufferOwnership BufferOwnership.SYSTEM := by
  unfold AcquisitionUserBuffer.AcquireImages call tryCatch
  cases h : AcquisitionUserBuffer.AcquireImages.tryBlock dev contiguous s with
  | ok r s1 =>
      by_cases ho : s1.ownership = BufferOwnership.SYSTEM
      · exact ⟨[], by simp [bind_apply, h, pure_apply, ensureBufferOwnership, ho, Outcome.state],
          by simp⟩
      · exact ⟨[Event.setBufferOwnership BufferOwnership.SYSTEM],
          by simp [bind_apply, h, pure_apply, ensureBufferOwnership, ho, Outcome.state,
            withOwnership_log, record_log], by simp⟩
  | ret c s1 => exact ⟨[], by simp [bind_apply, h, Outcome.state], by simp⟩
  | exc s1 =>
      by_cases ho : s1.ownership = BufferOwnership.SYSTEM
      · exact ⟨[], by simp [bind_apply, h, pure_apply, ensureBufferOwnership, ho, Outcome.state],
          by simp⟩
      · exact ⟨[Event.setBufferOwnership BufferOwnership.SYSTEM],
          by simp [bind_apply, h, pure_apply, ensureBufferOwnership, ho, Outcome.state,
            withOwnership_log, record_log], by simp⟩

theorem filter_isBufferCall_eq_nil (calls : List Event)
    (h : ∀ e ∈ calls, e.isBufferCall = false) : calls.filter Event.isBufferCall = [] := by
  rw [List.filter_eq_nil_iff]
  intro e he
  simp [h e he]

/-- The calls by which a run of `AcquireImages` reserves memory and hands
buffers to the camera, for the buffer size `b` computed from the payload size
that the camera reports and from its device type: either the run stops before
`SetUserBuffers`, without beginning the acquisition, and has made fewer than
`numBuffers` reservations of `b` bytes (none with the contiguous policy); or the memory sufficed, the device type could
be read, and the run has reserved and handed over one region of
`numBuffers * b` bytes with the contiguous policy, `numBuffers` regions of `b`
bytes otherwise. -/
theorem AcquireImages_buffer_calls (dev : Device) (contiguous : Bool) (s : Cam) :
    ∃ calls, (AcquisitionUserBuffer.AcquireImages dev contiguous s).state.log = s.log ++ calls ∧
      ((Event.beginAcquisition ∉ calls ∧
          ∃ k, k < AcquisitionUserBuffer.numBuffers ∧ (contiguous = true → k = 0) ∧
            calls.filter Event.isBufferCall = List.replicate k (Event.allocate
              (computeBufferSize dev.deviceType
                (lastWritten Node.PayloadSize (dev.value Node.PayloadSize) s.log)))) ∨
        ((dev.deviceType = none ∨ notReadable dev Node.DeviceType = false) ∧
          (if contiguous then
              u64mul AcquisitionUserBuffer.numBuffers
                (computeBufferSize dev.deviceType
                  (lastWritten Node.PayloadSize (dev.value Node.PayloadSize) s.log))
            else
              AcquisitionUserBuffer.numBuffers *
                computeBufferSize dev.deviceType
                  (lastWritten Node.PayloadSize (dev.value Node.PayloadSize) s.log))
            ≤ dev.heapLimit ∧
          calls.filter Event.isBufferCall =
            if contiguous then
              [Event.allocate (u64mul AcquisitionUserBuffer.numBuffers
                  (computeBufferSize dev.deviceType
                    (lastWritten Node.PayloadSize (dev.value Node.PayloadSize) s.log))),
                Event.setUserBuffersContiguous (u64mul AcquisitionUserBuffer.numBuffers
                  (computeBufferSize dev.deviceType
                    (lastWritten Node.PayloadSize (dev.value Node.PayloadSize) s.log)))]
            else
              List.replicate AcquisitionUserBuffer.numBuffers (Event.allocate
                  (computeBufferSize dev.deviceType
                    (lastWritten Node.PayloadSize (dev.value Node.PayloadSize) s.log))) ++
                [Event.setUserBuffers AcquisitionUserBuffer.numBuffers
                  (computeBufferSize dev.deviceType
                    (lastWritten Node.PayloadSize (dev.value Node.PayloadSize) s.log))])) := by
  generalize hB : computeBufferSize dev.deviceType
    (lastWritten Node.PayloadSize (dev.value Node.PayloadSize) s.log) = B
  obtain ⟨tail, htail, htl⟩ := AcquireImages_after_tryBlock dev contiguous s
  have hquiet : tail.filter Event.isBufferCall = [] :=
    filter_isBufferCall_eq_nil tail (fun e he => by rw [htl e he]; rfl)
  have hnb : Event.beginAcquisition ∉ tail := fun he => by cases htl _ he
  obtain ⟨c1, hlog1, hc1⟩ := prepare_adds
    (fun e => e.isBufferCall = false ∧ e ≠ Event.beginAcquisition) dev
    (fun n v o => ⟨⟨rfl, by simp⟩, ⟨rfl, by simp⟩⟩) s
  have hq1 := filter_isBufferCall_eq_nil c1 (fun e he => (hc1 e he).1)
  have hnb1 : Event.beginAcquisition ∉ c1 := fun he => (hc1 _ he).2 rfl
  rw [htail]
  unfold AcquisitionUserBuffer.AcquireImages.tryBlock
  cases hp : AcquisitionUserBuffer.AcquireImages.prepare dev s with
  | ok b s1 =>
      obtain ⟨hb, -, hdt⟩ := prepare_ok dev s s1 _ hp
      rw [hB] at hb
      subst hb
      rw [hp] at hlog1
      simp only [Outcome.state] at hlog1
      simp only [bind_apply, hp]
      rcases reserveUserBuffers_cases dev contiguous b s1 with
        ⟨hfit, hnr, hl⟩ | ⟨hshort, k, hk, hk0, hr⟩
      · cases hres : AcquisitionUserBuffer.reserveUserBuffers dev contiguous b s1 with
        | ok u s2 =>
            rw [hres] at hl
            simp only [Outcome.state] at hl
            obtain ⟨c3, hlog3, hc3⟩ := stream_adds (fun e => e.isBufferCall = false) dev
              ⟨rfl, rfl, fun k => ⟨rfl, rfl, rfl, rfl⟩⟩ s2
            have hq3 := filter_isBufferCall_eq_nil c3 hc3
            refine ⟨c1 ++
              (if contiguous then
                [Event.allocate (u64mul AcquisitionUserBuffer.numBuffers b),
                  Event.setUserBuffersContiguous (u64mul AcquisitionUserBuffer.numBuffers b)]
              else
                List.replicate AcquisitionUserBuffer.numBuffers (Event.allocate b) ++
                  [Event.setUserBuffers AcquisitionUserBuffer.numBuffers b]) ++ c3 ++ tail,
              by simp [hlog3, hl, hlog1], Or.inr ⟨hdt, hfit, ?_⟩⟩
            simp only [List.filter_append, hq1, hq3, hquiet, handOver_isBufferCall,
              List.nil_append, List.append_nil]
        | ret c s2 => exact absurd hres (hnr c s2)
        | exc s2 =>
            rw [hres] at hl
            simp only [Outcome.state] at hl
            refine ⟨c1 ++
              (if contiguous then
                [Event.allocate (u64mul AcquisitionUserBuffer.numBuffers b),
                  Event.setUserBuffersContiguous (u64mul AcquisitionUserBuffer.numBuffers b)]
              else
                List.replicate AcquisitionUserBuffer.numBuffers (Event.allocate b) ++
                  [Event.setUserBuffers AcquisitionUserBuffer.numBuffers b]) ++ tail,
              by simp [Outcome.state, hl, hlog1], Or.inr ⟨hdt, hfit, ?_⟩⟩
            simp only [List.filter_append, hq1, hquiet, handOver_isBufferCall,
              List.nil_append, List.append_nil]
      · rw [hr]
        refine ⟨c1 ++ List.replicate k (Event.allocate b) ++ tail,
          by simp [Outcome.state, hlog1], Or.inl ⟨?_, k, hk, hk0, ?_⟩⟩
        · simp [hnb, hnb1, List.mem_replicate]
        · simp [List.filter_append, hq1, hquiet, List.filter_replicate, Event.isBufferCall]
  | ret c s1 =>
      rw [hp] at hlog1
      simp only [Outcome.state] at hlog1
      simp only [bind_apply, hp]
      exact ⟨c1 ++ tail, by simp [Outcome.state, hlog1],
        Or.inl ⟨by simp [hnb, hnb1], 0, by decide, fun _ => rfl,
          by simp [List.filter_append, hq1, hquiet]⟩⟩
  | exc s1 =>
      rw [hp] at hlog1
      simp only [Outcome.state] at hlog1
      simp only [bind_apply, hp]
      exact ⟨c1 ++ tail, by simp [Outcome.state, hlog1],
        Or.inl ⟨by simp [hnb, hnb1], 0, by decide, fun _ => rfl,
          by simp [List.filter_append, hq1, hquiet]⟩⟩

theorem reservedBytes_filter (calls : List Event) :
    AcquisitionUserBuffer.reservedBytes (calls.filter Event.isBufferCall)
      = AcquisitionUserBuffer.reservedBytes calls := by
  induction calls with
  | nil => rfl
  | cons e rest ih =>
      cases e <;> simp [List.filter_cons, Event.isBufferCall, AcquisitionUserBuffer.reservedBytes, ih]

/-- What the two forms of the buffer calls of a run of `AcquireImages` say of
each single call: a `SetUserBuffers` call, or the begin of the acquisition,
occurs only in a run that has reserved and handed over all the buffers, and
every reservation has the size of one buffer (of the whole region with the
contiguous policy). -/
theorem buffer_calls_sized (contiguous : Bool) (b heapLimit : Nat) (calls : List Event)
    (Q : Prop)
    (h : (Event.beginAcquisition ∉ calls ∧
          ∃ k, k < AcquisitionUserBuffer.numBuffers ∧ (contiguous = true → k = 0) ∧
            calls.filter Event.isBufferCall = List.replicate k (Event.allocate b)) ∨
        (Q ∧
          (if contiguous then u64mul AcquisitionUserBuffer.numBuffers b
            else AcquisitionUserBuffer.numBuffers * b) ≤ heapLimit ∧
          calls.filter Event.isBufferCall =
            if contiguous then
              [Event.allocate (u64mul AcquisitionUserBuffer.numBuffers b),
                Event.setUserBuffersContiguous (u64mul AcquisitionUserBuffer.numBuffers b)]
            else
              List.replicate AcquisitionUserBuffer.numBuffers (Event.allocate b) ++
                [Event.setUserBuffers AcquisitionUserBuffer.numBuffers b])) :
    (∀ bufferCount bufferSize, Event.setUserBuffers bufferCount bufferSize ∈ calls →
      contiguous = false ∧ bufferCount = AcquisitionUserBuffer.numBuffers ∧ bufferSize = b ∧
        AcquisitionUserBuffer.numBuffers * b ≤ heapLimit ∧
        calls.filter Event.isBufferCall =
          List.replicate AcquisitionUserBuffer.numBuffers (Event.allocate b) ++
            [Event.setUserBuffers AcquisitionUserBuffer.numBuffers b]) ∧
    (∀ totalSize, Event.setUserBuffersContiguous totalSize ∈ calls →
      contiguous = true ∧ totalSize = u64mul AcquisitionUserBuffer.numBuffers b ∧
        u64mul AcquisitionUserBuffer.numBuffers b ≤ heapLimit ∧
        calls.filter Event.isBufferCall =
          [Event.allocate (u64mul AcquisitionUserBuffer.numBuffers b),
            Event.setUserBuffersContiguous (u64mul AcquisitionUserBuffer.numBuffers b)]) ∧
    (∀ bytes, Event.allocate bytes ∈ calls →
      bytes = if contiguous then u64mul AcquisitionUserBuffer.numBuffers b else b) ∧
    (Event.beginAcquisition ∈ calls →
      if contiguous then
        Event.setUserBuffersContiguous (u64mul AcquisitionUserBuffer.numBuffers b) ∈ calls
      else Event.setUserBuffers AcquisitionUserBuffer.numBuffers b ∈ calls) := by
  have hmem : ∀ e, e.isBufferCall = true → (e ∈ calls ↔ e ∈ calls.filter Event.isBufferCall) :=
    fun e he => by simp [List.mem_filter, he]
  refine ⟨?_, ?_, ?_, ?_⟩
  · intro c b1 he
    rw [hmem (Event.setUserBuffers c b1) rfl] at he
    rcases h with ⟨-, k, -, -, hk⟩ | ⟨-, hfit, hfull⟩
    · rw [hk] at he
      simp [List.mem_replicate] at he
    · cases contiguous
      · simp only [Bool.false_eq_true, if_false] at hfull hfit
        rw [hfull] at he
        simp [List.mem_replicate] at he
        exact ⟨rfl, he.1, he.2, hfit, hfull⟩
      · simp only [if_true] at hfull
        rw [hfull] at he
        simp at he
  · intro t he
    rw [hmem (Event.setUserBuffersContiguous t) rfl] at he
    rcases h with ⟨-, k, -, -, hk⟩ | ⟨-, hfit, hfull⟩
    · rw [hk] at he
      simp [List.mem_replicate] at he
    · cases contiguous
      · simp only [Bool.false_eq_true, if_false] at hfull
        rw [hfull] at he
        simp [List.mem_replicate] at he
      · simp only [if_true] at hfull hfit
        rw [hfull] at he
        simp at he
        exact ⟨rfl, he, hfit, hfull⟩
  · intro bytes he
    rw [hmem (Event.allocate bytes) rfl] at he
    rcases h with ⟨-, k, -, hk0, hk⟩ | ⟨-, -, hfull⟩
    · rw [hk] at he
      cases contiguous
      · simp [List.mem_replicate] at he
        simpa using he.2
      · rw [hk0 rfl] at he
        simp at he
    · cases contiguous
      · simp only [Bool.false_eq_true, if_false] at hfull
        rw [hfull] at he
        simp [List.mem_replicate] at he
        simpa using he.2
      · simp only [if_true] at hfull
        rw [hfull] at he
        simp at he
        simpa using he
  · intro hbegin
    rcases h with ⟨hno, -⟩ | ⟨-, -, hfull⟩
    · exact absurd hbegin hno
    · cases contiguous
      · simp only [Bool.false_eq_true, if_false] at hfull ⊢
        rw [hmem (Event.setUserBuffers AcquisitionUserBuffer.numBuffers b) rfl, hfull]
        simp
      · simp only [if_true] at hfull ⊢
        rw [hmem (Event.setUserBuffersContiguous (u64mul AcquisitionUserBuffer.numBuffers b)) rfl,
          hfull]
        simp

/-- On a camera whose `DeviceType` node is present but cannot be read,
`GetIntValue()` raises at line 188: `AcquireImages` returns `-1` from its
handler, having reserved no memory and retrieved no image. -/
theorem AcquireImages_unreadable_device_type :
    AcquisitionUserBuffer.AcquireImages unreadableDeviceTypeDevice true Cam.fresh
      = Outcome.ok (-1) ⟨BufferOwnership.SYSTEM, false, false, 0,
          [Event.setNode Node.AcquisitionMode 1, Event.setNode Node.StreamBufferCountMode 1]⟩ := by
  decide!

/-! ### Claims -/

/-- C1 (as stated, refuted): when the `PayloadSize` node reads `-1` the
`uint64_t` variable `bufferSize` holds the positive value `2^64 - 1`; the
aligned buffer size is then `0`, which is not greater than or equal to the
payload held in the variable. -/
theorem C1_counterexample :
    u64ofInt64 (-1) = 2 ^ 64 - 1 ∧ 0 < u64ofInt64 (-1) ∧ u64ofInt64 (-1) < u64Size ∧
      computeBufferSize (some DeviceType.USB3Vision) (-1) = 0 ∧
      ¬ (u64ofInt64 (-1) ≤ alignedBufferSize (some DeviceType.USB3Vision) (u64ofInt64 (-1))) := by
  decide

/-- C1 (amended): for a USB3 Vision device and every positive payload size of
at most `2^64 - 1024` held in the `uint64_t` variable, the buffer size
computed by `AcquireImages` is the smallest multiple of 1024 that is greater
than or equal to the payload size. -/
theorem C1_aligned_size_least_multiple (payload : Nat) (hpos : 0 < payload)
    (hle : payload ≤ 2 ^ 64 - 1024) :
    1024 ∣ alignedBufferSize (some DeviceType.USB3Vision) payload ∧
      payload ≤ alignedBufferSize (some DeviceType.USB3Vision) payload ∧
      ∀ m : Nat, 1024 ∣ m → payload ≤ m →
        alignedBufferSize (some DeviceType.USB3Vision) payload ≤ m := by
  have hval : alignedBufferSize (some DeviceType.USB3Vision) payload
      = (payload + 1023) / 1024 * 1024 := by
    simp only [alignedBufferSize, if_true]
    exact alignToUsbPacket_eq payload (by omega)
  rw [hval]
  refine ⟨Dvd.intro_left _ rfl, by omega, ?_⟩
  rintro m ⟨k, rfl⟩ hm
  omega

/-- Witness of C1 at the payload 2,000,000. -/
theorem C1_aligned_size_least_multiple_witness :
    0 < 2000000 ∧ 2000000 ≤ 2 ^ 64 - 1024 ∧
      1024 ∣ alignedBufferSize (some DeviceType.USB3Vision) 2000000 ∧
      2000000 ≤ alignedBufferSize (some DeviceType.USB3Vision) 2000000 ∧
      ∀ m : Nat, 1024 ∣ m → 2000000 ≤ m →
        alignedBufferSize (some DeviceType.USB3Vision) 2000000 ≤ m :=
  ⟨by decide, by decide, C1_aligned_size_least_multiple 2000000 (by decide) (by decide)⟩

/-- C2 (violated by the code): on a camera whose `StreamBufferCountResult` node
cannot be read, and on a camera on which the buffer memory cannot be reserved,
`AcquireImages` sets the buffer ownership to USER, leaves through
`return -1;` inside the `try` block (lines 277 and 222) and so returns with
the ownership still USER; with non-contiguous buffers the same happens at
line 245. On the healthy camera the ownership is reverted to SYSTEM. -/
theorem C2_early_return_keeps_user_ownership :
    AcquisitionUserBuffer.AcquireImages noBufferCountDevice true Cam.fresh
        = Outcome.ok (-1)
            { ownership := BufferOwnership.USER, initialized := false, streaming := true,
              nextFrame := 0,
              log := [Event.setNode Node.AcquisitionMode 1,
                      Event.setNode Node.StreamBufferCountMode 1,
                      Event.setBufferOwnership BufferOwnership.USER,
                      Event.allocate 20008960,
                      Event.setUserBuffersContiguous 20008960,
                      Event.beginAcquisition] } ∧
      AcquisitionUserBuffer.AcquireImages lowMemoryDevice true Cam.fresh
        = Outcome.ok (-1)
            { ownership := BufferOwnership.USER, initialized := false, streaming := false,
              nextFrame := 0,
              log := [Event.setNode Node.AcquisitionMode 1,
                      Event.setNode Node.StreamBufferCountMode 1,
                      Event.setBufferOwnership BufferOwnership.USER] } ∧
      (AcquisitionUserBuffer.AcquireImages lowMemoryDevice false Cam.fresh).state.ownership
        = BufferOwnership.USER ∧
      (AcquisitionUserBuffer.AcquireImages healthyDevice true Cam.fresh).state.ownership
        = BufferOwnership.SYSTEM := by
  decide!

/-- C3: in every run of `SetupCounterAndTimer`, the duty cycle and the pulse
rate that the run reports are the values of the two expressions
`(int64_t)((float)duration / ((float)duration + (float)delay) * 100)` and
`(int64_t)(1000000 / ((float)duration + (float)delay))` at the values 14000 and
6000 that the run has written to the registers `CounterDuration` and
`CounterDelay` before, and at nothing else; a run that returns 0 has reported
both; these values are exactly 70 and 50. As functions of register values that
are positive and whose sum is below 2^24 (values that `float` holds exactly),
the pulse rate is `1000000 / (duration + delay)` truncated to an integer, and
the duty cycle is `duration / (duration + delay) * 100` truncated to an
integer, up to one unit that the rounding of the `float` operations can add or
take away. -/
theorem C3_duty_cycle_and_pulse_rate :
    (∀ (dev : Device) (s : Cam),
      ∃ r s1 calls, CounterAndTimer.SetupCounterAndTimer dev s = Outcome.ok r s1 ∧
        s1.log = s.log ++ calls ∧
        (∀ v, Event.reportDutyCycle v ∈ calls →
          Event.setNode Node.CounterDuration 14000 ∈ calls ∧
            Event.setNode Node.CounterDelay 6000 ∈ calls ∧ v = dutyCycle 14000 6000) ∧
        (∀ v, Event.reportPulseRate v ∈ calls →
          Event.setNode Node.CounterDuration 14000 ∈ calls ∧
            Event.setNode Node.CounterDelay 6000 ∈ calls ∧ v = pulseRate 14000 6000) ∧
        (r = 0 → Event.reportDutyCycle (dutyCycle 14000 6000) ∈ calls ∧
          Event.reportPulseRate (pulseRate 14000 6000) ∈ calls)) ∧
    dutyCycle 14000 6000 = some 70 ∧ pulseRate 14000 6000 = some 50 ∧
    specDutyCyclePercent 14000 6000 = 70 ∧ specPulseRateHz 14000 6000 = 50 ∧
    (∀ duration delay : Int, 0 < duration → 0 < delay → duration + delay < 2 ^ 24 →
      pulseRate duration delay = some (specPulseRateHz duration delay) ∧
      ∃ d, dutyCycle duration delay = some d ∧
        specDutyCyclePercent duration delay - 1 ≤ d ∧
        d ≤ specDutyCyclePercent duration delay + 1) := by
  refine ⟨SetupCounterAndTimer_reports_calls, by decide!, by decide!, by decide, by decide, ?_⟩
  intro duration delay hduration hdelay hsum
  obtain ⟨D, rfl⟩ := Int.eq_ofNat_of_zero_le (le_of_lt hduration)
  obtain ⟨L, rfl⟩ := Int.eq_ofNat_of_zero_le (le_of_lt hdelay)
  have hD : 0 < D := by exact_mod_cast hduration
  have hlt : D + L < 2 ^ 24 := by exact_mod_cast hsum
  have hspecP : specPulseRateHz (D : Int) (L : Int) = ((1000000 / (D + L) : Nat) : Int) := by
    unfold specPulseRateHz
    rw [← Int.natCast_add]
    exact (Int.ofNat_tdiv 1000000 (D + L)).symm
  have hspecD : specDutyCyclePercent (D : Int) (L : Int) = ((100 * D / (D + L) : Nat) : Int) := by
    unfold specDutyCyclePercent
    rw [← Int.natCast_add, Nat.mul_comm 100 D]
    exact (Int.ofNat_tdiv (D * 100) (D + L)).symm
  refine ⟨?_, ?_⟩
  · rw [hspecP]
    exact pulseRate_exact D L (by omega) hlt
  · obtain ⟨v, hv, h1, h2⟩ := dutyCycle_near D L hD hlt
    refine ⟨(v : Int), hv, ?_, ?_⟩
    · rw [hspecD]
      omega
    · rw [hspecD]
      omega

/-- Witness of C3: the run on the healthy camera, and the two expressions at
the register values 53 and 47, where the duty cycle computed in `float` is 52
and the truncated quotient is 53. -/
theorem C3_duty_cycle_and_pulse_rate_witness :
    CounterAndTimer.SetupCounterAndTimer healthyDevice Cam.fresh
      = Outcome.ok 0 ⟨BufferOwnership.SYSTEM, false, false, 0,
          [Event.setNode Node.CounterSelector 1, Event.setNode Node.CounterEventSource 1,
            Event.setNode Node.CounterDuration 14000, Event.setNode Node.CounterDelay 6000,
            Event.reportDutyCycle (some 70), Event.reportPulseRate (some 50),
            Event.setNode Node.CounterTriggerSource 1,
            Event.setNode Node.CounterTriggerActivation 1]⟩ ∧
    dutyCycle 53 47 = some 52 ∧ specDutyCyclePercent 53 47 = 53 ∧
    pulseRate 53 47 = some 10000 ∧
    (pulseRate 53 47 = some (specPulseRateHz 53 47) ∧
      ∃ d, dutyCycle 53 47 = some d ∧
        specDutyCyclePercent 53 47 - 1 ≤ d ∧ d ≤ specDutyCyclePercent 53 47 + 1) :=
  ⟨by decide!, by decide!, by decide, by decide!,
    C3_duty_cycle_and_pulse_rate.2.2.2.2.2 53 47 (by decide) (by decide) (by decide)⟩

/-- C4: in every run of `SetupCounterAndTimer`, the duty cycle is computed from
the values that the run has written to the registers `CounterDuration` and
`CounterDelay`, which are positive, and every value that the run reports for it
is strictly greater than 0 and strictly less than 100; a run that returns 0
reports such a value. For positive register values that no run has, the
expression still yields a value from 0 to 100. -/
theorem C4_duty_cycle_strictly_between (dev : Device) (s : Cam) :
    (∃ r s1 calls, CounterAndTimer.SetupCounterAndTimer dev s = Outcome.ok r s1 ∧
      s1.log = s.log ++ calls ∧
      (∀ v, Event.reportDutyCycle v ∈ calls →
        ∃ duration delay d, Event.setNode Node.CounterDuration duration ∈ calls ∧
          Event.setNode Node.CounterDelay delay ∈ calls ∧ 0 < duration ∧ 0 < delay ∧
          v = dutyCycle duration delay ∧ v = some d ∧ 0 < d ∧ d < 100) ∧
      (r = 0 → ∃ d, Event.reportDutyCycle (some d) ∈ calls ∧ 0 < d ∧ d < 100)) ∧
    ∀ duration delay : Int, 0 < duration → 0 < delay →
      ∃ d, dutyCycle duration delay = some d ∧ 0 ≤ d ∧ d ≤ 100 := by
  have h70 : dutyCycle 14000 6000 = some 70 := by decide!
  constructor
  · obtain ⟨r, s1, calls, hrun, hlog, hduty, -, hzero⟩ := SetupCounterAndTimer_reports_calls dev s
    refine ⟨r, s1, calls, hrun, hlog, ?_, ?_⟩
    · intro v hv
      obtain ⟨h1, h2, h3⟩ := hduty v hv
      exact ⟨14000, 6000, 70, h1, h2, by decide, by decide, h3, by rw [h3, h70], by decide,
        by decide⟩
    · intro hr
      have := (hzero hr).1
      rw [h70] at this
      exact ⟨70, this, by decide, by decide⟩
  · intro duration delay hduration hdelay
    obtain ⟨D, rfl⟩ := Int.eq_ofNat_of_zero_le (le_of_lt hduration)
    obtain ⟨L, rfl⟩ := Int.eq_ofNat_of_zero_le (le_of_lt hdelay)
    obtain ⟨v, hv, hle⟩ := dutyCycle_natCast D L (by exact_mod_cast hduration)
    exact ⟨(v : Int), hv, Int.natCast_nonneg v, by exact_mod_cast hle⟩

/-- Witness of C4: the run on the healthy camera, which reports the duty cycle
70. -/
theorem C4_duty_cycle_strictly_between_witness :
    CounterAndTimer.SetupCounterAndTimer healthyDevice Cam.fresh
      = Outcome.ok 0 ⟨BufferOwnership.SYSTEM, false, false, 0,
          [Event.setNode Node.CounterSelector 1, Event.setNode Node.CounterEventSource 1,
            Event.setNode Node.CounterDuration 14000, Event.setNode Node.CounterDelay 6000,
            Event.reportDutyCycle (some 70), Event.reportPulseRate (some 50),
            Event.setNode Node.CounterTriggerSource 1,
            Event.setNode Node.CounterTriggerActivation 1]⟩ ∧
    (0 : Int) < 70 ∧ (70 : Int) < 100 ∧
    ∃ r s1 calls, CounterAndTimer.SetupCounterAndTimer healthyDevice Cam.fresh
        = Outcome.ok r s1 ∧
      s1.log = Cam.fresh.log ++ calls ∧
      (∀ v, Event.reportDutyCycle v ∈ calls →
        ∃ duration delay d, Event.setNode Node.CounterDuration duration ∈ calls ∧
          Event.setNode Node.CounterDelay delay ∈ calls ∧ 0 < duration ∧ 0 < delay ∧
          v = dutyCycle duration delay ∧ v = some d ∧ 0 < d ∧ d < 100) ∧
      (r = 0 → ∃ d, Event.reportDutyCycle (some d) ∈ calls ∧ 0 < d ∧ d < 100) :=
  ⟨by decide!, by decide, by decide,
    (C4_duty_cycle_strictly_between healthyDevice Cam.fresh).1⟩

/-- C5 (violated by the code): on a camera whose wait for the next frame times
out, `GetNextImage` raises, and `Flir::acquireImage`, which has no `try` block,
ends with that exception instead of a result: the failure propagates out of
`acquireImage`, from whatever state it is called. The acquisition loop of both
`AcquireImages` functions, on the same camera, catches the exception in each
iteration, goes on, and ends with the result `-1`. -/
theorem C5_timeout_leaves_acquireImage :
    timeoutDevice.frames 0 = none ∧
    Flir.Flir timeoutDevice Cam.fresh
      = Outcome.ok () ⟨BufferOwnership.SYSTEM, true, false, 0,
          [Event.init, Event.setNode Node.AcquisitionMode 1]⟩ ∧
    Flir.acquireImage timeoutDevice
        ⟨BufferOwnership.SYSTEM, true, false, 0,
          [Event.init, Event.setNode Node.AcquisitionMode 1]⟩
      = Outcome.exc ⟨BufferOwnership.SYSTEM, true, true, 1,
          [Event.init, Event.setNode Node.AcquisitionMode 1, Event.beginAcquisition,
            Event.getNextImage 0]⟩ ∧
    (∀ (dev : Device) (s : Cam), dev.frames s.nextFrame = none →
      ∃ s1, Flir.acquireImage dev s = Outcome.exc s1) ∧
    imageLoop timeoutDevice 3 0
        ⟨BufferOwnership.SYSTEM, true, true, 0, [Event.beginAcquisition]⟩
      = Outcome.ok (-1) ⟨BufferOwnership.SYSTEM, true, true, 3,
          [Event.beginAcquisition, Event.getNextImage 0, Event.getNextImage 1,
            Event.getNextImage 2]⟩ := by
  refine ⟨rfl, by decide!, by decide!, ?_, by decide!⟩
  intro dev s h
  rw [acquireImage_cases]
  split_ifs
  · exact ⟨_, rfl⟩
  · simp [h]

/-- C7 (violated by the code): on a complete frame whose Mono8 bytes are
16, 0, 32, `Flir::acquireImage` (run on the constructed object) returns the
single byte 16: `strlen` stops at the zero byte, so the bytes after it are
missing from the result. -/
theorem C7_result_stops_at_zero_byte :
    healthyDevice.frames 0
      = some { incomplete := false, convertFails := false, saveFails := false,
               mono8 := [16, 0, 32] } ∧
    Flir.Flir healthyDevice Cam.fresh
      = Outcome.ok () ⟨BufferOwnership.SYSTEM, true, false, 0,
          [Event.init, Event.setNode Node.AcquisitionMode 1]⟩ ∧
    Flir.acquireImage healthyDevice
        ⟨BufferOwnership.SYSTEM, true, false, 0,
          [Event.init, Event.setNode Node.AcquisitionMode 1]⟩
      = Outcome.ok (some [16]) ⟨BufferOwnership.SYSTEM, true, true, 1,
          [Event.init, Event.setNode Node.AcquisitionMode 1, Event.beginAcquisition,
            Event.getNextImage 0, Event.convert 0]⟩ := by
  decide!

/-- C8 (violated by the code): whatever the camera does and from whatever
state, the calls that `Flir::acquireImage` adds to the log contain no
`Release`: the frame obtained from `GetNextImage` is never released, neither
when it is incomplete nor after the conversion. -/
theorem C8_acquireImage_never_releases (dev : Device) (s : Cam) :
    ∃ calls, (Flir.acquireImage dev s).state.log = s.log ++ calls ∧
      ∀ k, Event.release k ∉ calls := by
  rw [acquireImage_cases]
  split_ifs
  · exact ⟨[_], rfl, by simp⟩
  · split
    · exact ⟨_, rfl, by simp⟩
    · split_ifs
      · exact ⟨_, rfl, by simp⟩
      · exact ⟨_, rfl, by simp⟩
      · exact ⟨_, rfl, by simp⟩

/-- C9: in the acquisition loop of `AcquireImages` (run for `n` iterations from
any state), every frame `k` retrieved in the loop that is flagged incomplete is
released exactly once and is neither converted nor saved, and the loop goes
on: it ends normally after all `n` calls of `GetNextImage`, those for the
frames after `k` included. -/
theorem C9_incomplete_frame_released_once (dev : Device) (n : Nat) (result : Int) (s : Cam)
    (k : Nat) (f : Frame) (hfirst : s.nextFrame ≤ k) (hlast : k < s.nextFrame + n)
    (hframe : dev.frames k = some f) (hincomplete : f.incomplete = true) :
    ∃ r s1 calls, imageLoop dev n result s = Outcome.ok r s1 ∧
      s1.log = s.log ++ calls ∧
      calls.count (Event.release k) = 1 ∧
      Event.convert k ∉ calls ∧ Event.save k ∉ calls ∧
      s1.nextFrame = s.nextFrame + n ∧
      ∀ j, k < j → j < s.nextFrame + n → Event.getNextImage j ∈ calls := by
  obtain ⟨r, calls, hrun, hspec⟩ := imageLoop_spec dev n result s
  obtain ⟨_, hk⟩ := (hspec k).2 hfirst hlast
  obtain ⟨hcount, hconv, hsave⟩ := hk f hframe hincomplete
  refine ⟨r, _, calls, hrun, rfl, hcount, hconv, hsave, rfl, ?_⟩
  intro j hj1 hj2
  exact ((hspec j).2 (by omega) hj2).1

/-- Witness of C9: frame 3 of the ten frames of a camera that delivers only
incomplete frames. -/
theorem C9_incomplete_frame_released_once_witness :
    Cam.fresh.nextFrame ≤ 3 ∧ 3 < Cam.fresh.nextFrame + k_numImages ∧
    incompleteDevice.frames 3
      = some { incomplete := true, convertFails := false, saveFails := false, mono8 := [] } ∧
    (∃ r s1 calls, imageLoop incompleteDevice k_numImages 0 Cam.fresh = Outcome.ok r s1 ∧
      s1.log = Cam.fresh.log ++ calls ∧
      calls.count (Event.release 3) = 1 ∧
      Event.convert 3 ∉ calls ∧ Event.save 3 ∉ calls ∧
      s1.nextFrame = Cam.fresh.nextFrame + k_numImages ∧
      ∀ j, 3 < j → j < Cam.fresh.nextFrame + k_numImages → Event.getNextImage j ∈ calls) :=
  ⟨by decide, by decide, rfl,
    C9_incomplete_frame_released_once incompleteDevice k_numImages 0 Cam.fresh 3
      { incomplete := true, convertFails := false, saveFails := false, mono8 := [] }
      (by decide) (by decide) rfl rfl⟩

/-- C10 (as stated, refuted): on a camera without the `CounterSelector` node,
`RunSingleCamera` initialises the camera and returns `-1` at once: it never
begins an acquisition and retrieves no image, while the same function on the
healthy camera retrieves ten images. -/
theorem C10_counterexample :
    noCounterDevice.available Node.CounterSelector = false ∧
    CounterAndTimer.RunSingleCamera noCounterDevice Cam.fresh
      = Outcome.ok (-1) ⟨BufferOwnership.SYSTEM, true, false, 0, [Event.init]⟩ ∧
    (CounterAndTimer.RunSingleCamera healthyDevice Cam.fresh).state.nextFrame = 10 := by
  decide!

/-- C10 (amended): if the `CounterSelector` node is not available,
`RunSingleCamera` returns the error `-1` having called nothing on the camera
but `Init`: it begins no acquisition and retrieves no image from that device. -/
theorem C10_no_counter_no_capture (dev : Device) (s : Cam)
    (hcounter : dev.available Node.CounterSelector = false) :
    ∃ s1, CounterAndTimer.RunSingleCamera dev s = Outcome.ok (-1) s1 ∧
      s1.log = s.log ++ [Event.init] ∧ s1.nextFrame = s.nextFrame ∧
      s1.streaming = s.streaming := by
  obtain ⟨r, hprint⟩ := PrintDeviceInfo_run dev s
  unfold CounterAndTimer.RunSingleCamera call tryCatch
  simp only [bind_apply, hprint, camInit]
  cases hinit : dev.throws Api.Init
  · simp [hinit, SetupCounterAndTimer_unavailable dev _ hcounter, returnIf, Cam.record,
      Cam.withInitialized, bind_apply]
  · simp [hinit, pure_apply, Cam.record]

/-- Witness of C10 on the camera without counter. -/
theorem C10_no_counter_no_capture_witness :
    noCounterDevice.available Node.CounterSelector = false ∧
    ∃ s1, CounterAndTimer.RunSingleCamera noCounterDevice Cam.fresh = Outcome.ok (-1) s1 ∧
      s1.log = Cam.fresh.log ++ [Event.init] ∧ s1.nextFrame = Cam.fresh.nextFrame ∧
      s1.streaming = Cam.fresh.streaming :=
  ⟨rfl, C10_no_counter_no_capture noCounterDevice Cam.fresh rfl⟩

/-- C11: if the `CounterSelector` node is not available, `SetupCounterAndTimer`
returns a negative error code and leaves the camera in the state in which it
found it: no node has been written and nothing has been called. -/
theorem C11_no_counter_selector_changes_nothing (dev : Device) (s : Cam)
    (hcounter : dev.available Node.CounterSelector = false) :
    ∃ r, CounterAndTimer.SetupCounterAndTimer dev s = Outcome.ok r s ∧ r < 0 :=
  ⟨-1, SetupCounterAndTimer_unavailable dev s hcounter, by decide⟩

/-- Witness of C11 on the camera without counter. -/
theorem C11_no_counter_selector_changes_nothing_witness :
    noCounterDevice.available Node.CounterSelector = false ∧
    ∃ r, CounterAndTimer.SetupCounterAndTimer noCounterDevice Cam.fresh
      = Outcome.ok r Cam.fresh ∧ r < 0 :=
  ⟨rfl, C11_no_counter_selector_changes_nothing noCounterDevice Cam.fresh rfl⟩

/-- C12: whenever `SetupCounterAndTimer` returns 0 it has written 14000 to
`CounterDuration` and 6000 to `CounterDelay`, and has set `CounterSelector` to
`Counter0`, `CounterEventSource` to `MHzTick`, `CounterTriggerSource` to
`FrameTriggerWait` and `CounterTriggerActivation` to `LevelHigh`; these are the
values the six nodes hold when it returns. -/
theorem C12_success_programs_counter (dev : Device) (s s1 : Cam)
    (h : CounterAndTimer.SetupCounterAndTimer dev s = Outcome.ok 0 s1) :
    ∃ counter0 mHzTick frameTriggerWait levelHigh,
      dev.entryValue Node.CounterSelector Entry.Counter0 = some counter0 ∧
      dev.entryValue Node.CounterEventSource Entry.MHzTick = some mHzTick ∧
      dev.entryValue Node.CounterTriggerSource Entry.FrameTriggerWait = some frameTriggerWait ∧
      dev.entryValue Node.CounterTriggerActivation Entry.LevelHigh = some levelHigh ∧
      Event.setNode Node.CounterDuration 14000 ∈ s1.log ∧
      Event.setNode Node.CounterDelay 6000 ∈ s1.log ∧
      Event.setNode Node.CounterSelector counter0 ∈ s1.log ∧
      Event.setNode Node.CounterEventSource mHzTick ∈ s1.log ∧
      Event.setNode Node.CounterTriggerSource frameTriggerWait ∈ s1.log ∧
      Event.setNode Node.CounterTriggerActivation levelHigh ∈ s1.log ∧
      ∀ dflt,
        lastWritten Node.CounterDuration dflt s1.log = 14000 ∧
        lastWritten Node.CounterDelay dflt s1.log = 6000 ∧
        lastWritten Node.CounterSelector dflt s1.log = counter0 ∧
        lastWritten Node.CounterEventSource dflt s1.log = mHzTick ∧
        lastWritten Node.CounterTriggerSource dflt s1.log = frameTriggerWait ∧
        lastWritten Node.CounterTriggerActivation dflt s1.log = levelHigh := by
  obtain ⟨c, m, f, l, hc, hm, hf, hl, hlog⟩ := SetupCounterAndTimer_ok dev s s1 h
  refine ⟨c, m, f, l, hc, hm, hf, hl, ?_⟩
  rw [hlog]
  simp [lastWritten_append, lastWritten]

/-- Witness of C12: the run of `SetupCounterAndTimer` on the healthy camera. -/
theorem C12_success_programs_counter_witness :
    CounterAndTimer.SetupCounterAndTimer healthyDevice Cam.fresh
      = Outcome.ok 0 (CounterAndTimer.SetupCounterAndTimer healthyDevice Cam.fresh).state ∧
    ∃ counter0 mHzTick frameTriggerWait levelHigh,
      healthyDevice.entryValue Node.CounterSelector Entry.Counter0 = some counter0 ∧
      healthyDevice.entryValue Node.CounterEventSource Entry.MHzTick = some mHzTick ∧
      healthyDevice.entryValue Node.CounterTriggerSource Entry.FrameTriggerWait
        = some frameTriggerWait ∧
      healthyDevice.entryValue Node.CounterTriggerActivation Entry.LevelHigh = some levelHigh ∧
      Event.setNode Node.CounterDuration 14000
        ∈ (CounterAndTimer.SetupCounterAndTimer healthyDevice Cam.fresh).state.log ∧
      Event.setNode Node.CounterDelay 6000
        ∈ (CounterAndTimer.SetupCounterAndTimer healthyDevice Cam.fresh).state.log ∧
      Event.setNode Node.CounterSelector counter0
        ∈ (CounterAndTimer.SetupCounterAndTimer healthyDevice Cam.fresh).state.log ∧
      Event.setNode Node.CounterEventSource mHzTick
        ∈ (CounterAndTimer.SetupCounterAndTimer healthyDevice Cam.fresh).state.log ∧
      Event.setNode Node.CounterTriggerSource frameTriggerWait
        ∈ (CounterAndTimer.SetupCounterAndTimer healthyDevice Cam.fresh).state.log ∧
      Event.setNode Node.CounterTriggerActivation levelHigh
        ∈ (CounterAndTimer.SetupCounterAndTimer healthyDevice Cam.fresh).state.log ∧
      ∀ dflt,
        lastWritten Node.CounterDuration dflt
          (CounterAndTimer.SetupCounterAndTimer healthyDevice Cam.fresh).state.log = 14000 ∧
        lastWritten Node.CounterDelay dflt
          (CounterAndTimer.SetupCounterAndTimer healthyDevice Cam.fresh).state.log = 6000 ∧
        lastWritten Node.CounterSelector dflt
          (CounterAndTimer.SetupCounterAndTimer healthyDevice Cam.fresh).state.log = counter0 ∧
        lastWritten Node.CounterEventSource dflt
          (CounterAndTimer.SetupCounterAndTimer healthyDevice Cam.fresh).state.log = mHzTick ∧
        lastWritten Node.CounterTriggerSource dflt
          (CounterAndTimer.SetupCounterAndTimer healthyDevice Cam.fresh).state.log
            = frameTriggerWait ∧
        lastWritten Node.CounterTriggerActivation dflt
          (CounterAndTimer.SetupCounterAndTimer healthyDevice Cam.fresh).state.log
            = levelHigh :=
  ⟨by decide!, C12_success_programs_counter healthyDevice Cam.fresh _ (by decide!)⟩

/-- C13: if the `AcquisitionMode` node is not available or not writable, each
of the two `AcquireImages` functions returns `-1` and leaves the camera in the
state in which it found it: no node has been written and `BeginAcquisition` has
not been called. -/
theorem C13_locked_acquisition_mode (dev : Device) (contiguous : Bool) (s : Cam)
    (hmode : dev.available Node.AcquisitionMode = false ∨
      dev.writable Node.AcquisitionMode = false) :
    AcquisitionUserBuffer.AcquireImages dev contiguous s = Outcome.ok (-1) s ∧
    CounterAndTimer.AcquireImages dev s = Outcome.ok (-1) s := by
  have hnot : notWritable dev Node.AcquisitionMode = true := by
    unfold notWritable
    rcases hmode with h | h <;> simp [h]
  constructor
  · unfold AcquisitionUserBuffer.AcquireImages AcquisitionUserBuffer.AcquireImages.tryBlock
      AcquisitionUserBuffer.AcquireImages.prepare call tryCatch
    simp [bind_apply, hnot, returnIf]
  · unfold CounterAndTimer.AcquireImages call tryCatch
    simp [bind_apply, hnot, returnIf]

/-- Witness of C13 on the camera whose `AcquisitionMode` node cannot be
written. -/
theorem C13_locked_acquisition_mode_witness :
    (lockedModeDevice.available Node.AcquisitionMode = false ∨
      lockedModeDevice.writable Node.AcquisitionMode = false) ∧
    AcquisitionUserBuffer.AcquireImages lockedModeDevice true Cam.fresh
      = Outcome.ok (-1) Cam.fresh ∧
    CounterAndTimer.AcquireImages lockedModeDevice Cam.fresh = Outcome.ok (-1) Cam.fresh :=
  ⟨Or.inr rfl, C13_locked_acquisition_mode lockedModeDevice true Cam.fresh (Or.inr rfl)⟩

/-- C14: if the memory for the user buffers cannot be reserved (`bad_alloc`,
under either policy), `AcquireImages` returns `-1` without calling
`SetUserBuffers` and without calling `BeginAcquisition`: the camera is not
streaming more than before, and the only calls made are writes of nodes, changes
of buffer ownership and reservations of memory. -/
theorem C14_allocation_failure_aborts (dev : Device) (contiguous : Bool) (s : Cam)
    (hfail : dev.heapLimit <
      if contiguous then
        u64mul AcquisitionUserBuffer.numBuffers
          (computeBufferSize dev.deviceType
            (lastWritten Node.PayloadSize (dev.value Node.PayloadSize) s.log))
      else
        AcquisitionUserBuffer.numBuffers *
          computeBufferSize dev.deviceType
            (lastWritten Node.PayloadSize (dev.value Node.PayloadSize) s.log)) :
    ∃ s1, AcquisitionUserBuffer.AcquireImages dev contiguous s = Outcome.ok (-1) s1 ∧
      s1.streaming = s.streaming ∧
      (Event.beginAcquisition ∈ s1.log → Event.beginAcquisition ∈ s.log) ∧
      (∀ totalSize, Event.setUserBuffersContiguous totalSize ∈ s1.log →
        Event.setUserBuffersContiguous totalSize ∈ s.log) ∧
      (∀ bufferCount bufferSize, Event.setUserBuffers bufferCount bufferSize ∈ s1.log →
        Event.setUserBuffers bufferCount bufferSize ∈ s.log) ∧
      ∀ e ∈ s1.log, e ∈ s.log ∨ (∃ n v, e = Event.setNode n v) ∨
        (∃ o, e = Event.setBufferOwnership o) ∨ ∃ b, e = Event.allocate b := by
  obtain ⟨hok, hret, hstream, hlog⟩ := tryBlock_memory_short dev contiguous s hfail
  have key : ∃ s1, AcquisitionUserBuffer.AcquireImages dev contiguous s = Outcome.ok (-1) s1 ∧
      s1.streaming = s.streaming ∧
      ∀ e ∈ s1.log, e ∈ s.log ∨ (∃ n v, e = Event.setNode n v) ∨
        (∃ o, e = Event.setBufferOwnership o) ∨ ∃ b, e = Event.allocate b := by
    unfold AcquisitionUserBuffer.AcquireImages call tryCatch
    cases h : AcquisitionUserBuffer.AcquireImages.tryBlock dev contiguous s with
    | ok r s1 => exact absurd h (hok r s1)
    | ret r s1 =>
        rw [h] at hstream hlog
        have hr := hret r s1 h
        subst hr
        exact ⟨s1, by simp [bind_apply, h], hstream, hlog⟩
    | exc s1 =>
        rw [h] at hstream hlog
        simp only [Outcome.state] at hstream hlog
        by_cases ho : s1.ownership = BufferOwnership.SYSTEM
        · exact ⟨s1, by simp [bind_apply, h, pure_apply, ensureBufferOwnership, ho], hstream, hlog⟩
        · refine ⟨(s1.record (Event.setBufferOwnership BufferOwnership.SYSTEM)).withOwnership
              BufferOwnership.SYSTEM,
            by simp [bind_apply, h, pure_apply, ensureBufferOwnership, ho], hstream, ?_⟩
          intro e he
          simp only [withOwnership_log, record_log, List.mem_append, List.mem_singleton] at he
          rcases he with he | rfl
          · exact hlog e he
          · exact Or.inr (Or.inr (Or.inl ⟨_, rfl⟩))
  obtain ⟨s1, hrun, hs, hl⟩ := key
  refine ⟨s1, hrun, hs, ?_, ?_, ?_, hl⟩
  · intro h
    rcases hl _ h with h | ⟨_, _, h⟩ | ⟨_, h⟩ | ⟨_, h⟩
    · exact h
    all_goals cases h
  · intro t h
    rcases hl _ h with h | ⟨_, _, h⟩ | ⟨_, h⟩ | ⟨_, h⟩
    · exact h
    all_goals cases h
  · intro c b h
    rcases hl _ h with h | ⟨_, _, h⟩ | ⟨_, h⟩ | ⟨_, h⟩
    · exact h
    all_goals cases h

/-- Witness of C14: the camera on which only 1,000,000 bytes can be reserved,
under the contiguous policy. -/
theorem C14_allocation_failure_aborts_witness :
    (lowMemoryDevice.heapLimit <
      if true = true then
        u64mul AcquisitionUserBuffer.numBuffers
          (computeBufferSize lowMemoryDevice.deviceType
            (lastWritten Node.PayloadSize (lowMemoryDevice.value Node.PayloadSize)
              Cam.fresh.log))
      else
        AcquisitionUserBuffer.numBuffers *
          computeBufferSize lowMemoryDevice.deviceType
            (lastWritten Node.PayloadSize (lowMemoryDevice.value Node.PayloadSize)
              Cam.fresh.log)) ∧
    ∃ s1, AcquisitionUserBuffer.AcquireImages lowMemoryDevice true Cam.fresh
        = Outcome.ok (-1) s1 ∧
      s1.streaming = Cam.fresh.streaming ∧
      (Event.beginAcquisition ∈ s1.log → Event.beginAcquisition ∈ Cam.fresh.log) ∧
      (∀ totalSize, Event.setUserBuffersContiguous totalSize ∈ s1.log →
        Event.setUserBuffersContiguous totalSize ∈ Cam.fresh.log) ∧
      (∀ bufferCount bufferSize, Event.setUserBuffers bufferCount bufferSize ∈ s1.log →
        Event.setUserBuffers bufferCount bufferSize ∈ Cam.fresh.log) ∧
      ∀ e ∈ s1.log, e ∈ Cam.fresh.log ∨ (∃ n v, e = Event.setNode n v) ∨
        (∃ o, e = Event.setBufferOwnership o) ∨ ∃ b, e = Event.allocate b :=
  ⟨by decide!, C14_allocation_failure_aborts lowMemoryDevice true Cam.fresh (by decide!)⟩

/-- C15: in every run of `main` of either example program that reaches the loop
over the cameras (at least one camera is enumerated, after the current folder
could be written), the loop calls `RunSingleCamera` once on every camera, in
the order of the indices 0..N-1 and whatever the earlier calls returned; `main`
then clears the camera list and releases the system instance, and the value it
returns is 0 exactly when every call of `RunSingleCamera` returned 0. -/
theorem C15_every_camera_runs (cameras : List Device) (hcameras : cameras.length ≠ 0) :
    ((CounterAndTimer.main true cameras).1
        = cameras.enum.map (fun p => ExampleEvent.runSingleCamera p.1
              (CounterAndTimer.RunSingleCamera p.2 Cam.fresh).state)
            ++ [ExampleEvent.clearCameraList, ExampleEvent.releaseInstance] ∧
      ∃ v, (CounterAndTimer.main true cameras).2 = some v ∧
        (v = 0 ↔ ∀ dev ∈ cameras,
          ∃ s1, CounterAndTimer.RunSingleCamera dev Cam.fresh = Outcome.ok 0 s1)) ∧
    ((AcquisitionUserBuffer.main true cameras).1
        = cameras.enum.map (fun p => ExampleEvent.runSingleCamera p.1
              (AcquisitionUserBuffer.RunSingleCamera p.2 Cam.fresh).state)
            ++ [ExampleEvent.clearCameraList, ExampleEvent.releaseInstance] ∧
      ∃ v, (AcquisitionUserBuffer.main true cameras).2 = some v ∧
        (v = 0 ↔ ∀ dev ∈ cameras,
          ∃ s1, AcquisitionUserBuffer.RunSingleCamera dev Cam.fresh = Outcome.ok 0 s1)) := by
  constructor
  · obtain ⟨htrace, v, hv, hzero⟩ := runCameras_spec CounterAndTimer.RunSingleCamera
      (fun dev => CounterAndTimer_RunSingleCamera_result dev Cam.fresh) cameras 0 0 (by decide)
    unfold CounterAndTimer.main exampleMain
    simp only [Bool.not_true, Bool.false_eq_true, if_false, hcameras, hv]
    exact ⟨by rw [htrace]; rfl, v, rfl, by simpa using hzero⟩
  · obtain ⟨htrace, v, hv, hzero⟩ := runCameras_spec AcquisitionUserBuffer.RunSingleCamera
      (fun dev => AcquisitionUserBuffer_RunSingleCamera_result dev Cam.fresh) cameras 0 0
      (by decide)
    unfold AcquisitionUserBuffer.main exampleMain
    simp only [Bool.not_true, Bool.false_eq_true, if_false, hcameras, hv]
    exact ⟨by rw [htrace]; rfl, v, rfl, by simpa using hzero⟩

/-- Witness of C15: the camera without counter, whose run fails, followed by the
healthy camera. -/
theorem C15_every_camera_runs_witness :
    [noCounterDevice, healthyDevice].length ≠ 0 ∧
    ((CounterAndTimer.main true [noCounterDevice, healthyDevice]).1
        = [noCounterDevice, healthyDevice].enum.map (fun p => ExampleEvent.runSingleCamera p.1
              (CounterAndTimer.RunSingleCamera p.2 Cam.fresh).state)
            ++ [ExampleEvent.clearCameraList, ExampleEvent.releaseInstance] ∧
      ∃ v, (CounterAndTimer.main true [noCounterDevice, healthyDevice]).2 = some v ∧
        (v = 0 ↔ ∀ dev ∈ [noCounterDevice, healthyDevice],
          ∃ s1, CounterAndTimer.RunSingleCamera dev Cam.fresh = Outcome.ok 0 s1)) ∧
    ((AcquisitionUserBuffer.main true [noCounterDevice, healthyDevice]).1
        = [noCounterDevice, healthyDevice].enum.map (fun p => ExampleEvent.runSingleCamera p.1
              (AcquisitionUserBuffer.RunSingleCamera p.2 Cam.fresh).state)
            ++ [ExampleEvent.clearCameraList, ExampleEvent.releaseInstance] ∧
      ∃ v, (AcquisitionUserBuffer.main true [noCounterDevice, healthyDevice]).2 = some v ∧
        (v = 0 ↔ ∀ dev ∈ [noCounterDevice, healthyDevice],
          ∃ s1, AcquisitionUserBuffer.RunSingleCamera dev Cam.fresh = Outcome.ok 0 s1)) :=
  ⟨by decide, C15_every_camera_runs [noCounterDevice, healthyDevice] (by decide)⟩

/-- C17: when the device type is not USB3 Vision, or the `DeviceType` node is
absent, the buffer size that `AcquireImages` uses is the payload size that the
camera reports, taken as a `uint64_t` (which leaves a payload size that is not
negative unchanged) and not rounded: every `SetUserBuffers` call of the run and
every reservation of memory is sized with it, and a run that begins the
acquisition has handed over buffers of that size. -/
theorem C17_other_transport_keeps_payload (dev : Device) (contiguous : Bool) (s : Cam)
    (hother : dev.deviceType ≠ some DeviceType.USB3Vision) :
    ∃ calls, (AcquisitionUserBuffer.AcquireImages dev contiguous s).state.log = s.log ++ calls ∧
      (∀ bufferCount bufferSize, Event.setUserBuffers bufferCount bufferSize ∈ calls →
        bufferSize = u64ofInt64 (lastWritten Node.PayloadSize (dev.value Node.PayloadSize) s.log)) ∧
      (∀ totalSize, Event.setUserBuffersContiguous totalSize ∈ calls →
        totalSize = u64mul AcquisitionUserBuffer.numBuffers
          (u64ofInt64 (lastWritten Node.PayloadSize (dev.value Node.PayloadSize) s.log))) ∧
      (∀ bytes, Event.allocate bytes ∈ calls →
        bytes = if contiguous then
            u64mul AcquisitionUserBuffer.numBuffers
              (u64ofInt64 (lastWritten Node.PayloadSize (dev.value Node.PayloadSize) s.log))
          else u64ofInt64 (lastWritten Node.PayloadSize (dev.value Node.PayloadSize) s.log)) ∧
      (Event.beginAcquisition ∈ calls →
        if contiguous then
          Event.setUserBuffersContiguous (u64mul AcquisitionUserBuffer.numBuffers
            (u64ofInt64 (lastWritten Node.PayloadSize (dev.value Node.PayloadSize) s.log))) ∈ calls
        else
          Event.setUserBuffers AcquisitionUserBuffer.numBuffers
            (u64ofInt64 (lastWritten Node.PayloadSize (dev.value Node.PayloadSize) s.log)) ∈ calls) ∧
      (0 ≤ lastWritten Node.PayloadSize (dev.value Node.PayloadSize) s.log →
        lastWritten Node.PayloadSize (dev.value Node.PayloadSize) s.log < 2 ^ 63 →
        (u64ofInt64 (lastWritten Node.PayloadSize (dev.value Node.PayloadSize) s.log) : Int)
          = lastWritten Node.PayloadSize (dev.value Node.PayloadSize) s.log) := by
  have hsize : computeBufferSize dev.deviceType
      (lastWritten Node.PayloadSize (dev.value Node.PayloadSize) s.log)
      = u64ofInt64 (lastWritten Node.PayloadSize (dev.value Node.PayloadSize) s.log) := by
    unfold computeBufferSize alignedBufferSize
    rw [if_neg hother]
  obtain ⟨calls, hlog, hcases⟩ := AcquireImages_buffer_calls dev contiguous s
  rw [hsize] at hcases
  obtain ⟨h1, h2, h3, h4⟩ := buffer_calls_sized contiguous _ _ calls _ hcases
  refine ⟨calls, hlog, fun c b he => (h1 c b he).2.2.1, fun t he => (h2 t he).2.1, h3, h4, ?_⟩
  intro h0 h63
  unfold u64ofInt64 u64Size
  omega

/-- Witness of C17: a payload of 2,000,000 bytes on GigE Vision with the
non-contiguous policy, where the run hands over ten buffers of 2,000,000 bytes
and begins the acquisition; and the same payload on a camera without
`DeviceType` node with the contiguous policy, where it hands over one region of
20,000,000 bytes. -/
theorem C17_other_transport_keeps_payload_witness :
    noDeviceTypeDevice.deviceType ≠ some DeviceType.USB3Vision ∧
    (AcquisitionUserBuffer.AcquireImages noDeviceTypeDevice true Cam.fresh).state.log.take 6
      = [Event.setNode Node.AcquisitionMode 1, Event.setNode Node.StreamBufferCountMode 1,
          Event.setBufferOwnership BufferOwnership.USER, Event.allocate 20000000,
          Event.setUserBuffersContiguous 20000000, Event.beginAcquisition] ∧
    (payloadDevice DeviceType.GigEVision 2000000).deviceType ≠ some DeviceType.USB3Vision ∧
    (AcquisitionUserBuffer.AcquireImages (payloadDevice DeviceType.GigEVision 2000000) false
        Cam.fresh).state.log.take 15
      = [Event.setNode Node.AcquisitionMode 1, Event.setNode Node.StreamBufferCountMode 1,
          Event.setBufferOwnership BufferOwnership.USER,
          Event.allocate 2000000, Event.allocate 2000000, Event.allocate 2000000,
          Event.allocate 2000000, Event.allocate 2000000, Event.allocate 2000000,
          Event.allocate 2000000, Event.allocate 2000000, Event.allocate 2000000,
          Event.allocate 2000000, Event.setUserBuffers 10 2000000, Event.beginAcquisition] ∧
    ∃ calls,
      (AcquisitionUserBuffer.AcquireImages (payloadDevice DeviceType.GigEVision 2000000) false
          Cam.fresh).state.log = Cam.fresh.log ++ calls ∧
      (∀ bufferCount bufferSize, Event.setUserBuffers bufferCount bufferSize ∈ calls →
        bufferSize = u64ofInt64 (lastWritten Node.PayloadSize
          ((payloadDevice DeviceType.GigEVision 2000000).value Node.PayloadSize) Cam.fresh.log)) ∧
      (∀ totalSize, Event.setUserBuffersContiguous totalSize ∈ calls →
        totalSize = u64mul AcquisitionUserBuffer.numBuffers
          (u64ofInt64 (lastWritten Node.PayloadSize
            ((payloadDevice DeviceType.GigEVision 2000000).value Node.PayloadSize)
            Cam.fresh.log))) ∧
      (∀ bytes, Event.allocate bytes ∈ calls →
        bytes = if false = true then
            u64mul AcquisitionUserBuffer.numBuffers
              (u64ofInt64 (lastWritten Node.PayloadSize
                ((payloadDevice DeviceType.GigEVision 2000000).value Node.PayloadSize)
                Cam.fresh.log))
          else u64ofInt64 (lastWritten Node.PayloadSize
            ((payloadDevice DeviceType.GigEVision 2000000).value Node.PayloadSize)
            Cam.fresh.log)) ∧
      (Event.beginAcquisition ∈ calls →
        if false = true then
          Event.setUserBuffersContiguous (u64mul AcquisitionUserBuffer.numBuffers
            (u64ofInt64 (lastWritten Node.PayloadSize
              ((payloadDevice DeviceType.GigEVision 2000000).value Node.PayloadSize)
              Cam.fresh.log))) ∈ calls
        else
          Event.setUserBuffers AcquisitionUserBuffer.numBuffers
            (u64ofInt64 (lastWritten Node.PayloadSize
              ((payloadDevice DeviceType.GigEVision 2000000).value Node.PayloadSize)
              Cam.fresh.log)) ∈ calls) ∧
      (0 ≤ lastWritten Node.PayloadSize
          ((payloadDevice DeviceType.GigEVision 2000000).value Node.PayloadSize) Cam.fresh.log →
        lastWritten Node.PayloadSize
          ((payloadDevice DeviceType.GigEVision 2000000).value Node.PayloadSize) Cam.fresh.log
            < 2 ^ 63 →
        (u64ofInt64 (lastWritten Node.PayloadSize
            ((payloadDevice DeviceType.GigEVision 2000000).value Node.PayloadSize)
            Cam.fresh.log) : Int)
          = lastWritten Node.PayloadSize
              ((payloadDevice DeviceType.GigEVision 2000000).value Node.PayloadSize)
              Cam.fresh.log) :=
  ⟨by decide, by decide!, by decide, by decide!,
    C17_other_transport_keeps_payload (payloadDevice DeviceType.GigEVision 2000000) false
      Cam.fresh (by decide)⟩

/-- C18: with the contiguous policy, a run of `AcquireImages` that calls
`SetUserBuffers` has reserved one region of exactly `numBuffers * bufferSize`
bytes (the product as the code computes it, in 64-bit arithmetic) and handed
that region over; with the non-contiguous policy, a run that calls
`SetUserBuffers` has reserved exactly `numBuffers` regions of exactly
`bufferSize` bytes each and handed these over. A run that begins the
acquisition has called `SetUserBuffers`. In both cases `bufferSize` is the
aligned size of the reported payload. When both policies hand their buffers
over on a camera whose memory is smaller than the 64-bit address space, both
have reserved the same total number of bytes, `numBuffers * bufferSize`. -/
theorem C18_policies_reserve_same_total (dev : Device) (s : Cam)
    (hheap : dev.heapLimit < u64Size) :
    ∃ bufferSize callsC callsN,
      bufferSize = alignedBufferSize dev.deviceType
        (u64ofInt64 (lastWritten Node.PayloadSize (dev.value Node.PayloadSize) s.log)) ∧
      (AcquisitionUserBuffer.AcquireImages dev true s).state.log = s.log ++ callsC ∧
      (AcquisitionUserBuffer.AcquireImages dev false s).state.log = s.log ++ callsN ∧
      (∀ totalSize, Event.setUserBuffersContiguous totalSize ∈ callsC →
        callsC.filter Event.isBufferCall
          = [Event.allocate (u64mul AcquisitionUserBuffer.numBuffers bufferSize),
              Event.setUserBuffersContiguous
                (u64mul AcquisitionUserBuffer.numBuffers bufferSize)]) ∧
      (∀ bufferCount size, Event.setUserBuffers bufferCount size ∈ callsN →
        callsN.filter Event.isBufferCall
          = List.replicate AcquisitionUserBuffer.numBuffers (Event.allocate bufferSize) ++
              [Event.setUserBuffers AcquisitionUserBuffer.numBuffers bufferSize]) ∧
      (∀ bufferCount size, Event.setUserBuffers bufferCount size ∉ callsC) ∧
      (∀ totalSize, Event.setUserBuffersContiguous totalSize ∉ callsN) ∧
      (Event.beginAcquisition ∈ callsC →
        Event.setUserBuffersContiguous (u64mul AcquisitionUserBuffer.numBuffers bufferSize)
          ∈ callsC) ∧
      (Event.beginAcquisition ∈ callsN →
        Event.setUserBuffers AcquisitionUserBuffer.numBuffers bufferSize ∈ callsN) ∧
      ((∃ totalSize, Event.setUserBuffersContiguous totalSize ∈ callsC) →
        (∃ bufferCount size, Event.setUserBuffers bufferCount size ∈ callsN) →
        AcquisitionUserBuffer.reservedBytes callsC
            = AcquisitionUserBuffer.numBuffers * bufferSize ∧
          AcquisitionUserBuffer.reservedBytes callsN
            = AcquisitionUserBuffer.numBuffers * bufferSize) := by
  obtain ⟨callsC, hlogC, hcasesC⟩ := AcquireImages_buffer_calls dev true s
  obtain ⟨callsN, hlogN, hcasesN⟩ := AcquireImages_buffer_calls dev false s
  obtain ⟨c1, c2, -, c4⟩ := buffer_calls_sized true _ _ callsC _ hcasesC
  obtain ⟨n1, n2, -, n4⟩ := buffer_calls_sized false _ _ callsN _ hcasesN
  refine ⟨computeBufferSize dev.deviceType
      (lastWritten Node.PayloadSize (dev.value Node.PayloadSize) s.log),
    callsC, callsN, rfl, hlogC, hlogN, fun t he => (c2 t he).2.2.2,
    fun c b he => (n1 c b he).2.2.2.2, fun c b he => by simpa using (c1 c b he).1,
    fun t he => by simpa using (n2 t he).1, by simpa using c4, by simpa using n4, ?_⟩
  rintro ⟨t, ht⟩ ⟨c, b, hb⟩
  obtain ⟨-, -, -, hfullC⟩ := c2 t ht
  obtain ⟨-, -, -, hfit, hfullN⟩ := n1 c b hb
  have hmul : u64mul AcquisitionUserBuffer.numBuffers
      (computeBufferSize dev.deviceType
        (lastWritten Node.PayloadSize (dev.value Node.PayloadSize) s.log))
      = AcquisitionUserBuffer.numBuffers *
          computeBufferSize dev.deviceType
            (lastWritten Node.PayloadSize (dev.value Node.PayloadSize) s.log) := by
    unfold u64mul
    exact Nat.mod_eq_of_lt (by omega)
  constructor
  · rw [← reservedBytes_filter, hfullC, hmul]
    simp [AcquisitionUserBuffer.reservedBytes]
  · rw [← reservedBytes_filter, hfullN, reservedBytes_append, reservedBytes_replicate]
    simp [AcquisitionUserBuffer.reservedBytes]

/-- Witness of C18: the healthy camera (payload 2,000,000 bytes on USB3 Vision,
buffers of 2,000,896 bytes), on which both policies hand their buffers over and
begin the acquisition: one region of 20,008,960 bytes, and ten regions of
2,000,896 bytes. -/
theorem C18_policies_reserve_same_total_witness :
    healthyDevice.heapLimit < u64Size ∧
    (AcquisitionUserBuffer.AcquireImages healthyDevice true Cam.fresh).state.log.take 6
      = [Event.setNode Node.AcquisitionMode 1, Event.setNode Node.StreamBufferCountMode 1,
          Event.setBufferOwnership BufferOwnership.USER, Event.allocate 20008960,
          Event.setUserBuffersContiguous 20008960, Event.beginAcquisition] ∧
    (AcquisitionUserBuffer.AcquireImages healthyDevice false Cam.fresh).state.log.take 15
      = [Event.setNode Node.AcquisitionMode 1, Event.setNode Node.StreamBufferCountMode 1,
          Event.setBufferOwnership BufferOwnership.USER,
          Event.allocate 2000896, Event.allocate 2000896, Event.allocate 2000896,
          Event.allocate 2000896, Event.allocate 2000896, Event.allocate 2000896,
          Event.allocate 2000896, Event.allocate 2000896, Event.allocate 2000896,
          Event.allocate 2000896, Event.setUserBuffers 10 2000896, Event.beginAcquisition] ∧
    ∃ bufferSize callsC callsN,
      bufferSize = alignedBufferSize healthyDevice.deviceType
        (u64ofInt64 (lastWritten Node.PayloadSize (healthyDevice.value Node.PayloadSize)
          Cam.fresh.log)) ∧
      (AcquisitionUserBuffer.AcquireImages healthyDevice true Cam.fresh).state.log
        = Cam.fresh.log ++ callsC ∧
      (AcquisitionUserBuffer.AcquireImages healthyDevice false Cam.fresh).state.log
        = Cam.fresh.log ++ callsN ∧
      (∀ totalSize, Event.setUserBuffersContiguous totalSize ∈ callsC →
        callsC.filter Event.isBufferCall
          = [Event.allocate (u64mul AcquisitionUserBuffer.numBuffers bufferSize),
              Event.setUserBuffersContiguous
                (u64mul AcquisitionUserBuffer.numBuffers bufferSize)]) ∧
      (∀ bufferCount size, Event.setUserBuffers bufferCount size ∈ callsN →
        callsN.filter Event.isBufferCall
          = List.replicate AcquisitionUserBuffer.numBuffers (Event.allocate bufferSize) ++
              [Event.setUserBuffers AcquisitionUserBuffer.numBuffers bufferSize]) ∧
      (∀ bufferCount size, Event.setUserBuffers bufferCount size ∉ callsC) ∧
      (∀ totalSize, Event.setUserBuffersContiguous totalSize ∉ callsN) ∧
      (Event.beginAcquisition ∈ callsC →
        Event.setUserBuffersContiguous (u64mul AcquisitionUserBuffer.numBuffers bufferSize)
          ∈ callsC) ∧
      (Event.beginAcquisition ∈ callsN →
        Event.setUserBuffers AcquisitionUserBuffer.numBuffers bufferSize ∈ callsN) ∧
      ((∃ totalSize, Event.setUserBuffersContiguous totalSize ∈ callsC) →
        (∃ bufferCount size, Event.setUserBuffers bufferCount size ∈ callsN) →
        AcquisitionUserBuffer.reservedBytes callsC
            = AcquisitionUserBuffer.numBuffers * bufferSize ∧
          AcquisitionUserBuffer.reservedBytes callsN
            = AcquisitionUserBuffer.numBuffers * bufferSize) :=
  ⟨by decide!, by decide!, by decide!,
    C18_policies_reserve_same_total healthyDevice Cam.fresh (by decide!)⟩

/-- C20 (code defect): three writes are not preceded by a check that the node
is writable. On a camera whose `TriggerMode` node is available and readable but
not writable, the guards of `ConfigureExposureandTrigger` (line 392) and of
`ResetTrigger` (line 591), which test readability, let the run pass, and the
write `SetIntValue` (lines 406 and 604) is attempted and raises; each function
then returns `-1` from its handler. On a camera whose `AcquisitionMode` node is
not writable, the constructor `Flir::Flir` attempts the write (line 18) without
any check, and the exception leaves the constructor. -/
theorem C20_unchecked_writes :
    notReadable readOnlyTriggerDevice Node.TriggerMode = false ∧
    notWritable readOnlyTriggerDevice Node.TriggerMode = true ∧
    readOnlyTriggerDevice.entryValue Node.TriggerMode Entry.Off = some 0 ∧
    (∀ s, setValue readOnlyTriggerDevice Node.TriggerMode 0 s = Outcome.exc s) ∧
    CounterAndTimer.ConfigureExposureandTrigger readOnlyTriggerDevice Cam.fresh
      = Outcome.ok (-1) ⟨BufferOwnership.SYSTEM, false, false, 0,
          [Event.setNode Node.ExposureAuto 0, Event.setNode Node.ExposureTime 5000]⟩ ∧
    CounterAndTimer.ResetTrigger readOnlyTriggerDevice Cam.fresh = Outcome.ok (-1) Cam.fresh ∧
    notWritable lockedModeDevice Node.AcquisitionMode = true ∧
    Flir.Flir lockedModeDevice Cam.fresh
      = Outcome.exc ⟨BufferOwnership.SYSTEM, true, false, 0, [Event.init]⟩ := by
  refine ⟨by decide!, by decide!, by decide!, fun s => rfl, by decide!, by decide!, by decide!,
    by decide!⟩

/-- C21: a run of `ConfigureDigitalIO` that returns 0 has made, on a camera
whose model name contains "BFS", exactly the writes `LineSelector = Line1`,
`LineSource = Counter0Active`, `LineSelector = Line2`, `V3_3Enable = true`, in
this order; and on a camera whose model name contains "ORX" and not "BFS",
exactly the writes `LineSelector = Line2`, `LineMode = Output`,
`LineSource = Counter0Active`, in this order. -/
theorem C21_digital_io_writes_per_family (dev : Device) (s s1 : Cam)
    (h : CounterAndTimer.ConfigureDigitalIO dev s = Outcome.ok 0 s1) :
    (CounterAndTimer.modelContains dev.modelName CounterAndTimer.cameraFamilyBFS = true →
      ∃ line1 counter0Active line2,
        dev.entryValue Node.LineSelector Entry.Line1 = some line1 ∧
        dev.entryValue Node.LineSource Entry.Counter0Active = some counter0Active ∧
        dev.entryValue Node.LineSelector Entry.Line2 = some line2 ∧
        s1.log = s.log ++ [Event.setNode Node.LineSelector line1,
          Event.setNode Node.LineSource counter0Active, Event.setNode Node.LineSelector line2,
          Event.setNode Node.V3_3Enable 1]) ∧
    (CounterAndTimer.modelContains dev.modelName CounterAndTimer.cameraFamilyBFS = false →
      CounterAndTimer.modelContains dev.modelName CounterAndTimer.cameraFamilyOryx = true →
      ∃ line2 output counter0Active,
        dev.entryValue Node.LineSelector Entry.Line2 = some line2 ∧
        dev.entryValue Node.LineMode Entry.Output = some output ∧
        dev.entryValue Node.LineSource Entry.Counter0Active = some counter0Active ∧
        s1.log = s.log ++ [Event.setNode Node.LineSelector line2,
          Event.setNode Node.LineMode output, Event.setNode Node.LineSource counter0Active]) := by
  unfold CounterAndTimer.ConfigureDigitalIO at h
  rw [call_tryCatch_eq_ok] at h
  constructor
  · intro hfamily
    simp only [CounterAndTimer.ConfigureDigitalIO.selectLine,
      CounterAndTimer.ConfigureDigitalIO.enableVoltage, hfamily, if_true,
      bind_eq_ok, bind_eq_ret, pure_eq_ok, pure_ne_ret, returnIf_eq_ok, returnIf_eq_ret,
      entryOrReturn_eq_ok, entryOrReturn_eq_ret, setValue_eq_ok, setValue_ne_ret] at h
    simp [and_assoc, record_log] at h
    obtain ⟨-, -, s2, ⟨line1, h1, -, -, rfl⟩, -, c, hc, -, -, line2, h2, -, -, -, -, rfl⟩ := h
    exact ⟨line1, c, line2, h1, hc, h2, by simp [record_log]⟩
  · intro hbfs horyx
    simp only [CounterAndTimer.ConfigureDigitalIO.selectLine,
      CounterAndTimer.ConfigureDigitalIO.enableVoltage, hbfs, horyx, if_true, if_false,
      Bool.false_eq_true,
      bind_eq_ok, bind_eq_ret, pure_eq_ok, pure_ne_ret, returnIf_eq_ok, returnIf_eq_ret,
      entryOrReturn_eq_ok, entryOrReturn_eq_ret, setValue_eq_ok, setValue_ne_ret] at h
    simp [and_assoc, record_log] at h
    obtain ⟨-, -, s2, ⟨line2, h2, -, -, -, output, ho, -, -, rfl⟩, -, c, hc, -, -, rfl⟩ := h
    exact ⟨line2, output, c, h2, ho, hc, by simp [record_log]⟩

/-- Witness of C21: the run on the healthy camera, of the BFS family, and the
run on the camera of the Oryx family. -/
theorem C21_digital_io_writes_per_family_witness :
    (CounterAndTimer.ConfigureDigitalIO healthyDevice Cam.fresh
        = Outcome.ok 0 ⟨BufferOwnership.SYSTEM, false, false, 0,
            [Event.setNode Node.LineSelector 1, Event.setNode Node.LineSource 1,
              Event.setNode Node.LineSelector 1, Event.setNode Node.V3_3Enable 1]⟩ ∧
      CounterAndTimer.modelContains healthyDevice.modelName CounterAndTimer.cameraFamilyBFS
        = true ∧
      ∃ line1 counter0Active line2,
        healthyDevice.entryValue Node.LineSelector Entry.Line1 = some line1 ∧
        healthyDevice.entryValue Node.LineSource Entry.Counter0Active = some counter0Active ∧
        healthyDevice.entryValue Node.LineSelector Entry.Line2 = some line2 ∧
        [Event.setNode Node.LineSelector 1, Event.setNode Node.LineSource 1,
            Event.setNode Node.LineSelector 1, Event.setNode Node.V3_3Enable 1]
          = Cam.fresh.log ++ [Event.setNode Node.LineSelector line1,
              Event.setNode Node.LineSource counter0Active,
              Event.setNode Node.LineSelector line2, Event.setNode Node.V3_3Enable 1]) ∧
    (CounterAndTimer.ConfigureDigitalIO oryxDevice Cam.fresh
        = Outcome.ok 0 ⟨BufferOwnership.SYSTEM, false, false, 0,
            [Event.setNode Node.LineSelector 1, Event.setNode Node.LineMode 1,
              Event.setNode Node.LineSource 1]⟩ ∧
      CounterAndTimer.modelContains oryxDevice.modelName CounterAndTimer.cameraFamilyBFS
        = false ∧
      CounterAndTimer.modelContains oryxDevice.modelName CounterAndTimer.cameraFamilyOryx
        = true ∧
      ∃ line2 output counter0Active,
        oryxDevice.entryValue Node.LineSelector Entry.Line2 = some line2 ∧
        oryxDevice.entryValue Node.LineMode Entry.Output = some output ∧
        oryxDevice.entryValue Node.LineSource Entry.Counter0Active = some counter0Active ∧
        [Event.setNode Node.LineSelector 1, Event.setNode Node.LineMode 1,
            Event.setNode Node.LineSource 1]
          = Cam.fresh.log ++ [Event.setNode Node.LineSelector line2,
              Event.setNode Node.LineMode output,
              Event.setNode Node.LineSource counter0Active]) :=
  ⟨⟨by decide!, by decide!,
      (C21_digital_io_writes_per_family healthyDevice Cam.fresh
        ⟨BufferOwnership.SYSTEM, false, false, 0,
          [Event.setNode Node.LineSelector 1, Event.setNode Node.LineSource 1,
            Event.setNode Node.LineSelector 1, Event.setNode Node.V3_3Enable 1]⟩
        (by decide!)).1 (by decide!)⟩,
    ⟨by decide!, by decide!, by decide!,
      (C21_digital_io_writes_per_family oryxDevice Cam.fresh
        ⟨BufferOwnership.SYSTEM, false, false, 0,
          [Event.setNode Node.LineSelector 1, Event.setNode Node.LineMode 1,
            Event.setNode Node.LineSource 1]⟩
        (by decide!)).2 (by decide!) (by decide!)⟩⟩

/-- C22 (violated by the code): on a camera without the `CounterSelector` node,
`RunSingleCamera` of CounterAndTimer.cpp calls `Init`, leaves through
`return err;` and never calls `DeInit`; `main` then clears the camera list and
releases the system instance while that camera is still initialised. The same
happens when `ConfigureDigitalIO` or `ConfigureExposureandTrigger` returns an
error. `RunSingleCamera` of AcquisitionUserBuffer.cpp, which has no such
return, deinitialises the same camera. -/
theorem C22_error_return_skips_deinit :
    CounterAndTimer.main true [noCounterDevice]
      = ([ExampleEvent.runSingleCamera 0
            ⟨BufferOwnership.SYSTEM, true, false, 0, [Event.init]⟩,
          ExampleEvent.clearCameraList, ExampleEvent.releaseInstance], some (-1)) ∧
    (∀ dev ∈ [noCounterDevice, noCounterOutputDevice, readOnlyTriggerDevice],
      (CounterAndTimer.RunSingleCamera dev Cam.fresh).state.initialized = true ∧
      Event.init ∈ (CounterAndTimer.RunSingleCamera dev Cam.fresh).state.log ∧
      Event.deInit ∉ (CounterAndTimer.RunSingleCamera dev Cam.fresh).state.log) ∧
    (AcquisitionUserBuffer.RunSingleCamera noCounterDevice Cam.fresh).state.initialized
      = false ∧
    Event.deInit ∈ (AcquisitionUserBuffer.RunSingleCamera noCounterDevice Cam.fresh).state.log ∧
    (CounterAndTimer.RunSingleCamera healthyDevice Cam.fresh).state.initialized = false := by
  refine ⟨by decide!, ?_, by decide!, by decide!, by decide!⟩
  intro dev hdev
  simp only [List.mem_cons, List.mem_singleton, List.not_mem_nil, or_false] at hdev
  rcases hdev with rfl | rfl | rfl <;> decide!

/-- C23: `RunSingleCamera` of CounterAndTimer.cpp always returns, and in every
run in which it calls `BeginAcquisition` the calls made before that call
contain exactly one write of `CounterDuration` (the value 14000) and exactly
one write of `CounterDelay` (the value 6000), and the calls made after it
contain no write of either register and no second `BeginAcquisition`. -/
theorem C23_counter_written_once_before_streaming (dev : Device) (s : Cam) :
    ∃ r s1 calls, CounterAndTimer.RunSingleCamera dev s = Outcome.ok r s1 ∧
      s1.log = s.log ++ calls ∧
      (Event.beginAcquisition ∈ calls →
        ∃ pre post, calls = pre ++ Event.beginAcquisition :: post ∧
          Event.beginAcquisition ∉ pre ∧ Event.beginAcquisition ∉ post ∧
          pre.filter (Event.writes Node.CounterDuration)
            = [Event.setNode Node.CounterDuration 14000] ∧
          pre.filter (Event.writes Node.CounterDelay)
            = [Event.setNode Node.CounterDelay 6000] ∧
          post.filter (Event.writes Node.CounterDuration) = [] ∧
          post.filter (Event.writes Node.CounterDelay) = []) := by
  obtain ⟨r, s1, hrun, -⟩ := CounterAndTimer_RunSingleCamera_result dev s
  have hstate : s1 = (CounterAndTimer.RunSingleCamera dev s).state := by rw [hrun]; rfl
  refine ⟨r, s1, ?_⟩
  rw [hstate]
  suffices key : ∃ calls, (CounterAndTimer.RunSingleCamera dev s).state.log = s.log ++ calls ∧
      (Event.beginAcquisition ∈ calls →
        ∃ pre post, calls = pre ++ Event.beginAcquisition :: post ∧
          Event.beginAcquisition ∉ pre ∧ Event.beginAcquisition ∉ post ∧
          pre.filter (Event.writes Node.CounterDuration)
            = [Event.setNode Node.CounterDuration 14000] ∧
          pre.filter (Event.writes Node.CounterDelay)
            = [Event.setNode Node.CounterDelay 6000] ∧
          post.filter (Event.writes Node.CounterDuration) = [] ∧
          post.filter (Event.writes Node.CounterDelay) = []) by
    obtain ⟨calls, h1, h2⟩ := key
    exact ⟨calls, by rw [← hstate]; exact hrun, h1, h2⟩
  unfold CounterAndTimer.RunSingleCamera
  rw [call_tryCatch_state]
  obtain ⟨r0, hprint⟩ := PrintDeviceInfo_run dev s
  rw [bind_apply, hprint]
  simp only
  rw [bind_apply]
  cases hinit : dev.throws Api.Init
  · simp only [camInit, hinit, Bool.false_eq_true, if_false]
    obtain ⟨err, s2, hsetup, herr⟩ :=
      SetupCounterAndTimer_result dev ((s.record Event.init).withInitialized true)
    rw [bind_apply, hsetup]
    simp only
    obtain ⟨setup, hlog2, hsetupCalls⟩ :=
      SetupCounterAndTimer_adds dev ((s.record Event.init).withInitialized true)
    rw [hsetup] at hlog2
    simp only [Outcome.state, Cam.withInitialized, record_log] at hlog2
    have hlog2a : s2.log = s.log ++ (Event.init :: setup) := by
      rw [hlog2]
      cases s
      simp [Cam.record]
    rcases herr with rfl | rfl
    · obtain ⟨c, m, f, l, -, -, -, -, hlogS⟩ :=
        SetupCounterAndTimer_ok dev ((s.record Event.init).withInitialized true) s2 hsetup
      rw [hlog2] at hlogS
      have hsetupEq := List.append_cancel_left hlogS
      obtain ⟨tail, htail, hmarks⟩ := RunSingleCamera_after_setup dev r0 0 s2
      refine ⟨Event.init :: setup ++ tail, ?_, fun hbegin => ?_⟩
      · rw [htail, hlog2a]
        simp
      · rcases hmarks with hquiet | ⟨pre, post, rfl, hpre, hpost⟩
        · exfalso
          have hnot := quiet_not_begin tail hquiet
          simp only [List.cons_append, List.mem_cons, List.mem_append, reduceCtorEq,
            false_or] at hbegin
          rcases hbegin with h | h
          · exact hsetupCalls _ h rfl
          · exact hnot h
        · refine ⟨Event.init :: setup ++ pre, post, by simp, ?_, quiet_not_begin post hpost,
            ?_, ?_, quiet_filter _ post hpost (Or.inl rfl), quiet_filter _ post hpost (Or.inr rfl)⟩
          · simp only [List.cons_append, List.mem_cons, List.mem_append, reduceCtorEq,
              false_or, not_or]
            exact ⟨fun h => hsetupCalls _ h rfl, quiet_not_begin pre hpre⟩
          · rw [List.cons_append, List.filter_cons, List.filter_append,
              quiet_filter _ pre hpre (Or.inl rfl), hsetupEq]
            simp [Event.writes]
          · rw [List.cons_append, List.filter_cons, List.filter_append,
              quiet_filter _ pre hpre (Or.inr rfl), hsetupEq]
            simp [Event.writes]
    · refine ⟨Event.init :: setup, ?_, fun hbegin => ?_⟩
      · simp [bind_apply, returnIf, Outcome.state, hlog2a]
      · exfalso
        simp only [List.mem_cons, reduceCtorEq, false_or] at hbegin
        exact hsetupCalls _ hbegin rfl
  · refine ⟨[Event.init], ?_, fun h => ?_⟩
    · simp [camInit, hinit, Outcome.state, record_log]
    · simp at h

/-- Witness of C23: the run on the healthy camera, which calls
`BeginAcquisition`. -/
theorem C23_counter_written_once_before_streaming_witness :
    Event.beginAcquisition ∈ (CounterAndTimer.RunSingleCamera healthyDevice Cam.fresh).state.log ∧
    ∃ r s1 calls, CounterAndTimer.RunSingleCamera healthyDevice Cam.fresh = Outcome.ok r s1 ∧
      s1.log = Cam.fresh.log ++ calls ∧
      (Event.beginAcquisition ∈ calls →
        ∃ pre post, calls = pre ++ Event.beginAcquisition :: post ∧
          Event.beginAcquisition ∉ pre ∧ Event.beginAcquisition ∉ post ∧
          pre.filter (Event.writes Node.CounterDuration)
            = [Event.setNode Node.CounterDuration 14000] ∧
          pre.filter (Event.writes Node.CounterDelay)
            = [Event.setNode Node.CounterDelay 6000] ∧
          post.filter (Event.writes Node.CounterDuration) = [] ∧
          post.filter (Event.writes Node.CounterDelay) = []) :=
  ⟨by decide!, C23_counter_written_once_before_streaming healthyDevice Cam.fresh⟩

/-- C26: whenever `ResetTrigger` returns 0 it has made exactly one call, the
write of the value of the entry `Off` to `TriggerMode`: after it the value last
written to `TriggerMode` is `Off`, every other node, `TriggerSource` among them,
holds the value last written to it before the call, and the rest of the camera
state is unchanged. -/
theorem C26_reset_changes_only_trigger_mode (dev : Device) (s s1 : Cam)
    (h : CounterAndTimer.ResetTrigger dev s = Outcome.ok 0 s1) :
    ∃ off, dev.entryValue Node.TriggerMode Entry.Off = some off ∧
      s1 = s.record (Event.setNode Node.TriggerMode off) ∧
      (∀ dflt, lastWritten Node.TriggerMode dflt s1.log = off) ∧
      (∀ n, n ≠ Node.TriggerMode → ∀ dflt, lastWritten n dflt s1.log = lastWritten n dflt s.log) ∧
      ∀ dflt, lastWritten Node.TriggerSource dflt s1.log
        = lastWritten Node.TriggerSource dflt s.log := by
  unfold CounterAndTimer.ResetTrigger at h
  rw [call_tryCatch_eq_ok] at h
  simp only [bind_eq_ok, bind_eq_ret, pure_eq_ok, pure_ne_ret, returnIf_eq_ok, returnIf_eq_ret,
    entryOrReturn_eq_ok, entryOrReturn_eq_ret, setValue_eq_ok, setValue_ne_ret] at h
  simp [and_assoc] at h
  obtain ⟨-, off, hoff, -, -, rfl⟩ := h
  have hother : ∀ n, n ≠ Node.TriggerMode → ∀ dflt,
      lastWritten n dflt (s.record (Event.setNode Node.TriggerMode off)).log
        = lastWritten n dflt s.log := by
    intro n hn dflt
    have hn1 : ¬ Node.TriggerMode = n := fun e => hn e.symm
    simp [record_log, lastWritten_append, lastWritten, hn1]
  refine ⟨off, hoff, rfl, ?_, hother, hother Node.TriggerSource (by decide)⟩
  intro dflt
  simp [record_log, lastWritten_append, lastWritten]

/-- Witness of C26: the run of `ResetTrigger` on the healthy camera after the
trigger source has been set to 7. -/
theorem C26_reset_changes_only_trigger_mode_witness :
    CounterAndTimer.ResetTrigger healthyDevice
        ⟨BufferOwnership.SYSTEM, true, false, 0, [Event.setNode Node.TriggerSource 7]⟩
      = Outcome.ok 0 ⟨BufferOwnership.SYSTEM, true, false, 0,
          [Event.setNode Node.TriggerSource 7, Event.setNode Node.TriggerMode 0]⟩ ∧
    ∃ off, healthyDevice.entryValue Node.TriggerMode Entry.Off = some off ∧
      (⟨BufferOwnership.SYSTEM, true, false, 0,
          [Event.setNode Node.TriggerSource 7, Event.setNode Node.TriggerMode 0]⟩ : Cam)
        = Cam.record (Event.setNode Node.TriggerMode off)
            ⟨BufferOwnership.SYSTEM, true, false, 0, [Event.setNode Node.TriggerSource 7]⟩ ∧
      (∀ dflt, lastWritten Node.TriggerMode dflt
        [Event.setNode Node.TriggerSource 7, Event.setNode Node.TriggerMode 0] = off) ∧
      (∀ n, n ≠ Node.TriggerMode → ∀ dflt,
        lastWritten n dflt [Event.setNode Node.TriggerSource 7, Event.setNode Node.TriggerMode 0]
          = lastWritten n dflt [Event.setNode Node.TriggerSource 7]) ∧
      ∀ dflt, lastWritten Node.TriggerSource dflt
          [Event.setNode Node.TriggerSource 7, Event.setNode Node.TriggerMode 0]
        = lastWritten Node.TriggerSource dflt [Event.setNode Node.TriggerSource 7] :=
  ⟨by decide!,
    C26_reset_changes_only_trigger_mode healthyDevice
      ⟨BufferOwnership.SYSTEM, true, false, 0, [Event.setNode Node.TriggerSource 7]⟩
      ⟨BufferOwnership.SYSTEM, true, false, 0,
        [Event.setNode Node.TriggerSource 7, Event.setNode Node.TriggerMode 0]⟩ (by decide!)⟩

/-- C27: on the complete frame whose Mono8 bytes are 0, 7, 9,
`Flir::acquireImage` returns the empty vector, which is also what it returns on
an incomplete frame. In general, when it returns a vector on a complete frame,
that vector is the longest prefix of the converted data without zero byte, the
data goes on with a zero byte, and the vector contains no zero byte; and it does
return it when the data holds a zero byte and no call raises. -/
theorem C27_result_is_prefix_before_zero :
    (zeroFirstDevice.frames 0
        = some { incomplete := false, convertFails := false, saveFails := false,
                 mono8 := [0, 7, 9] } ∧
      Flir.acquireImage zeroFirstDevice Cam.fresh
        = Outcome.ok (some []) ⟨BufferOwnership.SYSTEM, false, true, 1,
            [Event.beginAcquisition, Event.getNextImage 0, Event.convert 0]⟩ ∧
      Flir.acquireImage incompleteDevice Cam.fresh
        = Outcome.ok (some []) ⟨BufferOwnership.SYSTEM, false, true, 1,
            [Event.beginAcquisition, Event.getNextImage 0]⟩) ∧
    (∀ (dev : Device) (s s1 : Cam) (f : Frame) (image : List Nat),
      dev.frames s.nextFrame = some f → f.incomplete = false →
      Flir.acquireImage dev s = Outcome.ok (some image) s1 →
      image = f.mono8.takeWhile (fun b => decide (b ≠ 0)) ∧ 0 ∉ image ∧
        ∃ rest, f.mono8 = image ++ 0 :: rest) ∧
    ∀ (dev : Device) (s : Cam) (f : Frame),
      dev.frames s.nextFrame = some f → f.incomplete = false → 0 ∈ f.mono8 →
      dev.throws Api.BeginAcquisition = false → f.convertFails = false →
      ∃ s1, Flir.acquireImage dev s
        = Outcome.ok (some (f.mono8.takeWhile (fun b => decide (b ≠ 0)))) s1 := by
  refine ⟨by decide!, ?_, ?_⟩
  · intro dev s s1 f image hf hinc h
    rw [acquireImage_cases] at h
    simp only [hf, hinc, Bool.false_eq_true, if_false] at h
    split_ifs at h
    simp only [Outcome.ok.injEq, Option.map_eq_some'] at h
    obtain ⟨⟨n, hn, rfl⟩, -⟩ := h
    obtain ⟨h1, h2, rest, h3⟩ := strlen_eq_some f.mono8 n hn
    exact ⟨h1, h2, rest, h3⟩
  · intro dev s f hf hinc hzero hbegin hconv
    obtain ⟨n, hn⟩ := strlen_of_mem f.mono8 hzero
    obtain ⟨h1, -, -⟩ := strlen_eq_some f.mono8 n hn
    rw [acquireImage_cases]
    simp only [hf, hinc, hbegin, hconv, Bool.false_eq_true, if_false, hn, Option.map_some', h1]
    exact ⟨_, rfl⟩

/-- Witness of C27: the capture of the frame whose Mono8 bytes are 0, 7, 9. -/
theorem C27_result_is_prefix_before_zero_witness :
    zeroFirstDevice.frames Cam.fresh.nextFrame
      = some { incomplete := false, convertFails := false, saveFails := false,
               mono8 := [0, 7, 9] } ∧
    Flir.acquireImage zeroFirstDevice Cam.fresh
      = Outcome.ok (some []) ⟨BufferOwnership.SYSTEM, false, true, 1,
          [Event.beginAcquisition, Event.getNextImage 0, Event.convert 0]⟩ ∧
    ([] : List Nat) = [0, 7, 9].takeWhile (fun b => decide (b ≠ 0)) ∧ 0 ∉ ([] : List Nat) ∧
      ∃ rest, [0, 7, 9] = ([] : List Nat) ++ 0 :: rest :=
  ⟨by decide!, by decide!,
    C27_result_is_prefix_before_zero.2.1 zeroFirstDevice Cam.fresh
      ⟨BufferOwnership.SYSTEM, false, true, 1,
        [Event.beginAcquisition, Event.getNextImage 0, Event.convert 0]⟩
      { incomplete := false, convertFails := false, saveFails := false, mono8 := [0, 7, 9] }
      [] (by decide!) rfl (by decide!)⟩

/-- C28: in the acquisition loop of both `AcquireImages` functions, an iteration
on a complete frame whose conversion or saving raises ends with `result = -1`
and without `Release` on that frame; the loop then ends with `result = -1` and
that frame is released nowhere in it. Hence a run of the loop that releases
every frame it has retrieved is a run in which no conversion and no saving of a
complete frame raised. -/
theorem C28_failed_frame_not_released (dev : Device) (n : Nat) (result : Int) (s : Cam) :
    (∃ r calls, tryCatch (do retrieveConvertSave dev; pure result) (pure (-1)) s
        = Outcome.ok r ⟨s.ownership, s.initialized, s.streaming, s.nextFrame + 1,
            s.log ++ calls⟩ ∧
      ∀ f, dev.frames s.nextFrame = some f → f.incomplete = false →
        (f.convertFails = true ∨ f.saveFails = true) →
        r = -1 ∧ Event.release s.nextFrame ∉ calls) ∧
    ∃ r calls,
      imageLoop dev n result s
        = Outcome.ok r ⟨s.ownership, s.initialized, s.streaming, s.nextFrame + n,
            s.log ++ calls⟩ ∧
      (∀ k, s.nextFrame ≤ k → k < s.nextFrame + n →
        ∀ f, dev.frames k = some f → f.incomplete = false →
          (f.convertFails = true ∨ f.saveFails = true) →
          r = -1 ∧ Event.release k ∉ calls) ∧
      ((∀ k, s.nextFrame ≤ k → k < s.nextFrame + n →
          ∀ f, dev.frames k = some f → Event.release k ∈ calls) →
        ∀ k, s.nextFrame ≤ k → k < s.nextFrame + n →
          ∀ f, dev.frames k = some f → f.incomplete = false →
            f.convertFails = false ∧ f.saveFails = false) := by
  constructor
  · obtain ⟨r, calls, hrun, -, -, hframe⟩ := iteration_failures dev result s
    exact ⟨r, calls, hrun, fun f hf hinc hbad => (hframe f hf hinc).1 hbad⟩
  · obtain ⟨r, calls, hrun, -, -, hin⟩ := imageLoop_failures dev n result s
    refine ⟨r, calls, hrun, fun k h1 h2 f hf hinc hbad => (hin k h1 h2 f hf hinc).1 hbad, ?_⟩
    intro hall k h1 h2 f hf hinc
    have hrel := hall k h1 h2 f hf
    have hfail := (hin k h1 h2 f hf hinc).1
    constructor
    · cases hc : f.convertFails
      · rfl
      · exact absurd hrel (hfail (Or.inl hc)).2
    · cases hs : f.saveFails
      · rfl
      · exact absurd hrel (hfail (Or.inr hs)).2

/-- Witness of C28: the ten iterations on the camera on which the conversion of
frame 3 and the saving of frame 5 raise. Both `AcquireImages` functions return
`-1` on it, having released frame 4 but neither frame 3 nor frame 5. -/
theorem C28_failed_frame_not_released_witness :
    (∃ r calls, imageLoop flakyDevice k_numImages 0 Cam.fresh
        = Outcome.ok r ⟨Cam.fresh.ownership, Cam.fresh.initialized, Cam.fresh.streaming,
            Cam.fresh.nextFrame + k_numImages, Cam.fresh.log ++ calls⟩ ∧
      (∀ k, Cam.fresh.nextFrame ≤ k → k < Cam.fresh.nextFrame + k_numImages →
        ∀ f, flakyDevice.frames k = some f → f.incomplete = false →
          (f.convertFails = true ∨ f.saveFails = true) →
          r = -1 ∧ Event.release k ∉ calls) ∧
      ((∀ k, Cam.fresh.nextFrame ≤ k → k < Cam.fresh.nextFrame + k_numImages →
          ∀ f, flakyDevice.frames k = some f → Event.release k ∈ calls) →
        ∀ k, Cam.fresh.nextFrame ≤ k → k < Cam.fresh.nextFrame + k_numImages →
          ∀ f, flakyDevice.frames k = some f → f.incomplete = false →
            f.convertFails = false ∧ f.saveFails = false)) ∧
    (∃ s1, CounterAndTimer.AcquireImages flakyDevice Cam.fresh = Outcome.ok (-1) s1 ∧
      Event.release 3 ∉ s1.log ∧ Event.release 5 ∉ s1.log ∧ Event.release 4 ∈ s1.log) ∧
    ∃ s1, AcquisitionUserBuffer.AcquireImages flakyDevice true Cam.fresh = Outcome.ok (-1) s1 ∧
      Event.release 3 ∉ s1.log ∧ Event.release 5 ∉ s1.log ∧ Event.release 4 ∈ s1.log :=
  ⟨(C28_failed_frame_not_released flakyDevice k_numImages 0 Cam.fresh).2,
    ⟨(CounterAndTimer.AcquireImages flakyDevice Cam.fresh).state, by decide!, by decide!,
      by decide!, by decide!⟩,
    ⟨(AcquisitionUserBuffer.AcquireImages flakyDevice true Cam.fresh).state, by decide!,
      by decide!, by decide!, by decide!⟩⟩

/-- C29 (as stated, refuted): three cameras whose model name contains neither
"BFS" nor "ORX" and whose `LineSelector` and `LineSource` nodes are available
and writable, on which `ConfigureDigitalIO` returns `-1` and writes nothing: one
whose `LineSource` has no entry `Counter0Active`, one whose `DeviceModelName`
node cannot be read, and one that refuses the write of `LineSource`. -/
theorem C29_counterexample :
    (∀ dev ∈ [noCounterOutputDevice, unnamedDevice, refusingDevice],
      CounterAndTimer.modelContains dev.modelName CounterAndTimer.cameraFamilyBFS = false ∧
      CounterAndTimer.modelContains dev.modelName CounterAndTimer.cameraFamilyOryx = false ∧
      dev.available Node.LineSelector = true ∧ dev.writable Node.LineSelector = true ∧
      dev.available Node.LineSource = true ∧ dev.writable Node.LineSource = true ∧
      CounterAndTimer.ConfigureDigitalIO dev Cam.fresh = Outcome.ok (-1) Cam.fresh) ∧
    noCounterOutputDevice.entryValue Node.LineSource Entry.Counter0Active = none ∧
    notReadable unnamedDevice Node.DeviceModelName = true ∧
    refusingDevice.throws (Api.write Node.LineSource) = true := by
  refine ⟨?_, by decide!, by decide!, by decide!⟩
  intro dev hdev
  simp only [List.mem_cons, List.mem_singleton, List.not_mem_nil, or_false] at hdev
  rcases hdev with rfl | rfl | rfl <;> decide!

/-- C29 (amended): for every camera whose model name can be read and contains
neither "BFS" nor "ORX", whose `LineSelector` and `LineSource` nodes are
available and writable, whose `LineSource` has the entry `Counter0Active`, and
which does not refuse the write, `ConfigureDigitalIO` returns 0 having made
exactly one call, the write `LineSource = Counter0Active`: every other node,
`LineSelector`, `LineMode` and `V3_3Enable` among them, holds the value last
written to it before the call. -/
theorem C29_other_family_binds_line_source (dev : Device) (s : Cam) (counter0Active : Int)
    (hbfs : CounterAndTimer.modelContains dev.modelName CounterAndTimer.cameraFamilyBFS = false)
    (horyx : CounterAndTimer.modelContains dev.modelName CounterAndTimer.cameraFamilyOryx
      = false)
    (hname : notReadable dev Node.DeviceModelName = false)
    (hselector : notWritable dev Node.LineSelector = false)
    (hsource : notWritable dev Node.LineSource = false)
    (hentry : dev.entryValue Node.LineSource Entry.Counter0Active = some counter0Active)
    (hwrite : dev.throws (Api.write Node.LineSource) = false) :
    CounterAndTimer.ConfigureDigitalIO dev s
      = Outcome.ok 0 (s.record (Event.setNode Node.LineSource counter0Active)) ∧
    (s.record (Event.setNode Node.LineSource counter0Active)).log
      = s.log ++ [Event.setNode Node.LineSource counter0Active] ∧
    ∀ n, n ≠ Node.LineSource → ∀ dflt,
      lastWritten n dflt (s.record (Event.setNode Node.LineSource counter0Active)).log
        = lastWritten n dflt s.log := by
  refine ⟨?_, rfl, ?_⟩
  · unfold CounterAndTimer.ConfigureDigitalIO call tryCatch
    simp [bind_apply, returnIf, entryOrReturn, setValue, pure_apply, hname, hselector, hsource,
      hentry, hwrite, hbfs, horyx, CounterAndTimer.ConfigureDigitalIO.selectLine,
      CounterAndTimer.ConfigureDigitalIO.enableVoltage]
  · intro n hn dflt
    have hn1 : ¬ Node.LineSource = n := fun e => hn e.symm
    simp [record_log, lastWritten_append, lastWritten, hn1]

/-- Witness of C29: the healthy camera of another family. -/
theorem C29_other_family_binds_line_source_witness :
    CounterAndTimer.modelContains otherFamilyDevice.modelName CounterAndTimer.cameraFamilyBFS
      = false ∧
    CounterAndTimer.modelContains otherFamilyDevice.modelName CounterAndTimer.cameraFamilyOryx
      = false ∧
    notReadable otherFamilyDevice Node.DeviceModelName = false ∧
    notWritable otherFamilyDevice Node.LineSelector = false ∧
    notWritable otherFamilyDevice Node.LineSource = false ∧
    otherFamilyDevice.entryValue Node.LineSource Entry.Counter0Active = some 1 ∧
    otherFamilyDevice.throws (Api.write Node.LineSource) = false ∧
    CounterAndTimer.ConfigureDigitalIO otherFamilyDevice Cam.fresh
      = Outcome.ok 0 (Cam.fresh.record (Event.setNode Node.LineSource 1)) ∧
    (Cam.fresh.record (Event.setNode Node.LineSource 1)).log
      = Cam.fresh.log ++ [Event.setNode Node.LineSource 1] ∧
    ∀ n, n ≠ Node.LineSource → ∀ dflt,
      lastWritten n dflt (Cam.fresh.record (Event.setNode Node.LineSource 1)).log
        = lastWritten n dflt Cam.fresh.log :=
  ⟨by decide!, by decide!, by decide!, by decide!, by decide!, by decide!, by decide!,
    C29_other_family_binds_line_source otherFamilyDevice Cam.fresh 1 (by decide!) (by decide!)
      (by decide!) (by decide!) (by decide!) (by decide!) (by decide!)⟩

/-- C30: for every `int` value `in` with 1 ≤ `in` ≤ 2^30,
`GetMinimumPowerOfTwo(in)` returns, and its result is the smallest power of two
that is greater than or equal to `in`; for every `in` ≤ 1 it returns 1. (Above
2^30 the loop doubles 2^30, which leaves the range of `int`.) -/
theorem C30_minimum_power_of_two (input : Int) :
    (1 ≤ input → input ≤ 2 ^ 30 →
      ∃ m : Nat, GetMinimumPowerOfTwo input = some (2 ^ m) ∧ input ≤ 2 ^ m ∧
        ∀ p : Nat, input ≤ 2 ^ p → (2 : Int) ^ m ≤ 2 ^ p) ∧
    (input ≤ 1 → GetMinimumPowerOfTwo input = some 1) ∧
    (2 ^ 30 < input → GetMinimumPowerOfTwo input = none) := by
  refine ⟨fun _ hle => ?_, fun h1 => ?_, fun hgt => ?_⟩
  · obtain ⟨m, -, hrun, hge, hmin⟩ :=
      GetMinimumPowerOfTwo_loop_spec input hle 32 0 (by omega) (by omega)
        (fun j hj => absurd hj (Nat.not_lt_zero j))
    refine ⟨m, by simpa [GetMinimumPowerOfTwo] using hrun, hge, fun p hp => ?_⟩
    by_cases hpm : p < m
    · have := hmin p hpm
      omega
    · exact pow_le_pow_right₀ (by norm_num) (by omega)
  · have hnot : ¬ (1 : Int) < input := by omega
    simp [GetMinimumPowerOfTwo, GetMinimumPowerOfTwo.loop, hnot]
  · simpa [GetMinimumPowerOfTwo] using GetMinimumPowerOfTwo_loop_overflow input hgt 32 0 (by omega)

/-- Witness of C30: the inputs 600 (result 1024), 2^30 (result 2^30), -5
(result 1) and 2^30 + 1 (the doubling of 2^30 leaves the range of `int`). -/
theorem C30_minimum_power_of_two_witness :
    ((1 : Int) ≤ 600 ∧ (600 : Int) ≤ 2 ^ 30 ∧
      ∃ m : Nat, GetMinimumPowerOfTwo 600 = some (2 ^ m) ∧ (600 : Int) ≤ 2 ^ m ∧
        ∀ p : Nat, (600 : Int) ≤ 2 ^ p → (2 : Int) ^ m ≤ 2 ^ p) ∧
    GetMinimumPowerOfTwo 600 = some 1024 ∧
    GetMinimumPowerOfTwo (2 ^ 30) = some (2 ^ 30) ∧
    ((-5 : Int) ≤ 1 ∧ GetMinimumPowerOfTwo (-5) = some 1) ∧
    ((2 : Int) ^ 30 < 2 ^ 30 + 1 ∧ GetMinimumPowerOfTwo (2 ^ 30 + 1) = none) :=
  ⟨⟨by decide, by decide, (C30_minimum_power_of_two 600).1 (by decide) (by decide)⟩,
    by decide!, by decide!,
    ⟨by decide, (C30_minimum_power_of_two (-5)).2.1 (by decide)⟩,
    ⟨by decide, (C30_minimum_power_of_two (2 ^ 30 + 1)).2.2 (by decide)⟩⟩

end Medusa
